import Mathlib

/-!
Verification of the iTwin.js polygon/curve offset engine
(core/geometry/src/curve/internalContexts/PolygonOffsetContext.ts) and the
binary tile-content decoder (core/frontend/src/imdl/ImdlParser.ts) against
their natural-language specification.

Conventions of the embedding:
* Numbers are embedded as rationals; machine integers as naturals.
* The geometric primitive library (Point3d, Vector3d, Ray3d, Geometry
  tolerances) is not part of the analysed sources; those operations are
  modelled from the spec.  Operations whose values are transcendental
  (angle measure, cosine, arc-point evaluation, euclidean norm) never
  influence control flow in the analysed code, so they are supplied as an
  explicit oracle parameter and every theorem is universally quantified
  over the oracle.
* The polygon-offset pipeline instantiates every chain fragment as a line
  segment, which is all the analysed claims quantify over, so the joint
  record stores fragments as segments.
-/

/-- Modelled from the spec: the fixed absolute geometric tolerance used by
all point-coincidence tests ("a fixed absolute/relative geometric
tolerance, not exact floating equality"). -/
def smallMetricDistance : ℚ := 1 / 1000000

/-- Modelled from the spec: scalar coincidence test of the geometric
primitive library (Geometry.isSameCoordinate). -/
def isSameCoordinate (a b : ℚ) : Bool := |a - b| ≤ smallMetricDistance

/-- Modelled from the spec: clamp of the geometric primitive library
(Geometry.clamp(value, min, max) = max(min, min(value, max))). -/
def qclamp (value lo hi : ℚ) : ℚ := max lo (min value hi)

/-- Point of the geometric primitive library (Point3d), with rational
coordinates. -/
structure PointQ where
  x : ℚ
  y : ℚ
  z : ℚ
deriving DecidableEq

instance : Inhabited PointQ := ⟨⟨0, 0, 0⟩⟩

/-- Vector of the geometric primitive library (Vector3d), with rational
coordinates. -/
structure VecQ where
  x : ℚ
  y : ℚ
  z : ℚ
deriving DecidableEq

instance : Inhabited VecQ := ⟨⟨0, 0, 0⟩⟩

/-- Modelled from the spec: Point3d.isAlmostEqual, coordinatewise
comparison under the fixed geometric tolerance. -/
def isAlmostEqualPt (p q : PointQ) : Bool :=
  isSameCoordinate p.x q.x && isSameCoordinate p.y q.y && isSameCoordinate p.z q.z

/-- Vector from p to q (Vector3d.createStartEnd). -/
def vecFromTo (p q : PointQ) : VecQ := ⟨q.x - p.x, q.y - p.y, q.z - p.z⟩

/-- Squared euclidean magnitude of a vector. -/
def magnitudeSq (v : VecQ) : ℚ := v.x * v.x + v.y * v.y + v.z * v.z

/-- Modelled from the spec: Vector3d.rotate90CCWXY, rotation by 90 degrees
counterclockwise about the z axis. -/
def rotate90CCWXY (v : VecQ) : VecQ := ⟨-v.y, v.x, v.z⟩

/-- Scalar multiple of a vector. -/
def vscale (a : ℚ) (v : VecQ) : VecQ := ⟨a * v.x, a * v.y, a * v.z⟩

/-- Point plus a scaled vector (Point3d.plusScaled). -/
def plusScaled (p : PointQ) (v : VecQ) (a : ℚ) : PointQ :=
  ⟨p.x + a * v.x, p.y + a * v.y, p.z + a * v.z⟩

/-- Angle value as produced by Vector3d.angleToXY.  The radian measure of
an angle between rational vectors is transcendental; the oracle supplies
both the degree and the radian measure as abstract rationals.  Only the
degree measure ever takes part in a comparison in the analysed code. -/
structure AngleQ where
  degrees : ℚ
  radians : ℚ
deriving DecidableEq

/-- Ray: origin plus direction (Ray3d). -/
structure RayQ where
  origin : PointQ
  direction : VecQ
deriving DecidableEq

/-- Circular arc record (Arc3d) as produced by Joint.constructArc: center,
0-degree vector, 90-degree vector and the sweep (radian stand-in). -/
structure ArcQ where
  center : PointQ
  vector0 : VecQ
  vector90 : VecQ
  sweepEndRadians : ℚ
deriving DecidableEq

/-- Line-segment fragment (LineSegment3d) together with the optional
baseCurveStart/baseCurveEnd annotations that the offset pipeline attaches
(CurveChainWireOffsetContext.applyBasePoints). -/
structure SegQ where
  ptA : PointQ
  ptB : PointQ
  baseStart : Option PointQ
  baseEnd : Option PointQ
deriving DecidableEq

instance : Inhabited SegQ := ⟨⟨default, default, none, none⟩⟩

/-- Start point of a segment. -/
def SegQ.startPoint (s : SegQ) : PointQ := s.ptA

/-- End point of a segment. -/
def SegQ.endPoint (s : SegQ) : PointQ := s.ptB

/-- Point at a fraction along a segment (LineSegment3d.fractionToPoint). -/
def SegQ.fractionToPoint (s : SegQ) (f : ℚ) : PointQ :=
  plusScaled s.ptA (vecFromTo s.ptA s.ptB) f

/-- Ray at a fraction along a segment
(CurvePrimitive.fractionToPointAndDerivative); the derivative of a segment
is its chord vector at every fraction. -/
def SegQ.fractionToPointAndDerivative (s : SegQ) (f : ℚ) : RayQ :=
  ⟨s.fractionToPoint f, vecFromTo s.ptA s.ptB⟩

/-- Partial clone of a segment between two fractions
(LineSegment3d.clonePartialCurve); the clone carries no baseCurve
annotations. -/
def SegQ.clonePartialCurve (s : SegQ) (fA fB : ℚ) : SegQ :=
  ⟨s.fractionToPoint fA, s.fractionToPoint fB, none, none⟩

/-- Curve primitive stored as a joint's connector curve: either a line
segment, a line string, or a circular arc. -/
inductive JCurveQ where
  | jseg (s : SegQ)
  | jline (pts : List PointQ)
  | jarc (a : ArcQ)
deriving DecidableEq

/-- Oracle for the operations of the geometric primitive library whose
values are transcendental (modelled from the spec; their code is not part
of the analysed sources and none of them influences control flow in the
analysed code, so every theorem below quantifies over the oracle):
* normOf: euclidean magnitude of a vector (Vector3d.magnitude);
* angleOf: signed xy angle between two vectors (Vector3d.angleToXY);
* cosOf: cosine of a radian measure (Math.cos);
* distOf: euclidean distance between two points (Point3d.distance);
* arcPointAt: point of an arc at an angular fraction and a radial scale
  (Arc3d.fractionAndRadialFractionToPoint);
* arcStrokes: stroke points of an arc (Arc3d.emitStrokes). -/
structure GeomOracle where
  normOf : VecQ → ℚ
  angleOf : VecQ → VecQ → AngleQ
  cosOf : ℚ → ℚ
  distOf : PointQ → PointQ → ℚ
  arcPointAt : ArcQ → ℚ → ℚ → PointQ
  arcStrokes : ArcQ → List PointQ

/-- Trivial oracle instance used to evaluate witnesses. -/
def oracle0 : GeomOracle where
  normOf := fun _ => 1
  angleOf := fun _ _ => ⟨0, 0⟩
  cosOf := fun _ => 1
  distOf := fun _ _ => 0
  arcPointAt := fun a _ _ => a.center
  arcStrokes := fun a => [a.center]

/-- Result of Ray3d.closestApproachRay3dRay3d, restricted to what the
analysed code consumes: either a true intersection with the two ray
fractions and the intersection point on ray A, or no intersection. -/
inductive RayApproachQ where
  | intersect (fractionA fractionB : ℚ) (pointA : PointQ)
  | noIntersect
deriving DecidableEq

/-- Modelled from the spec: intersection of the two infinite support
lines of two rays in the xy plane (Ray3d.closestApproachRay3dRay3d as
consumed by the offset engine).  The lines intersect exactly when the xy
cross product of the directions is nonzero; the fractions solve the 2x2
linear system. -/
def closestApproachRay3dRay3d (r0 r1 : RayQ) : RayApproachQ :=
  let det := r0.direction.x * r1.direction.y - r0.direction.y * r1.direction.x
  if det = 0 then RayApproachQ.noIntersect
  else
    let wx := r1.origin.x - r0.origin.x
    let wy := r1.origin.y - r0.origin.y
    let fA := (wx * r1.direction.y - wy * r1.direction.x) / det
    let fB := (wx * r0.direction.y - wy * r0.direction.x) / det
    RayApproachQ.intersect fA fB (plusScaled r0.origin r0.direction fA)

/-- JointMode of the source: classification of how a joint is
constructed. -/
inductive JointModeQ where
  | unknown
  | cap
  | extend
  | trim
  | justGeometry
  | gap
deriving DecidableEq

/-- JointOptions of the source: control parameters for joint
construction. -/
structure JointOptions where
  minArcDegrees : ℚ
  maxChamferTurnDegrees : ℚ
  allowSharpestCorners : Bool
  leftOffsetDistance : ℚ
  preserveEllipticalArcs : Bool
deriving DecidableEq

/-- JointOptions constructor defaults of the source
(minArcDegrees = 180, maxChamferDegrees = 90, both flags false). -/
def JointOptions.create (leftOffsetDistance : ℚ) : JointOptions :=
  ⟨180, 90, false, leftOffsetDistance, false⟩

/-- JointOptions.needArc of the source: the turn should be handled with an
arc when the absolute turn angle in degrees reaches minArcDegrees. -/
def JointOptions.needArc (o : JointOptions) (theta : AngleQ) : Bool :=
  o.minArcDegrees ≤ |theta.degrees|

/-- JointOptions.numChamferPoints of the source: number of corners needed
to chamfer the given turn angle. -/
def JointOptions.numChamferPoints (o : JointOptions) (theta : AngleQ) : ℤ :=
  let degrees := |theta.degrees|
  let minStepDegreesClamp : ℚ := 10
  let maxStepDegreesClamp : ℚ :=
    if o.allowSharpestCorners then o.maxChamferTurnDegrees else 120
  let stepDegrees := qclamp o.maxChamferTurnDegrees minStepDegreesClamp maxStepDegreesClamp
  if degrees ≤ stepDegrees then 1 else ⌈degrees / stepDegrees⌉

/-- Joint record of the source (class Joint), link-free part: construction
mode, the fragment before and after the joint, trim/extend fractions on
each, the constructed connector curve and the original corner point. -/
structure JointCore where
  flexure : JointModeQ
  curve0 : Option SegQ
  fraction0 : Option ℚ
  curve1 : Option SegQ
  fraction1 : Option ℚ
  jointCurve : Option JCurveQ
  swingPoint : Option PointQ
deriving DecidableEq

instance : Inhabited JointCore :=
  ⟨⟨JointModeQ.unknown, none, none, none, none, none, none⟩⟩

/-- Joint constructor of the source: capture curve0, curve1 and the swing
point; mode starts Unknown, all other fields undefined. -/
def JointCore.make (curve0 curve1 : Option SegQ) (swing : Option PointQ) : JointCore :=
  ⟨JointModeQ.unknown, curve0, none, curve1, none, none, swing⟩

/-- Joint.constructArc of the source: try to construct an arc transition
from ray0 to ray1 with the given center; succeeds when the center is
defined and both ray origins are at the same distance from it (under the
geometric tolerance). -/
def constructArc (o : GeomOracle) (ray0 : RayQ) (center : Option PointQ) (ray1 : RayQ) :
    Option ArcQ :=
  match center with
  | none => none
  | some c =>
    if isSameCoordinate (o.distOf ray0.origin c) (o.distOf ray1.origin c) then
      let angle := o.angleOf ray0.direction ray1.direction
      let vector0 := vecFromTo c ray0.origin
      let vector90 := rotate90CCWXY vector0
      some ⟨c, vector0, vector90, angle.radians⟩
    else none

/-- Interior points of the chamfer line string built by
Joint.annotateExtension: numChamferPoints samples of the corner arc at the
odd half-step angular fractions, scaled radially by 1/cos(halfStep). -/
def chamferInteriorPoints (o : GeomOracle) (arc : ArcQ) (radialFraction : ℚ)
    (numHalfStep : ℚ) : Nat → List PointQ
  | 0 => []
  | n + 1 =>
    chamferInteriorPoints o arc radialFraction numHalfStep n ++
      [o.arcPointAt arc ((1 + 2 * (n : ℚ)) / numHalfStep) radialFraction]

/-- Joint.annotateExtension of the source: given both adjacent fragments,
take the rays at the end of curve0 and the start of curve1; if the rays
intersect ahead of curve0 and behind curve1, mark Extend and build the
joint curve (arc when needArc and the arc is constructible, otherwise a
sharp corner when the chamfer count is at most one, otherwise a chamfer
line string when the arc is constructible); in every remaining case mark
Gap and bridge with a line segment. -/
def annotateExtension (o : GeomOracle) (opts : JointOptions) (j : JointCore) : JointCore :=
  match j.curve0, j.curve1 with
  | some c0, some c1 =>
    let ray0 := c0.fractionToPointAndDerivative 1
    let ray1 := c1.fractionToPointAndDerivative 0
    let gapResult : JointCore :=
      { j with
        flexure := JointModeQ.gap,
        jointCurve := some (JCurveQ.jseg ⟨c0.fractionToPoint 1, c1.fractionToPoint 0, none, none⟩),
        fraction0 := some 1,
        fraction1 := some 0 }
    match closestApproachRay3dRay3d ray0 ray1 with
    | RayApproachQ.intersect fA _fB pA =>
      if 0 ≤ fA ∧ _fB ≤ 0 then
        let j1 : JointCore :=
          { j with fraction0 := some 1, fraction1 := some 0, flexure := JointModeQ.extend }
        let theta := o.angleOf ray0.direction ray1.direction
        let arcAttempt :=
          if opts.needArc theta then constructArc o ray0 c0.baseEnd ray1 else none
        match arcAttempt with
        | some arc => { j1 with jointCurve := some (JCurveQ.jarc arc) }
        | none =>
          let numChamferPoints := opts.numChamferPoints theta
          if numChamferPoints ≤ 1 then
            { j1 with jointCurve := some (JCurveQ.jline [ray0.origin, pA, ray1.origin]) }
          else
            match constructArc o ray0 c0.baseEnd ray1 with
            | some arc =>
              let numHalfStep : ℚ := 2 * (numChamferPoints : ℚ)
              let halfStepRadians := theta.radians / numHalfStep
              let radialFraction := 1 / o.cosOf halfStepRadians
              { j1 with
                jointCurve := some (JCurveQ.jline
                  (ray0.origin ::
                    (chamferInteriorPoints o arc radialFraction numHalfStep
                      numChamferPoints.toNat ++ [ray1.origin]))) }
            | none => gapResult
      else gapResult
    | RayApproachQ.noIntersect => gapResult
  | _, _ => j

/-- Joint.annotateJointMode of the source: examine the adjacent fragments
to set the joint mode, the fractions and the joint curve.  Chain ends are
Cap; fragments that already share an endpoint are a pass-through Trim;
otherwise (both fragments being segments in the polygon pipeline) the
support-line intersection fractions decide between Extend handling, Trim
and Gap; when the support lines are parallel, or the fractions fall in
none of the three ranges, the joint is left unchanged apart from the
recorded fractions. -/
def annotateJointMode (o : GeomOracle) (opts : JointOptions) (j : JointCore) : JointCore :=
  match j.curve0, j.curve1 with
  | none, some _ => { j with flexure := JointModeQ.cap, fraction1 := some 0 }
  | some _, none => { j with flexure := JointModeQ.cap, fraction0 := some 1 }
  | some c0, some c1 =>
    if isAlmostEqualPt c0.endPoint c1.startPoint then
      { j with fraction0 := some 1, fraction1 := some 0, flexure := JointModeQ.trim }
    else
      let ray0 := c0.fractionToPointAndDerivative 0
      let ray1 := c1.fractionToPointAndDerivative 0
      match closestApproachRay3dRay3d ray0 ray1 with
      | RayApproachQ.intersect fA fB _ =>
        let j1 : JointCore := { j with fraction0 := some fA, fraction1 := some fB }
        if 1 ≤ fA ∧ fB ≤ 0 then annotateExtension o opts j1
        else if fA < 1 ∧ 0 < fB then { j1 with flexure := JointModeQ.trim }
        else if 1 < fA ∧ 1 < fB then
          { j1 with
            flexure := JointModeQ.gap,
            jointCurve := some (JCurveQ.jseg
              ⟨c0.fractionToPoint 1, c1.fractionToPoint 0, none, none⟩),
            fraction0 := some 1,
            fraction1 := some 0 }
        else j1
      | RayApproachQ.noIntersect => j
  | none, none => j

/-- Joint with its chain links.  The source links joints by object
reference; the embedding stores the joints in an arena (a list) and links
them by index, preserving object identity and in-place mutation. -/
structure JointData where
  core : JointCore
  nextJoint : Option Nat
  previousJoint : Option Nat
deriving DecidableEq

instance : Inhabited JointData := ⟨⟨default, none, none⟩⟩

/-- Arena of joints; a joint is addressed by its index. -/
abbrev ChainState : Type := List JointData

/-- Read a joint of the arena; an out-of-range index behaves as an empty
joint (every guard on it fails, as a JS access on undefined would). -/
def jd (s : ChainState) (i : Nat) : JointData := s.getD i default

/-- Replace a joint of the arena. -/
def setJd (s : ChainState) (i : Nat) (j : JointData) : ChainState := s.set i j

/-- Update only the link-free part of a joint. -/
def modifyCore (s : ChainState) (i : Nat) (f : JointCore → JointCore) : ChainState :=
  setJd s i { jd s i with core := f (jd s i).core }

/-- Joint.link of the source: establish nextJoint and previousJoint from
joint0 to joint1, and share the fragment between them when exactly one of
joint0.curve1 and joint1.curve0 is defined. -/
def linkJoints (s : ChainState) (i0 : Nat) (oi1 : Option Nat) : ChainState :=
  let s1 := setJd s i0 { jd s i0 with nextJoint := oi1 }
  match oi1 with
  | none => s1
  | some i1 =>
    let s2 := setJd s1 i1 { jd s1 i1 with previousJoint := some i0 }
    let c01 := (jd s2 i0).core.curve1
    let c10 := (jd s2 i1).core.curve0
    if c01.isSome ∧ c10.isNone then
      modifyCore s2 i1 (fun c => { c with curve0 := c01 })
    else if c01.isNone ∧ c10.isSome then
      modifyCore s2 i0 (fun c => { c with curve1 := c10 })
    else s2

/-- Annotate one joint of the arena in place. -/
def annotateAt (o : GeomOracle) (opts : JointOptions) (s : ChainState) (i : Nat) :
    ChainState :=
  modifyCore s i (annotateJointMode o opts)

/-- Visit loop of Joint.visitJointsOnChain specialised to the annotate
callback (Joint.annotateChain): follow nextJoint from the start joint,
annotating each visited joint, stopping after the iteration guard
(modelled as fuel, initialised to maxTest + 5), at the end of an open
chain, or on return to the start of a cyclic chain. -/
def annotateVisit (o : GeomOracle) (opts : JointOptions) (start : Nat) :
    ChainState → Option Nat → Nat → ChainState
  | s, _, 0 => s
  | s, none, _ + 1 => s
  | s, some i, fuel + 1 =>
    let s1 := annotateAt o opts s i
    let nxt := (jd s1 i).nextJoint
    if nxt = some start then s1 else annotateVisit o opts start s1 nxt fuel

/-- Joint.annotateChain of the source. -/
def annotateChain (o : GeomOracle) (opts : JointOptions) (s : ChainState)
    (start : Nat) (maxTest : Nat) : ChainState :=
  annotateVisit o opts start s (some start) (maxTest + 5)

/-- Joint.nextJointFraction0 of the source: fraction0 of the next joint
when defined, otherwise the default. -/
def nextJointFraction0 (s : ChainState) (i : Nat) (defaultValue : ℚ) : ℚ :=
  match (jd s i).nextJoint with
  | none => defaultValue
  | some n =>
    match (jd s n).core.fraction0 with
    | none => defaultValue
    | some f => f

/-- Outcome of one body step of the removeDegeneratePrimitives scan. -/
structure RemoveState where
  arena : ChainState
  start : Nat
  numRemoved : Nat
deriving DecidableEq

/-- Scan loop of Joint.removeDegeneratePrimitives: walk the chain from
jointA; when the fractions witness a vanished primitive (eliminateF,
optionally together with eliminateG on the next primitive), splice out the
doomed joints, relink through a freshly constructed joint and re-annotate
the affected joints; the counted (single) elimination returns as soon as
maxRemove = 1 is reached.  The source guards the loop by a test counter;
the embedding carries it as fuel. -/
def removeDegenAux (o : GeomOracle) (opts : JointOptions) :
    ChainState → Nat → Option Nat → Nat → Nat → RemoveState
  | s, start, _, numRemoved, 0 => ⟨s, start, numRemoved⟩
  | s, start, none, numRemoved, _ + 1 => ⟨s, start, numRemoved⟩
  | s, start, some a, numRemoved, fuel + 1 =>
    let jA := jd s a
    let stepOn : ChainState → Nat → Nat → RemoveState := fun s6 start6 numRemoved6 =>
      let a' := (jd s6 a).nextJoint
      if a' = some start6 then ⟨s6, start6, numRemoved6⟩
      else removeDegenAux o opts s6 start6 a' numRemoved6 fuel
    match jA.nextJoint with
    | none => stepOn s start numRemoved
    | some b =>
      let jB := jd s b
      match jA.previousJoint, jB.nextJoint, jA.core.fraction1, jB.core.fraction0 with
      | some pA, some cIdx, some f0, some f1 =>
        let g0 := jB.core.fraction1
        let g1 := (jd s cIdx).core.fraction0
        let eliminateF : Bool := decide (f1 ≤ f0) || decide ((1 : ℚ) < f0)
        let eliminateG : Bool :=
          (match g0 with | some v => decide ((1 : ℚ) < v) | none => false) ||
          (match g0, g1 with | some v0, some v1 => decide (v1 ≤ v0) | _, _ => false)
        if eliminateF && eliminateG then
          let newIdx := s.length
          let s1 := s ++ [⟨JointCore.make jA.core.curve0 (jd s cIdx).core.curve1 none,
            none, none⟩]
          let s2 := linkJoints s1 pA (some newIdx)
          let s3 := linkJoints s2 newIdx ((jd s2 cIdx).nextJoint)
          let s4 := annotateAt o opts s3 newIdx
          let s5 :=
            match (jd s4 newIdx).previousJoint with
            | some p => annotateAt o opts s4 p
            | none => s4
          let s6 :=
            match (jd s5 newIdx).nextJoint with
            | some n => annotateAt o opts s5 n
            | none => s5
          stepOn s6 start numRemoved
        else if eliminateF then
          let newIdx := s.length
          let s1 := s ++ [⟨JointCore.make jA.core.curve0 jB.core.curve1 none, none, none⟩]
          let s2 := linkJoints s1 pA (some newIdx)
          let s3 := linkJoints s2 newIdx ((jd s2 b).nextJoint)
          let s4 := annotateAt o opts s3 newIdx
          let s5 :=
            match (jd s4 newIdx).previousJoint with
            | some p => annotateAt o opts s4 p
            | none => s4
          let s6 :=
            match (jd s5 newIdx).nextJoint with
            | some n => annotateAt o opts s5 n
            | none => s5
          let numRemoved1 := numRemoved + 1
          let start1 := if a = start then newIdx else start
          let maxRemove := 1
          if maxRemove ≤ numRemoved1 then ⟨s6, start1, numRemoved1⟩
          else
            let a' := (jd s6 newIdx).nextJoint
            if a' = some start1 then ⟨s6, start1, numRemoved1⟩
            else removeDegenAux o opts s6 start1 a' numRemoved1 fuel
        else stepOn s start numRemoved
      | _, _, _, _ => stepOn s start numRemoved

/-- Joint.removeDegeneratePrimitives of the source: scan the chain from
the start joint with the test counter bounded by maxTest, returning the
possibly moved start joint and the number of counted removals. -/
def removeDegeneratePrimitives (o : GeomOracle) (opts : JointOptions)
    (s : ChainState) (start : Nat) (maxTest : Nat) : RemoveState :=
  removeDegenAux o opts s start (some start) 0 maxTest

/-- Pass loop of constructPolygonWireXYOffset around
removeDegeneratePrimitives: at most five passes, stopping as soon as a
pass removes no joint.  The returned list records the removal count of
each executed pass. -/
def removalPassesAux (o : GeomOracle) (opts : JointOptions) (maxTest : Nat) :
    ChainState → Nat → Nat → ChainState × Nat × List Nat
  | s, start, 0 => (s, start, [])
  | s, start, remaining + 1 =>
    let st := removeDegeneratePrimitives o opts s start maxTest
    if st.numRemoved = 0 then (st.arena, st.start, [st.numRemoved])
    else
      let rest := removalPassesAux o opts maxTest st.arena st.start remaining
      (rest.1, rest.2.1, st.numRemoved :: rest.2.2)

/-- The degeneracy-removal phase of constructPolygonWireXYOffset. -/
def removalPasses (o : GeomOracle) (opts : JointOptions) (s : ChainState)
    (start : Nat) (maxTest : Nat) : ChainState × Nat × List Nat :=
  removalPassesAux o opts maxTest s start 5

/-- Trace of removal counts of the executed passes. -/
def removalTrace (o : GeomOracle) (opts : JointOptions) (s : ChainState)
    (start : Nat) (maxTest : Nat) : List Nat :=
  (removalPasses o opts s start maxTest).2.2

/-- Modelled from the spec: LineString3d.appendStrokePoint, appending a
point unless it coincides (under the geometric tolerance) with the current
last point ("deduplicating consecutive coincident points"). -/
def appendStrokePoint (dest : List PointQ) (p : PointQ) : List PointQ :=
  match dest.getLast? with
  | none => [p]
  | some q => if isAlmostEqualPt q p then dest else dest ++ [p]

/-- Modelled from the spec: LineSegment3d.emitStrokes, appending both
endpoints of the segment as stroke points. -/
def emitStrokesSeg (dest : List PointQ) (s : SegQ) : List PointQ :=
  appendStrokePoint (appendStrokePoint dest s.startPoint) s.endPoint

/-- Emit stroke points of a joint curve (CurvePrimitive.emitStrokes for
the three connector shapes; arc stroking comes from the oracle). -/
def emitStrokesJC (o : GeomOracle) (dest : List PointQ) (c : JCurveQ) : List PointQ :=
  match c with
  | JCurveQ.jseg s => emitStrokesSeg dest s
  | JCurveQ.jline pts => pts.foldl appendStrokePoint dest
  | JCurveQ.jarc a => (o.arcStrokes a).foldl appendStrokePoint dest

/-- Joint.addStrokes of the source for an optional joint curve. -/
def addStrokesJC (o : GeomOracle) (dest : List PointQ) (c : Option JCurveQ) :
    List PointQ :=
  match c with
  | none => dest
  | some c => emitStrokesJC o dest c

/-- Joint.addPoint of the source: push the point only when the
destination is nonempty and the point differs from the current last
point. -/
def addPoint (dest : List PointQ) (p : PointQ) : List PointQ :=
  match dest.getLast? with
  | none => dest
  | some q => if isAlmostEqualPt q p then dest else dest ++ [p]

/-- Body of the collectStrokesFromChain callback at one joint: add the
strokes of the joint curve, then the strokes of the trimmed clone of
curve1 between fraction1 and the next joint's fraction0 (the whole curve
when those are 0 and 1, nothing when the trim interval is empty), adding
the clone's start point first when there was no joint curve. -/
def collectAtJoint (o : GeomOracle) (s : ChainState) (i : Nat)
    (dest : List PointQ) : List PointQ :=
  let j := (jd s i).core
  let dest1 := addStrokesJC o dest j.jointCurve
  match j.curve1, j.fraction1 with
  | some c1, some fA =>
    let fB := nextJointFraction0 s i 1
    let curve1 : Option SegQ :=
      if fA = 0 ∧ fB = 1 then some c1
      else if fA < fB then some (c1.clonePartialCurve fA fB)
      else none
    match curve1 with
    | none => dest1
    | some c =>
      let dest2 := if j.jointCurve.isNone then addPoint dest1 c.startPoint else dest1
      emitStrokesSeg dest2 c
  | _, _ => dest1

/-- Visit loop of Joint.collectStrokesFromChain: follow nextJoint from the
start joint accumulating stroke points; the callback keeps a running
counter numOut (initialised to -2 * maxTest) and stops the visit once it
reaches maxTest; the visit itself carries the maxTest + 5 iteration guard
as fuel. -/
def collectVisit (o : GeomOracle) (s : ChainState) (start : Nat) (maxTest : Int) :
    Option Nat → Int → List PointQ → Nat → List PointQ
  | _, _, dest, 0 => dest
  | none, _, dest, _ + 1 => dest
  | some i, numOut, dest, fuel + 1 =>
    let dest1 := collectAtJoint o s i dest
    if numOut < maxTest then
      let nxt := (jd s i).nextJoint
      if nxt = some start then dest1
      else collectVisit o s start maxTest nxt (numOut + 1) dest1 fuel
    else dest1

/-- Joint.collectStrokesFromChain of the source. -/
def collectStrokesFromChain (o : GeomOracle) (s : ChainState) (start : Nat)
    (maxTest : Nat) : List PointQ :=
  collectVisit o s start (maxTest : Int) (some start) (-2 * (maxTest : Int))
    [] (maxTest + 5)

/-- Modelled from the spec: success test of Vector3d.normalizeInPlace; a
vector can be normalised exactly when its length clears the fixed
geometric tolerance. -/
def normalizable (v : VecQ) : Bool :=
  smallMetricDistance * smallMetricDistance ≤ magnitudeSq v

/-- PolygonWireOffsetContext.createOffsetSegment of the source: translate
both base points along the left-hand unit perpendicular of the edge
direction, failing when the edge cannot be normalised; the produced
segment is annotated with the base points. -/
def createOffsetSegment (o : GeomOracle) (basePointA basePointB : PointQ)
    (distance : ℚ) : Option SegQ :=
  let along := vecFromTo basePointA basePointB
  if normalizable along then
    let unitAlong := vscale (1 / o.normOf along) along
    let unitPerp := rotate90CCWXY unitAlong
    some ⟨plusScaled basePointA unitPerp distance,
      plusScaled basePointB unitPerp distance,
      some basePointA, some basePointB⟩
  else none

/-- Chain-building loop of constructPolygonWireXYOffset over the interior
corners: each iteration creates the offset fragment of the next edge, a
joint between the previous fragment and it at the corner point, and links
it behind the previous joint. -/
def buildLoopAux (o : GeomOracle) (dist : ℚ) :
    ChainState → Nat → Option SegQ → List (PointQ × PointQ) →
      ChainState × Nat × Option SegQ
  | s, prevIdx, fragment0, [] => (s, prevIdx, fragment0)
  | s, prevIdx, fragment0, (pi, pj) :: rest =>
    let fragment1 := createOffsetSegment o pi pj dist
    let newIdx := s.length
    let s1 := s ++ [⟨JointCore.make fragment0 fragment1 (some pi), none, none⟩]
    let s2 := linkJoints s1 prevIdx (some newIdx)
    buildLoopAux o dist s2 newIdx fragment1 rest

/-- Raw joint chain of constructPolygonWireXYOffset: the leading joint
(index 0) before the first fragment, one joint per interior corner, and
either a wrap-around link to the leading joint or a trailing joint after
the last fragment.  The start joint is index 0. -/
def buildRawChain (o : GeomOracle) (points : List PointQ) (wrap : Bool)
    (dist : ℚ) : ChainState :=
  let p0 := points.getD 0 default
  let p1 := points.getD 1 default
  let fragment0 := createOffsetSegment o p0 p1 dist
  let s0 : ChainState := [⟨JointCore.make none fragment0 (some p0), none, none⟩]
  let pairs := (points.drop 1).zip (points.drop 2)
  let built := buildLoopAux o dist s0 0 fragment0 pairs
  let s := built.1
  let prevIdx := built.2.1
  let fragLast := built.2.2
  if wrap then linkJoints s prevIdx (some 0)
  else
    let lastIdx := s.length
    let s1 := s ++ [⟨JointCore.make fragLast none
      (some (points.getD (points.length - 1) default)), none, none⟩]
    linkJoints s1 prevIdx (some lastIdx)

/-- Flattened point sequence produced by walking the finished joint chain
of constructPolygonWireXYOffset once: build the raw chain (demoting wrap
when the first and last input points do not coincide), annotate it, run
the bounded degeneracy-removal passes, and collect the stroke points. -/
def emittedOffsetPoints (o : GeomOracle) (points : List PointQ) (wrap : Bool)
    (opts : JointOptions) : List PointQ :=
  let wrapEff := wrap &&
    isAlmostEqualPt (points.getD 0 default) (points.getD (points.length - 1) default)
  let numPoints := points.length
  let s := buildRawChain o points wrapEff opts.leftOffsetDistance
  let s1 := annotateChain o opts s 0 numPoints
  let afterPasses := removalPasses o opts s1 0 numPoints
  collectStrokesFromChain o afterPasses.1 afterPasses.2.1 numPoints

/-- Result of the polygon wire offset: a closed loop or an open path over
the emitted points. -/
inductive ChainResult where
  | loopRes (pts : List PointQ)
  | pathRes (pts : List PointQ)
deriving DecidableEq

/-- PolygonWireOffsetContext.constructPolygonWireXYOffset of the source:
emit the chain points, then wrap them as a Loop when the first and last
points coincide, as a Path otherwise, and return nothing when fewer than
two points were emitted. -/
def constructPolygonWireXYOffset (o : GeomOracle) (points : List PointQ)
    (wrap : Bool) (opts : JointOptions) : Option ChainResult :=
  let chain := emittedOffsetPoints o points wrap opts
  let n := chain.length
  if 1 < n then
    if isAlmostEqualPt (chain.getD 0 default) (chain.getD (n - 1) default) then
      some (ChainResult.loopRes chain)
    else some (ChainResult.pathRes chain)
  else none

/-!
Embedding of the binary tile-content decoder
(core/frontend/src/imdl/ImdlParser.ts, feature-complete variant).  The
byte stream, the tile header, the feature-table header and the JSON layer
come from libraries outside the analysed sources and are modelled from the
spec; the GltfHeader logic, the feature-table materialisation and the
parse pipeline follow the source.  Node/primitive parsing (stages 6-8 of
the spec) is supplied as an explicit function parameter, since no analysed
claim depends on its internals.
-/

/-- Backing buffer of a byte stream: a list of byte values. -/
abbrev Bytes : Type := List Nat

/-- Modelled from the spec: little-endian 32-bit read of the byte-cursor
stream reader at a position; bytes past the end read as zero, with bounds
violations tracked separately through isPastTheEnd. -/
def readWord (b : Bytes) (p : Nat) : Nat :=
  b.getD p 0 + 256 * b.getD (p + 1) 0 + 65536 * b.getD (p + 2) 0 +
    16777216 * b.getD (p + 3) 0

/-- Write a 32-bit word little-endian at a position (writes beyond the end
are dropped, as List.set drops them). -/
def writeWord (b : Bytes) (p v : Nat) : Bytes :=
  ((((b.set p (v % 256)).set (p + 1) (v / 256 % 256)).set
    (p + 2) (v / 65536 % 256)).set (p + 3) (v / 16777216 % 256))

/-- Clamped sub-slice of a buffer (Uint8Array.subarray semantics). -/
def byteSlice (b : Bytes) (p len : Nat) : Bytes := (b.drop p).take len

/-- Read n consecutive little-endian words starting at a position. -/
def readWords (b : Bytes) (p : Nat) : Nat → List Nat
  | 0 => []
  | n + 1 => readWord b p :: readWords b (p + 4) n

/-- Modelled from the spec: the expected format tag of the tile header
("iMdl" as a little-endian word). -/
def imdlFormatTag : Nat := 0x6C644D69

/-- Modelled from the spec: the expected format tag of the embedded scene
chunk header ("glTF" as a little-endian word). -/
def tileFormatGltf : Nat := 0x46546C67

/-- Modelled from the spec: the newest major version the decoder
understands; newer majors are rejected explicitly. -/
def currentImdlMajorVersion : Nat := 25

/-- GltfVersions.Version1 of the shared binary interchange format. -/
def gltfVersion1 : Nat := 1

/-- GltfVersions.Version2 of the shared binary interchange format. -/
def gltfVersion2 : Nat := 2

/-- Modelled from the spec: GltfVersions.Gltf1SceneFormat, the version-1
scene-format sentinel word. -/
def gltf1SceneFormat : Nat := 0

/-- GltfV2ChunkTypes.JSON of the glTF 2 container ("JSON"). -/
def gltfV2ChunkJson : Nat := 0x4E4F534A

/-- GltfV2ChunkTypes.Binary of the glTF 2 container ("BIN\0"). -/
def gltfV2ChunkBinary : Nat := 0x004E4942

/-- Modelled from the spec: the ImdlFlags bit marking a multi-model
feature table. -/
def multiModelFlagBit : Nat := 4

/-- Modelled from the spec: fixed leading fields of the tile header
(format tag, version word holding the major/minor shorts, flags), read
from the start of the buffer; the feature table follows the header. -/
structure ImdlHeaderData where
  format : Nat
  version : Nat
  flags : Nat
deriving DecidableEq

/-- Size in bytes of the modelled tile header. -/
def imdlHeaderSize : Nat := 12

/-- Read the tile header at the start of the buffer. -/
def readImdlHeader (b : Bytes) : ImdlHeaderData :=
  ⟨readWord b 0, readWord b 4, readWord b 8⟩

/-- Tile-header validity: the format tag matches the expected magic. -/
def ImdlHeaderData.isValid (h : ImdlHeaderData) : Bool :=
  h.format == imdlFormatTag

/-- Major version: high 16-bit short of the version word. -/
def ImdlHeaderData.majorVersion (h : ImdlHeaderData) : Nat := h.version / 65536

/-- The decoder understands the version when the major version does not
exceed the newest known one. -/
def ImdlHeaderData.isReadableVersion (h : ImdlHeaderData) : Bool :=
  h.majorVersion ≤ currentImdlMajorVersion

/-- Modelled from the spec: the feature-table header record: declared
total byte length (including the header's own fixed size), feature count
and sub-category count. -/
structure FeatureTableHeaderData where
  length : Nat
  count : Nat
  numSubCategories : Nat
deriving DecidableEq

/-- FeatureTableHeader.sizeInBytes. -/
def featureTableHeaderSize : Nat := 12

/-- FeatureTableHeader.readFrom: read the three header words at a
position; fail when that read runs past the end of the buffer. -/
def readFeatureTableHeaderAt (b : Bytes) (p : Nat) : Option FeatureTableHeaderData :=
  if p + featureTableHeaderSize ≤ b.length then
    some ⟨readWord b p, readWord b (p + 4), readWord b (p + 8)⟩
  else none

/-- Fields of the GltfHeader of the source: positions of the scene string
and the binary section, plus validity. -/
structure GltfHeaderData where
  format : Nat
  version : Nat
  gltfLength : Nat
  sceneStrLength : Nat
  scenePosition : Nat
  binaryPosition : Nat
  valid : Bool
deriving DecidableEq

/-- GltfHeader constructor of the source: read format and version (the
inherited TileHeader fields), the glTF length, the scene string length and
a fifth version-dependent word.  A version-2 header whose fifth word is
the version-1 scene-format sentinel is silently treated as version 1.  In
version 1 the scene follows immediately and the binary section follows the
scene string; in version 2 the fifth word must be the JSON chunk type and
a binary chunk header (nonzero length, binary chunk type) follows the
scene string.  Any mismatch, or an unknown version, invalidates the
header. -/
def readGltfHeader (b : Bytes) (p : Nat) : GltfHeaderData :=
  let format := readWord b p
  let version0 := readWord b (p + 4)
  let gltfLength := readWord b (p + 8)
  let sceneStrLength := readWord b (p + 12)
  let value5 := readWord b (p + 16)
  let version :=
    if version0 = gltfVersion2 ∧ value5 = gltf1SceneFormat then gltfVersion1
    else version0
  let invalid : GltfHeaderData :=
    ⟨format, version, gltfLength, sceneStrLength, 0, 0, false⟩
  if version = gltfVersion1 then
    if value5 ≠ gltf1SceneFormat then invalid
    else
      ⟨format, version, gltfLength, sceneStrLength, p + 20,
        p + 20 + sceneStrLength, format == tileFormatGltf⟩
  else if version = gltfVersion2 then
    let binaryLength := readWord b (p + 20 + sceneStrLength)
    let binaryChunkType := readWord b (p + 24 + sceneStrLength)
    if value5 ≠ gltfV2ChunkJson ∨ binaryChunkType ≠ gltfV2ChunkBinary ∨
        binaryLength = 0 then invalid
    else
      ⟨format, version, gltfLength, sceneStrLength, p + 20,
        p + 28 + sceneStrLength, format == tileFormatGltf⟩
  else invalid

/-- Buffer-view record of the scene JSON (byte offset and length into the
binary section), with fields already coerced to integers as the defensive
JSON layer does. -/
structure BufferViewJson where
  byteOffset : Nat
  byteLength : Nat
deriving DecidableEq

/-- animationNodes descriptor of the scene JSON: the id byte width and the
name of the buffer view holding the ids. -/
structure AnimNodesDescr where
  bytesPerId : Nat
  bufferView : String
deriving DecidableEq

/-- Scene document as consumed by the analysed decoder stages: the
animationNodes descriptor, the buffer-view map, presence of the meshes
map (whose contents, like nodes/materials/textures, only feed the
node/primitive parsing supplied as a parameter) and the root-center
offset. -/
structure SceneDoc where
  animationNodes : Option AnimNodesDescr
  bufferViews : List (String × BufferViewJson)
  meshes : Option Unit
  rtcCenter : Option (List ℚ)
deriving DecidableEq

/-- Result of decoding the scene byte range, modelled from the spec: the
UTF-8 decode can fail (invalid scene), JSON.parse can throw (caught at the
top level as invalid tile data), or the coerced document is produced. -/
inductive SceneParse where
  | badUtf8
  | parseThrow
  | okDoc (doc : SceneDoc)
deriving DecidableEq

/-- Packed feature table produced by ImdlParser.parseFeatureTable: the
packed 32-bit records, the feature count, the sub-category count for
multi-model tables and the materialised animation-node-id array. -/
structure FeatureTableModel where
  multiModel : Bool
  data : List Nat
  numFeatures : Nat
  numSubCategories : Option Nat
  animationNodeIds : Option (List Nat)
deriving DecidableEq

/-- Group consecutive byte pairs into little-endian 16-bit values
(Uint16Array view semantics on an even-length byte range). -/
def groupWords2 : Bytes → List Nat
  | b0 :: b1 :: rest => (b0 + 256 * b1) :: groupWords2 rest
  | _ => []

/-- Group consecutive byte quadruples into little-endian 32-bit values
(Uint32Array view semantics). -/
def groupWords4 : Bytes → List Nat
  | b0 :: b1 :: b2 :: b3 :: rest =>
    (b0 + 256 * b1 + 65536 * b2 + 16777216 * b3) :: groupWords4 rest
  | _ => []

/-- Exception-or-value result: Except Unit carries a thrown JS exception
(caught by the top-level handler as invalid tile data). -/
abbrev ThrowOr (a : Type) : Type := Except Unit a

/-- ImdlParser.parseFeatureTable of the source: re-read the feature-table
header at its start position; reject (undefined, mapped by the caller to
the invalid-feature-table status) a header whose declared length is not a
multiple of 4 or whose packed words would read past the buffer end;
materialise the packed feature array; for a single-model table resolve the
optional animationNodes descriptor against the scene's buffer views and
materialise the id array at 1, 2 or 4 bytes per id (the 2- and 4-byte
cases are typed-array views and throw on a misaligned or non-divisible
byte range, as JS typed arrays do; a declared length below the header size
makes the typed-array length negative, which also throws). -/
def parseFeatureTable (doc : SceneDoc) (binaryData : Bytes) (binaryPos : Nat)
    (b : Bytes) (ftStartPos : Nat) (multiModel : Bool) :
    ThrowOr (Option FeatureTableModel) := do
  match readFeatureTableHeaderAt b ftStartPos with
  | none => return none
  | some header =>
    if header.length % 4 ≠ 0 then return none
    else if header.length < featureTableHeaderSize then throw ()
    else
      let numUint32s := (header.length - featureTableHeaderSize) / 4
      let packedFeatureArray := readWords b (ftStartPos + featureTableHeaderSize) numUint32s
      if b.length < ftStartPos + featureTableHeaderSize + 4 * numUint32s then return none
      else if multiModel then
        return some ⟨true, packedFeatureArray, header.count, some header.numSubCategories, none⟩
      else
        let animNodesArray : ThrowOr (Option (List Nat)) :=
          match doc.animationNodes with
          | none => pure none
          | some descr =>
            match (doc.bufferViews.find? (fun kv => kv.1 == descr.bufferView)) with
            | none => pure none
            | some (_, bv) =>
              let bytes := byteSlice binaryData bv.byteOffset bv.byteLength
              let absOffset := binaryPos + min bv.byteOffset binaryData.length
              match descr.bytesPerId with
              | 1 => pure (some bytes)
              | 2 =>
                if bytes.length % 2 ≠ 0 ∨ absOffset % 2 ≠ 0 then throw ()
                else pure (some (groupWords2 bytes))
              | 4 =>
                if bytes.length % 4 ≠ 0 ∨ absOffset % 4 ≠ 0 then throw ()
                else pure (some (groupWords4 bytes))
              | _ => pure none
        let arr ← animNodesArray
        return some ⟨false, packedFeatureArray, header.count, none, arr⟩

/-- Parse status codes of the decoder (spec section 7 taxonomy). -/
inductive TileStatus where
  | invalidHeader
  | newerMajorVersion
  | invalidFeatureTable
  | invalidTileData
  | invalidScene
deriving DecidableEq

/-- Opaque summary of the node list produced by stages 6-8; its
construction is supplied as a parameter of the parse. -/
abbrev NodesModel : Type := List Nat

/-- Parsed document of Imdl.Document: feature table, nodes, root center,
the binary section view and the scene document. -/
structure ImdlDocModel where
  featureTable : FeatureTableModel
  nodes : NodesModel
  rtcCenter : Option (ℚ × ℚ × ℚ)
  binaryData : Bytes
  json : SceneDoc
deriving DecidableEq

/-- Result of parseImdlDocument: a status code or a document. -/
inductive ParseResult where
  | err (code : TileStatus)
  | okDoc (doc : ImdlDocModel)
deriving DecidableEq

/-- Root-center coercion of ImdlParser.parse: coordinates default to 0. -/
def rtcOf (doc : SceneDoc) : Option (ℚ × ℚ × ℚ) :=
  match doc.rtcCenter with
  | none => none
  | some l => some (l.getD 0 0, l.getD 1 0, l.getD 2 0)

/-- parseImdlDocument of the source: read and validate the tile header
(invalid header / newer major version); read the feature-table header
(invalid feature table when unreadable) and skip past the declared length;
read the GltfHeader (invalid tile data when invalid); decode the scene
byte range (invalid scene on a UTF-8 failure, invalid tile data on a
JSON.parse throw or a missing meshes map); take the binary section view (a
start position beyond the buffer throws in JS, caught as invalid tile
data); then materialise the feature table (invalid feature table when it
returns undefined, invalid tile data when it throws) and assemble the
document, with the node list supplied by parseNodesFn. -/
def parseImdlDocument (parseNodesFn : SceneDoc → FeatureTableModel → NodesModel)
    (sceneDecode : Bytes → SceneParse) (b : Bytes) : ParseResult :=
  let imdlHeader := readImdlHeader b
  if ¬imdlHeader.isValid then ParseResult.err TileStatus.invalidHeader
  else if ¬imdlHeader.isReadableVersion then ParseResult.err TileStatus.newerMajorVersion
  else
    let ftStartPos := imdlHeaderSize
    match readFeatureTableHeaderAt b ftStartPos with
    | none => ParseResult.err TileStatus.invalidFeatureTable
    | some ftHeader =>
      let gltfHeader := readGltfHeader b (ftStartPos + ftHeader.length)
      if ¬gltfHeader.valid then ParseResult.err TileStatus.invalidTileData
      else
        let sceneBytes := byteSlice b gltfHeader.scenePosition gltfHeader.sceneStrLength
        match sceneDecode sceneBytes with
        | SceneParse.badUtf8 => ParseResult.err TileStatus.invalidScene
        | SceneParse.parseThrow => ParseResult.err TileStatus.invalidTileData
        | SceneParse.okDoc doc =>
          if doc.meshes.isNone then ParseResult.err TileStatus.invalidTileData
          else if b.length < gltfHeader.binaryPosition then
            ParseResult.err TileStatus.invalidTileData
          else
            let binaryData := b.drop gltfHeader.binaryPosition
            let multiModel := imdlHeader.flags / multiModelFlagBit % 2 = 1
            match parseFeatureTable doc binaryData gltfHeader.binaryPosition b
              ftStartPos multiModel with
            | Except.error _ => ParseResult.err TileStatus.invalidTileData
            | Except.ok none => ParseResult.err TileStatus.invalidFeatureTable
            | Except.ok (some featureTable) =>
              ParseResult.okDoc
                ⟨featureTable, parseNodesFn doc featureTable,
                  (match rtcOf doc with
                   | none => none
                   | some r => some r),
                  binaryData, doc⟩

def specNumChamferPoints (opts : JointOptions) (thetaDegrees : ℚ) : ℤ :=
  let cap := if opts.allowSharpestCorners then opts.maxChamferTurnDegrees else 120
  let stepDegrees := qclamp opts.maxChamferTurnDegrees 10 cap
  if thetaDegrees ≤ stepDegrees then 1 else ⌈thetaDegrees / stepDegrees⌉

/-!
Embedding of extractNodeId (ImdlParser.ts lines 99-109): the node-name id
extraction.  The JavaScript regular-expression engine and parseInt are
external builtins and are modelled here over character lists: the regex
Node_(.*) matches at the first occurrence of "Node_" and captures the
following characters up to a line terminator; parseInt with radix 10
skips leading whitespace, accepts one optional sign and reads the leading
digit run, giving NaN (modelled as none) when there are no digits.
-/

/-- Character list of the literal searched by the node-id pattern. -/
def nodeTag : List Char := "Node_".toList

/-- Modelled whitespace skipped by JavaScript parseInt. -/
def isJsSpace (c : Char) : Bool := c == ' ' || c == '\t' || c == '\n' || c == '\r'

/-- Characters the regex dot matches (everything but a line terminator). -/
def notLineTerm (c : Char) : Bool := !(c == '\n' || c == '\r')

/-- Numeric value of a digit run. -/
def digitsVal (ds : List Char) : Nat :=
  ds.foldl (fun acc c => 10 * acc + (c.toNat - 48)) 0

/-- Leading digit run of a character list, when nonempty. -/
def parseLeadingDigits (cs : List Char) : Option Nat :=
  let ds := cs.takeWhile (fun c => c.isDigit)
  if ds.isEmpty then none else some (digitsVal ds)

/-- Modelled JavaScript Number.parseInt(s, 10): skip leading whitespace,
read one optional sign and the leading digit run; none models NaN. -/
def jsParseIntBase10 (cs : List Char) : Option Int :=
  let cs1 := cs.dropWhile isJsSpace
  match cs1 with
  | '-' :: rest => (parseLeadingDigits rest).map (fun n => -(n : Int))
  | '+' :: rest => (parseLeadingDigits rest).map (fun n => (n : Int))
  | _ => (parseLeadingDigits cs1).map (fun n => (n : Int))

/-- Match of the unanchored regex Node_(.*) over a character list: the
capture after the first occurrence of the tag, stopping at a line
terminator; none when the tag does not occur. -/
def findNodeCapture : List Char → Option (List Char)
  | [] => none
  | c :: rest =>
    if nodeTag.isPrefixOf (c :: rest) then
      some (((c :: rest).drop 5).takeWhile notLineTerm)
    else findNodeCapture rest

/-- extractNodeId of the source: parse the captured suffix in base 10,
mapping a failed match or an unparsable (NaN) suffix to id 0. -/
def extractNodeId (nodeName : List Char) : Int :=
  match findNodeCapture nodeName with
  | none => 0
  | some cap =>
    match jsParseIntBase10 cap with
    | none => 0
    | some nodeId => nodeId

/-- Definition following the spec words: a node name matching the
Node_<digits> pattern, the whole suffix being a nonempty digit run. -/
def matchesNodeDigits (cs : List Char) : Bool :=
  nodeTag.isPrefixOf cs && !(cs.drop 5).isEmpty && (cs.drop 5).all (fun c => c.isDigit)


/-!
Concrete decoder inputs and the decoder claims.
-/

/-- Trivial node-parsing stage used by concrete decodes. -/
def parseNodesNone : SceneDoc → FeatureTableModel → NodesModel := fun _ _ => []

/-- Scene decode on which JSON.parse always throws. -/
def sceneDecodeThrow : Bytes → SceneParse := fun _ => SceneParse.parseThrow

/-- Concrete tile buffer: valid tile header, feature-table header with
declared length 18 (not a multiple of 4), valid version-1 glTF header and
an empty scene string. -/
def byteC5 : Bytes :=
  [105,77,100,108, 0,0,0,0, 0,0,0,0,
   18,0,0,0, 0,0,0,0, 0,0,0,0,
   0,0,0,0,0,0,
   103,108,84,70, 1,0,0,0, 0,0,0,0, 0,0,0,0, 0,0,0,0]

/-- Concrete scene document with an animationNodes descriptor of one byte
per id resolving to a buffer view of 8 bytes. -/
def docC9 : SceneDoc :=
  ⟨some ⟨1, "a"⟩, [("a", ⟨0, 8⟩)], some (), none⟩

/-- Scene decode producing docC9 for the one-byte scene string 42. -/
def sceneDecodeC9 : Bytes → SceneParse :=
  fun bytes => if bytes = [42] then SceneParse.okDoc docC9 else SceneParse.parseThrow

/-- Concrete tile buffer: valid tile header, single-model feature table
with feature count 3 and one packed word, valid version-1 glTF header, a
one-byte scene string and an 8-byte binary section. -/
def byteC9 : Bytes :=
  [105,77,100,108, 0,0,0,0, 0,0,0,0,
   16,0,0,0, 3,0,0,0, 0,0,0,0,
   7,7,7,7,
   103,108,84,70, 1,0,0,0, 0,0,0,0, 1,0,0,0, 0,0,0,0,
   42,
   1,2,3,4,5,6,7,8]

/-- Scene decode producing an empty but well-formed document with a
meshes map. -/
def sceneDecodeMeshes : Bytes → SceneParse :=
  fun _ => SceneParse.okDoc ⟨none, [], some (), none⟩

/-- Concrete tile buffer whose embedded glTF chunk header declares
version 2 while its fifth word is the version-1 scene-format sentinel. -/
def byteC2 : Bytes :=
  [105, 77, 100, 108, 0, 0, 0, 0, 0, 0, 0, 0,
   12, 0, 0, 0, 1, 0, 0, 0, 0, 0, 0, 0,
   103, 108, 84, 70, 2, 0, 0, 0, 0, 0, 0, 0, 0, 0, 0, 0, 0, 0, 0, 0]

/-- Segment carrying both base-point annotations, the shape produced by
createOffsetSegment. -/
def offSeg (p q : PointQ) : SegQ := ⟨p, q, some p, some q⟩

/-- Straight walk of the collect callback over consecutive joint indices,
the unrolled form of the collect visit along a linear chain. -/
def collectRun (o : GeomOracle) (s : ChainState) : Nat → Nat → List PointQ → List PointQ
  | _, 0, dest => dest
  | i, c + 1, dest => collectRun o s (i + 1) c (collectAtJoint o s i dest)

/-- Concrete three-point polyline with separated consecutive points. -/
def ptsC7 : List PointQ := [⟨0, 0, 0⟩, ⟨1, 0, 0⟩, ⟨1, 1, 0⟩]

/-- Concrete closed four-point chain whose first and last points coincide
exactly. -/
def ptsC7c : List PointQ := [⟨0, 0, 0⟩, ⟨1, 0, 0⟩, ⟨1, 1, 0⟩, ⟨0, 0, 0⟩]

/-!
Helper lemmas about the joint arena.
-/
theorem length_setJd (s : ChainState) (i : Nat) (j : JointData) :
    (setJd s i j).length = s.length := by
  simp [setJd]

theorem jd_setJd_self (s : ChainState) (i : Nat) (j : JointData) (h : i < s.length) :
    jd (setJd s i j) i = j := by
  simp [jd, setJd, List.getD, List.getElem?_set_self h]

theorem jd_setJd_ne (s : ChainState) (i k : Nat) (j : JointData) (h : i ≠ k) :
    jd (setJd s i j) k = jd s k := by
  simp [jd, setJd, List.getD, List.getElem?_set_ne h]

theorem length_modifyCore (s : ChainState) (i : Nat) (f : JointCore → JointCore) :
    (modifyCore s i f).length = s.length := by
  simp [modifyCore, length_setJd]

theorem jd_modifyCore_ne (s : ChainState) (i k : Nat) (f : JointCore → JointCore)
    (h : i ≠ k) : jd (modifyCore s i f) k = jd s k := by
  simp [modifyCore, jd_setJd_ne _ _ _ _ h]

theorem length_linkJoints (s : ChainState) (i0 : Nat) (oi1 : Option Nat) :
    (linkJoints s i0 oi1).length = s.length := by
  unfold linkJoints
  match oi1 with
  | none => simp [length_setJd]
  | some i1 =>
    simp only
    split
    · simp [length_modifyCore, length_setJd]
    · split <;> simp [length_modifyCore, length_setJd]

theorem modifyCore_links (s : ChainState) (i k : Nat) (f : JointCore → JointCore) :
    (jd (modifyCore s i f) k).nextJoint = (jd s k).nextJoint ∧
      (jd (modifyCore s i f) k).previousJoint = (jd s k).previousJoint := by
  rcases eq_or_ne i k with h | h
  · subst h
    by_cases hlt : i < s.length
    · simp [modifyCore, jd_setJd_self _ _ _ hlt]
    · have hset : ∀ j : JointData, s.set i j = s :=
        fun j => List.set_eq_of_length_le (Nat.le_of_not_lt hlt)
      simp [modifyCore, setJd, hset]
  · simp [jd_modifyCore_ne _ _ _ _ h]

theorem jd_linkJoints_other (s : ChainState) (i0 k : Nat) (oi1 : Option Nat)
    (h0 : k ≠ i0) (h1 : oi1 ≠ some k) : jd (linkJoints s i0 oi1) k = jd s k := by
  unfold linkJoints
  match oi1 with
  | none => simp [jd_setJd_ne _ _ _ _ (Ne.symm h0)]
  | some i1 =>
    have hk1 : i1 ≠ k := fun h => h1 (by rw [h])
    simp only
    split
    · rw [jd_modifyCore_ne _ _ _ _ hk1, jd_setJd_ne _ _ _ _ hk1,
        jd_setJd_ne _ _ _ _ (Ne.symm h0)]
    · split
      · rw [jd_modifyCore_ne _ _ _ _ (Ne.symm h0), jd_setJd_ne _ _ _ _ hk1,
          jd_setJd_ne _ _ _ _ (Ne.symm h0)]
      · rw [jd_setJd_ne _ _ _ _ hk1, jd_setJd_ne _ _ _ _ (Ne.symm h0)]

theorem jd_modifyCore_self (s : ChainState) (i : Nat) (f : JointCore → JointCore)
    (h : i < s.length) :
    jd (modifyCore s i f) i = { jd s i with core := f (jd s i).core } := by
  simp [modifyCore, jd_setJd_self _ _ _ h]

theorem jd_linkJoints_target (s : ChainState) (i0 i1 : Nat)
    (hne : i0 ≠ i1) (h1 : i1 < s.length) :
    (jd (linkJoints s i0 (some i1)) i1).core.curve1 = (jd s i1).core.curve1 ∧
    (jd (linkJoints s i0 (some i1)) i1).nextJoint = (jd s i1).nextJoint ∧
    (jd (linkJoints s i0 (some i1)) i1).previousJoint = some i0 := by
  unfold linkJoints
  simp only
  have h1a : i1 < (setJd s i0 { jd s i0 with nextJoint := some i1 }).length := by
    rw [length_setJd]; exact h1
  have hs2 : jd (setJd (setJd s i0 { jd s i0 with nextJoint := some i1 }) i1
      { jd (setJd s i0 { jd s i0 with nextJoint := some i1 }) i1 with
        previousJoint := some i0 }) i1 =
      { jd s i1 with previousJoint := some i0 } := by
    rw [jd_setJd_self _ _ _ h1a, jd_setJd_ne _ _ _ _ hne]
  have h1b : i1 < (setJd (setJd s i0 { jd s i0 with nextJoint := some i1 }) i1
      { jd (setJd s i0 { jd s i0 with nextJoint := some i1 }) i1 with
        previousJoint := some i0 }).length := by
    rw [length_setJd, length_setJd]; exact h1
  split
  · rw [jd_modifyCore_self _ _ _ h1b, hs2]
    exact ⟨rfl, rfl, rfl⟩
  · split
    · rw [jd_modifyCore_ne _ _ _ _ hne, hs2]
      exact ⟨rfl, rfl, rfl⟩
    · rw [hs2]
      exact ⟨rfl, rfl, rfl⟩

theorem jd_concat_self (s : ChainState) (j : JointData) : jd (s ++ [j]) s.length = j := by
  simp [jd, List.getD, List.getElem?_concat_length]

theorem jd_append_lt (s t : ChainState) (k : Nat) (h : k < s.length) :
    jd (s ++ t) k = jd s k := by
  simp [jd, List.getD, List.getElem?_append_left h]

set_option maxHeartbeats 1000000 in
theorem buildLoopAux_bounds (o : GeomOracle) (dist : ℚ) (pairs : List (PointQ × PointQ)) :
    ∀ (s : ChainState) (prevIdx : Nat) (frag : Option SegQ), prevIdx < s.length →
      (buildLoopAux o dist s prevIdx frag pairs).2.1 <
        (buildLoopAux o dist s prevIdx frag pairs).1.length ∧
      s.length ≤ (buildLoopAux o dist s prevIdx frag pairs).1.length := by
  induction pairs with
  | nil => intro s prevIdx frag h; simpa [buildLoopAux] using h
  | cons hd tl ih =>
    intro s prevIdx frag h
    obtain ⟨pi, pj⟩ := hd
    simp only [buildLoopAux]
    have hlen : s.length <
        (linkJoints (s ++ [⟨JointCore.make frag (createOffsetSegment o pi pj dist)
          (some pi), none, none⟩]) prevIdx (some s.length)).length := by
      rw [length_linkJoints, List.length_append]
      simp
    have := ih (linkJoints (s ++ [⟨JointCore.make frag (createOffsetSegment o pi pj dist)
          (some pi), none, none⟩]) prevIdx (some s.length)) s.length
      (createOffsetSegment o pi pj dist) hlen
    exact ⟨this.1, le_trans (le_of_lt hlen) this.2⟩

set_option maxHeartbeats 1000000 in
theorem buildRawChain_last (o : GeomOracle) (points : List PointQ) (dist : ℚ) :
    (jd (buildRawChain o points false dist)
      ((buildRawChain o points false dist).length - 1)).core.curve1 = none ∧
    (jd (buildRawChain o points false dist)
      ((buildRawChain o points false dist).length - 1)).nextJoint = none := by
  unfold buildRawChain
  simp only [Bool.false_eq_true, if_false]
  set frag0 := createOffsetSegment o (points.getD 0 default) (points.getD 1 default) dist
    with hfrag0
  set j0 : JointData :=
    ⟨JointCore.make none frag0 (some (points.getD 0 default)), none, none⟩ with hj0
  set built := buildLoopAux o dist [j0] 0 frag0 ((points.drop 1).zip (points.drop 2))
    with hbuilt
  set jLast : JointData :=
    ⟨JointCore.make built.2.2 none (some (points.getD (points.length - 1) default)),
      none, none⟩ with hjLast
  have hb := buildLoopAux_bounds o dist ((points.drop 1).zip (points.drop 2)) [j0] 0 frag0
    (by simp)
  rw [← hbuilt] at hb
  have hlt : built.2.1 < built.1.length := hb.1
  have hlenS1 : (built.1 ++ [jLast]).length = built.1.length + 1 := by simp
  have hlenTotal : (linkJoints (built.1 ++ [jLast]) built.2.1
      (some built.1.length)).length = built.1.length + 1 := by
    rw [length_linkJoints, hlenS1]
  rw [hlenTotal]
  simp only [Nat.add_sub_cancel]
  have htarget := jd_linkJoints_target (built.1 ++ [jLast]) built.2.1 built.1.length
    (by omega) (by rw [hlenS1]; omega)
  rw [htarget.1, htarget.2.1, jd_concat_self]
  exact ⟨rfl, rfl⟩

theorem annotateJointMode_cap_end (o : GeomOracle) (opts : JointOptions)
    (c : JointCore) (h0 : c.curve0.isSome) (h1 : c.curve1 = none) :
    (annotateJointMode o opts c).flexure = JointModeQ.cap ∧
    (annotateJointMode o opts c).fraction0 = some 1 := by
  rcases hc : c.curve0 with _ | c0
  · rw [hc] at h0; simp at h0
  · unfold annotateJointMode
    rw [hc, h1]
    exact ⟨rfl, rfl⟩

/-- C10: when wrap is requested but the first and last input points are
not almost-equal, the call silently proceeds as if wrap were false (the
emitted result is identical), so no wrap-around joint is created; the raw
chain instead carries a trailing joint with no curve after it and no next
link, which annotation marks Cap; the call does not fail on this
account. -/
theorem constructPolygonWireXYOffset_wrap_demotion (o : GeomOracle) (opts : JointOptions) (points : List PointQ)
    (h : isAlmostEqualPt (points.getD 0 default)
      (points.getD (points.length - 1) default) = false) :
    constructPolygonWireXYOffset o points true opts =
      constructPolygonWireXYOffset o points false opts ∧
    (jd (buildRawChain o points false opts.leftOffsetDistance)
      ((buildRawChain o points false opts.leftOffsetDistance).length - 1)).core.curve1 =
        none ∧
    (jd (buildRawChain o points false opts.leftOffsetDistance)
      ((buildRawChain o points false opts.leftOffsetDistance).length - 1)).nextJoint =
        none ∧
    ((jd (buildRawChain o points false opts.leftOffsetDistance)
      ((buildRawChain o points false opts.leftOffsetDistance).length - 1)).core.curve0.isSome →
      (annotateJointMode o opts (jd (buildRawChain o points false opts.leftOffsetDistance)
        ((buildRawChain o points false opts.leftOffsetDistance).length - 1)).core).flexure =
        JointModeQ.cap) := by
  have hlast := buildRawChain_last o points opts.leftOffsetDistance
  refine ⟨?_, hlast.1, hlast.2, fun h0 => (annotateJointMode_cap_end o opts _ h0 hlast.1).1⟩
  simp only [constructPolygonWireXYOffset, emittedOffsetPoints, h, Bool.and_false]

/-- C3 (amended): for an interior joint between two line-segment
fragments that do not already share an endpoint and whose support lines
intersect at fractions (fA, fB), annotateJointMode hands the joint to the
Extend construction exactly when fA is at least 1 and fB at most 0, marks
Trim at exactly (fA, fB) exactly when fA is less than 1 and fB greater
than 0, marks Gap with a bridging segment and fractions reset to (1, 0)
exactly when both fractions exceed 1 strictly, and otherwise only records
the fractions, leaving the mode unchanged. -/
theorem annotateJointMode_line_pair_cases (o : GeomOracle) (opts : JointOptions) (j : JointCore)
    (c0 c1 : SegQ) (fA fB : ℚ) (pA : PointQ)
    (hc0 : j.curve0 = some c0) (hc1 : j.curve1 = some c1)
    (hend : isAlmostEqualPt c0.endPoint c1.startPoint = false)
    (hint : closestApproachRay3dRay3d (c0.fractionToPointAndDerivative 0)
      (c1.fractionToPointAndDerivative 0) = RayApproachQ.intersect fA fB pA) :
    (1 ≤ fA ∧ fB ≤ 0 →
      annotateJointMode o opts j =
        annotateExtension o opts { j with fraction0 := some fA, fraction1 := some fB }) ∧
    (fA < 1 ∧ 0 < fB →
      annotateJointMode o opts j =
        { j with
          fraction0 := some fA
          fraction1 := some fB
          flexure := JointModeQ.trim }) ∧
    (1 < fA ∧ 1 < fB →
      annotateJointMode o opts j =
        { j with
          flexure := JointModeQ.gap
          jointCurve := some (JCurveQ.jseg
            ⟨c0.fractionToPoint 1, c1.fractionToPoint 0, none, none⟩)
          fraction0 := some 1
          fraction1 := some 0 }) ∧
    (¬(1 ≤ fA ∧ fB ≤ 0) → ¬(fA < 1 ∧ 0 < fB) → ¬(1 < fA ∧ 1 < fB) →
      annotateJointMode o opts j =
        { j with fraction0 := some fA, fraction1 := some fB }) := by
  simp only [annotateJointMode, hc0, hc1, hend, Bool.false_eq_true, if_false, hint]
  refine ⟨fun hx => ?_, fun hx => ?_, fun hx => ?_, fun hx hy hz => ?_⟩
  · rw [if_pos hx]
  · rw [if_neg (by rcases hx with ⟨h1, h2⟩; intro hc; rcases hc with ⟨hc1, hc2⟩; linarith),
      if_pos hx]
  · rw [if_neg (by rcases hx with ⟨h1, h2⟩; intro hc; rcases hc with ⟨hc1, hc2⟩; linarith),
      if_neg (by rcases hx with ⟨h1, h2⟩; intro hc; rcases hc with ⟨hc1, hc2⟩; linarith),
      if_pos hx]
  · rw [if_neg hx, if_neg hy, if_neg hz]

/-- C3 counterexample: two line-segment fragments whose support lines
intersect at fractions exactly (1, 2), which lie in the claim's Gap range
(fraction0 at least 1, fraction1 greater than 1) and outside [0,1]^2, yet
the joint is not marked Gap: annotateJointMode leaves the mode Unknown. -/
theorem annotateJointMode_gap_at_exact_one :
    closestApproachRay3dRay3d
      ((⟨⟨0,0,0⟩, ⟨1,0,0⟩, none, none⟩ : SegQ).fractionToPointAndDerivative 0)
      ((⟨⟨1,-2,0⟩, ⟨1,-1,0⟩, none, none⟩ : SegQ).fractionToPointAndDerivative 0) =
      RayApproachQ.intersect 1 2 ⟨1,0,0⟩ ∧
    isAlmostEqualPt (⟨⟨0,0,0⟩, ⟨1,0,0⟩, none, none⟩ : SegQ).endPoint
      (⟨⟨1,-2,0⟩, ⟨1,-1,0⟩, none, none⟩ : SegQ).startPoint = false ∧
    (1 ≤ (1 : ℚ) ∧ 1 < (2 : ℚ)) ∧
    (annotateJointMode oracle0 (JointOptions.create 0)
      (JointCore.make (some ⟨⟨0,0,0⟩, ⟨1,0,0⟩, none, none⟩)
        (some ⟨⟨1,-2,0⟩, ⟨1,-1,0⟩, none, none⟩) none)).flexure = JointModeQ.unknown ∧
    JointModeQ.unknown ≠ JointModeQ.gap := by
  refine ⟨by with_unfolding_all decide, by with_unfolding_all decide, by norm_num,
    by with_unfolding_all decide, by decide⟩

theorem chamferInteriorPoints_length (o : GeomOracle) (arc : ArcQ) (rf nh : ℚ) :
    ∀ n, (chamferInteriorPoints o arc rf nh n).length = n := by
  intro n
  induction n with
  | zero => simp [chamferInteriorPoints]
  | succ k ih => simp [chamferInteriorPoints, ih]

theorem chamferInteriorPoints_getD (o : GeomOracle) (arc : ArcQ) (rf nh : ℚ) :
    ∀ m n, n < m →
      (chamferInteriorPoints o arc rf nh m).getD n default =
        o.arcPointAt arc ((1 + 2 * (n : ℚ)) / nh) rf := by
  intro m
  induction m with
  | zero => intro n h; omega
  | succ k ih =>
    intro n h
    have hlen := chamferInteriorPoints_length o arc rf nh k
    unfold chamferInteriorPoints
    rcases Nat.lt_or_ge n k with h1 | h1
    · rw [List.getD_append _ _ _ _ (by rw [hlen]; omega)]
      exact ih n h1
    · have hnk : n = k := by omega
      subst hnk
      have hconc : ∀ (l : List PointQ) (x : PointQ) (m : Nat), l.length = m →
          (l ++ [x]).getD m default = x := by
        intro l x m hl
        subst hl
        simp [List.getD, List.getElem?_concat_length]
      exact hconc _ _ _ hlen

/-- C1: for an interior joint handled as Extend (the end/start rays
intersect ahead of curve0 and behind curve1) whose turn angle has
nonnegative degree measure and whose corner arc is constructible about the
baseCurveEnd corner of curve0: the chamfer point count equals the spec's
formula (step = clamp(maxChamferTurnDegrees, 10, cap) with cap =
maxChamferTurnDegrees when allowSharpestCorners and 120 otherwise; count =
1 when the angle is at most step, otherwise its ceiling quotient); the
joint is marked Extend with fractions (1, 0); when the turn reaches
minArcDegrees a circular arc centered at the corner point becomes the
joint curve; otherwise a count of at most 1 yields the sharp-corner line
string through the ray intersection point, and a larger count yields a
chamfer line string with exactly count interior vertices sampled around
the corner arc at the odd half-step angular fractions (1 + 2n) / (2 count)
(even angular steps of 1/count apart), radially scaled by the inverse
cosine of the half step. -/
theorem annotateExtension_corner_rule (o : GeomOracle) (opts : JointOptions) (j : JointCore)
    (c0 c1 : SegQ) (fA fB : ℚ) (pA : PointQ) (ctr : PointQ)
    (hc0 : j.curve0 = some c0) (hc1 : j.curve1 = some c1)
    (hint : closestApproachRay3dRay3d (c0.fractionToPointAndDerivative 1)
      (c1.fractionToPointAndDerivative 0) = RayApproachQ.intersect fA fB pA)
    (hfa : 0 ≤ fA) (hfb : fB ≤ 0)
    (hdeg : 0 ≤ (o.angleOf (c0.fractionToPointAndDerivative 1).direction
      (c1.fractionToPointAndDerivative 0).direction).degrees)
    (hctr : c0.baseEnd = some ctr)
    (hrad : isSameCoordinate
      (o.distOf (c0.fractionToPointAndDerivative 1).origin ctr)
      (o.distOf (c1.fractionToPointAndDerivative 0).origin ctr) = true) :
    (opts.numChamferPoints (o.angleOf (c0.fractionToPointAndDerivative 1).direction
        (c1.fractionToPointAndDerivative 0).direction) =
      specNumChamferPoints opts (o.angleOf (c0.fractionToPointAndDerivative 1).direction
        (c1.fractionToPointAndDerivative 0).direction).degrees) ∧
    (annotateExtension o opts j).flexure = JointModeQ.extend ∧
    (annotateExtension o opts j).fraction0 = some 1 ∧
    (annotateExtension o opts j).fraction1 = some 0 ∧
    (opts.minArcDegrees ≤ (o.angleOf (c0.fractionToPointAndDerivative 1).direction
        (c1.fractionToPointAndDerivative 0).direction).degrees →
      (annotateExtension o opts j).jointCurve = some (JCurveQ.jarc
        ⟨ctr, vecFromTo ctr (c0.fractionToPointAndDerivative 1).origin,
          rotate90CCWXY (vecFromTo ctr (c0.fractionToPointAndDerivative 1).origin),
          (o.angleOf (c0.fractionToPointAndDerivative 1).direction
            (c1.fractionToPointAndDerivative 0).direction).radians⟩)) ∧
    ((o.angleOf (c0.fractionToPointAndDerivative 1).direction
        (c1.fractionToPointAndDerivative 0).direction).degrees < opts.minArcDegrees →
      (opts.numChamferPoints (o.angleOf (c0.fractionToPointAndDerivative 1).direction
          (c1.fractionToPointAndDerivative 0).direction) ≤ 1 →
        (annotateExtension o opts j).jointCurve = some (JCurveQ.jline
          [(c0.fractionToPointAndDerivative 1).origin, pA,
            (c1.fractionToPointAndDerivative 0).origin])) ∧
      (1 < opts.numChamferPoints (o.angleOf (c0.fractionToPointAndDerivative 1).direction
          (c1.fractionToPointAndDerivative 0).direction) →
        (annotateExtension o opts j).jointCurve = some (JCurveQ.jline
          ((c0.fractionToPointAndDerivative 1).origin ::
            (chamferInteriorPoints o
              ⟨ctr, vecFromTo ctr (c0.fractionToPointAndDerivative 1).origin,
            rotate90CCWXY (vecFromTo ctr (c0.fractionToPointAndDerivative 1).origin),
            (o.angleOf (c0.fractionToPointAndDerivative 1).direction
          (c1.fractionToPointAndDerivative 0).direction).radians⟩
              (1 / o.cosOf ((o.angleOf (c0.fractionToPointAndDerivative 1).direction
          (c1.fractionToPointAndDerivative 0).direction).radians /
            (2 * ((opts.numChamferPoints (o.angleOf (c0.fractionToPointAndDerivative 1).direction
          (c1.fractionToPointAndDerivative 0).direction) : ℚ)))))
              (2 * ((opts.numChamferPoints (o.angleOf (c0.fractionToPointAndDerivative 1).direction
          (c1.fractionToPointAndDerivative 0).direction) : ℚ)))
              (opts.numChamferPoints (o.angleOf (c0.fractionToPointAndDerivative 1).direction
          (c1.fractionToPointAndDerivative 0).direction)).toNat ++
              [(c1.fractionToPointAndDerivative 0).origin]))) ∧
        (chamferInteriorPoints o
          ⟨ctr, vecFromTo ctr (c0.fractionToPointAndDerivative 1).origin,
            rotate90CCWXY (vecFromTo ctr (c0.fractionToPointAndDerivative 1).origin),
            (o.angleOf (c0.fractionToPointAndDerivative 1).direction
          (c1.fractionToPointAndDerivative 0).direction).radians⟩
          (1 / o.cosOf ((o.angleOf (c0.fractionToPointAndDerivative 1).direction
          (c1.fractionToPointAndDerivative 0).direction).radians /
            (2 * ((opts.numChamferPoints (o.angleOf (c0.fractionToPointAndDerivative 1).direction
          (c1.fractionToPointAndDerivative 0).direction) : ℚ)))))
          (2 * ((opts.numChamferPoints (o.angleOf (c0.fractionToPointAndDerivative 1).direction
          (c1.fractionToPointAndDerivative 0).direction) : ℚ)))
          (opts.numChamferPoints (o.angleOf (c0.fractionToPointAndDerivative 1).direction
          (c1.fractionToPointAndDerivative 0).direction)).toNat).length = (opts.numChamferPoints (o.angleOf (c0.fractionToPointAndDerivative 1).direction
          (c1.fractionToPointAndDerivative 0).direction)).toNat ∧
        (∀ n, n < (opts.numChamferPoints (o.angleOf (c0.fractionToPointAndDerivative 1).direction
          (c1.fractionToPointAndDerivative 0).direction)).toNat →
          (chamferInteriorPoints o
            ⟨ctr, vecFromTo ctr (c0.fractionToPointAndDerivative 1).origin,
            rotate90CCWXY (vecFromTo ctr (c0.fractionToPointAndDerivative 1).origin),
            (o.angleOf (c0.fractionToPointAndDerivative 1).direction
          (c1.fractionToPointAndDerivative 0).direction).radians⟩
            (1 / o.cosOf ((o.angleOf (c0.fractionToPointAndDerivative 1).direction
          (c1.fractionToPointAndDerivative 0).direction).radians /
            (2 * ((opts.numChamferPoints (o.angleOf (c0.fractionToPointAndDerivative 1).direction
          (c1.fractionToPointAndDerivative 0).direction) : ℚ)))))
            (2 * ((opts.numChamferPoints (o.angleOf (c0.fractionToPointAndDerivative 1).direction
          (c1.fractionToPointAndDerivative 0).direction) : ℚ)))
            (opts.numChamferPoints (o.angleOf (c0.fractionToPointAndDerivative 1).direction
          (c1.fractionToPointAndDerivative 0).direction)).toNat).getD n default =
          o.arcPointAt
            ⟨ctr, vecFromTo ctr (c0.fractionToPointAndDerivative 1).origin,
            rotate90CCWXY (vecFromTo ctr (c0.fractionToPointAndDerivative 1).origin),
            (o.angleOf (c0.fractionToPointAndDerivative 1).direction
          (c1.fractionToPointAndDerivative 0).direction).radians⟩
            ((1 + 2 * (n : ℚ)) / (2 * ((opts.numChamferPoints (o.angleOf (c0.fractionToPointAndDerivative 1).direction
          (c1.fractionToPointAndDerivative 0).direction) : ℚ))))
            (1 / o.cosOf ((o.angleOf (c0.fractionToPointAndDerivative 1).direction
          (c1.fractionToPointAndDerivative 0).direction).radians /
            (2 * ((opts.numChamferPoints (o.angleOf (c0.fractionToPointAndDerivative 1).direction
          (c1.fractionToPointAndDerivative 0).direction) : ℚ)))))))) := by
  have habs : |(o.angleOf (c0.fractionToPointAndDerivative 1).direction
      (c1.fractionToPointAndDerivative 0).direction).degrees| =
      (o.angleOf (c0.fractionToPointAndDerivative 1).direction
        (c1.fractionToPointAndDerivative 0).direction).degrees := abs_of_nonneg hdeg
  set theta := o.angleOf (c0.fractionToPointAndDerivative 1).direction
    (c1.fractionToPointAndDerivative 0).direction with htheta
  refine ⟨by simp only [JointOptions.numChamferPoints, specNumChamferPoints, habs], ?_⟩
  have hne : opts.needArc theta =
      decide (opts.minArcDegrees ≤ theta.degrees) := by
    simp only [JointOptions.needArc, habs]
  by_cases harc : opts.minArcDegrees ≤ theta.degrees
  · have hred : annotateExtension o opts j =
        { j with
          fraction0 := some 1
          fraction1 := some 0
          flexure := JointModeQ.extend
          jointCurve := some (JCurveQ.jarc
            ⟨ctr, vecFromTo ctr (c0.fractionToPointAndDerivative 1).origin,
              rotate90CCWXY (vecFromTo ctr (c0.fractionToPointAndDerivative 1).origin),
              theta.radians⟩) } := by
      simp only [annotateExtension, hc0, hc1, hint, ← htheta, hne, harc, decide_True, if_true, constructArc, hctr, hrad]
      rw [if_pos ⟨hfa, hfb⟩]
    rw [hred]
    exact ⟨rfl, rfl, rfl, fun _ => rfl, fun hlt => absurd harc (not_le.mpr hlt)⟩
  · by_cases hn : opts.numChamferPoints theta ≤ 1
    · have hred : annotateExtension o opts j =
          { j with
            fraction0 := some 1
            fraction1 := some 0
            flexure := JointModeQ.extend
            jointCurve := some (JCurveQ.jline
              [(c0.fractionToPointAndDerivative 1).origin, pA,
                (c1.fractionToPointAndDerivative 0).origin]) } := by
        simp only [annotateExtension, hc0, hc1, hint, ← htheta, hne, harc, decide_False, if_false, hn, if_true]
        rw [if_pos ⟨hfa, hfb⟩]
        simp
      rw [hred]
      exact ⟨rfl, rfl, rfl, fun hge => absurd hge harc,
        fun _ => ⟨fun _ => rfl, fun hgt => absurd hgt (not_lt.mpr hn)⟩⟩
    · have hred : annotateExtension o opts j =
          { j with
            fraction0 := some 1
            fraction1 := some 0
            flexure := JointModeQ.extend
            jointCurve := some (JCurveQ.jline
              ((c0.fractionToPointAndDerivative 1).origin ::
                (chamferInteriorPoints o
                  ⟨ctr, vecFromTo ctr (c0.fractionToPointAndDerivative 1).origin,
                    rotate90CCWXY (vecFromTo ctr
                      (c0.fractionToPointAndDerivative 1).origin), theta.radians⟩
                  (1 / o.cosOf (theta.radians / (2 * ((opts.numChamferPoints theta : ℚ)))))
                  (2 * ((opts.numChamferPoints theta : ℚ)))
                  (opts.numChamferPoints theta).toNat ++
                  [(c1.fractionToPointAndDerivative 0).origin]))) } := by
        simp only [annotateExtension, hc0, hc1, hint, ← htheta, hne, harc, decide_False, if_false, hn, constructArc, hctr, hrad, if_true]
        rw [if_pos ⟨hfa, hfb⟩]
        simp
      rw [hred]
      refine ⟨rfl, rfl, rfl, fun hge => absurd hge harc, fun _ => ⟨fun hle => absurd hle hn, ?_⟩⟩
      intro _
      exact ⟨rfl, chamferInteriorPoints_length o _ _ _ _,
        fun n hn2 => chamferInteriorPoints_getD o _ _ _ _ n hn2⟩

/-- C6: after walking the finished joint chain once, constructPolygonWireXYOffset
returns nothing when the flattened point sequence has fewer than 2 points,
a closed Loop when it has at least 2 points and its first and last points
are almost-equal, and an open Path otherwise. -/
theorem constructPolygonWireXYOffset_wrapup (o : GeomOracle) (points : List PointQ)
    (wrap : Bool) (opts : JointOptions) :
    (((emittedOffsetPoints o points wrap opts).length < 2 →
       constructPolygonWireXYOffset o points wrap opts = none) ∧
     (2 ≤ (emittedOffsetPoints o points wrap opts).length →
       (isAlmostEqualPt ((emittedOffsetPoints o points wrap opts).getD 0 default)
          ((emittedOffsetPoints o points wrap opts).getD
            ((emittedOffsetPoints o points wrap opts).length - 1) default) = true →
         constructPolygonWireXYOffset o points wrap opts =
           some (ChainResult.loopRes (emittedOffsetPoints o points wrap opts))) ∧
       (isAlmostEqualPt ((emittedOffsetPoints o points wrap opts).getD 0 default)
          ((emittedOffsetPoints o points wrap opts).getD
            ((emittedOffsetPoints o points wrap opts).length - 1) default) = false →
         constructPolygonWireXYOffset o points wrap opts =
           some (ChainResult.pathRes (emittedOffsetPoints o points wrap opts))))) := by
  refine ⟨?_, fun h2 => ⟨?_, ?_⟩⟩ <;> unfold constructPolygonWireXYOffset
  · intro h
    rw [if_neg]
    omega
  · intro hEq
    rw [if_pos (by omega), if_pos hEq]
  · intro hEq
    simp only [List.getD, List.get?_eq_getElem?] at hEq
    rw [if_pos (by omega), if_neg (by simp [hEq])]

/-- Witness for C6 at a concrete two-point polyline: the offset is an open
Path over the emitted points. -/
theorem constructPolygonWireXYOffset_wrapup_witness :
    constructPolygonWireXYOffset oracle0 [⟨0,0,0⟩, ⟨1,0,0⟩] false (JointOptions.create 0) =
      some (ChainResult.pathRes
        (emittedOffsetPoints oracle0 [⟨0,0,0⟩, ⟨1,0,0⟩] false (JointOptions.create 0))) :=
  (constructPolygonWireXYOffset_wrapup oracle0 [⟨0,0,0⟩, ⟨1,0,0⟩] false
    (JointOptions.create 0)).2 (by with_unfolding_all decide)
    |>.2 (by with_unfolding_all decide)

/-- Witness for C10 at a concrete open two-point polyline whose endpoints
differ: the wrap = true call equals the wrap = false call. -/
theorem constructPolygonWireXYOffset_wrap_demotion_witness :
    constructPolygonWireXYOffset oracle0 [⟨0,0,0⟩, ⟨1,0,0⟩] true (JointOptions.create 0) =
      constructPolygonWireXYOffset oracle0 [⟨0,0,0⟩, ⟨1,0,0⟩] false (JointOptions.create 0) :=
  (constructPolygonWireXYOffset_wrap_demotion oracle0 (JointOptions.create 0)
    [⟨0,0,0⟩, ⟨1,0,0⟩] (by with_unfolding_all decide)).1

/-- Witness for C3 at a concrete pair of crossing segments with
intersection fractions (1/2, 1/2): the joint is marked Trim at exactly
those fractions. -/
theorem annotateJointMode_line_pair_cases_witness :
    annotateJointMode oracle0 (JointOptions.create 0)
      (JointCore.make (some ⟨⟨0,0,0⟩, ⟨2,0,0⟩, none, none⟩)
        (some ⟨⟨1,-1,0⟩, ⟨1,1,0⟩, none, none⟩) none) =
      { JointCore.make (some ⟨⟨0,0,0⟩, ⟨2,0,0⟩, none, none⟩)
          (some ⟨⟨1,-1,0⟩, ⟨1,1,0⟩, none, none⟩) none with
        fraction0 := some (1/2)
        fraction1 := some (1/2)
        flexure := JointModeQ.trim } :=
  (annotateJointMode_line_pair_cases oracle0 (JointOptions.create 0)
    (JointCore.make (some ⟨⟨0,0,0⟩, ⟨2,0,0⟩, none, none⟩)
      (some ⟨⟨1,-1,0⟩, ⟨1,1,0⟩, none, none⟩) none)
    ⟨⟨0,0,0⟩, ⟨2,0,0⟩, none, none⟩ ⟨⟨1,-1,0⟩, ⟨1,1,0⟩, none, none⟩
    (1/2) (1/2) ⟨1,0,0⟩ rfl rfl (by with_unfolding_all decide)
    (by with_unfolding_all decide)).2.1 ⟨by norm_num, by norm_num⟩

/-- Witness for C1 at a concrete outward corner with the trivial oracle
(turn angle 0 degrees, arcs disabled): the sharp-corner line string
through the ray intersection point is produced. -/
theorem annotateExtension_corner_rule_witness :
    (annotateExtension oracle0 (JointOptions.create 1)
      (JointCore.make (some ⟨⟨0,0,0⟩, ⟨1,0,0⟩, none, some ⟨1,0,0⟩⟩)
        (some ⟨⟨2,-1,0⟩, ⟨2,-2,0⟩, none, none⟩) none)).jointCurve =
      some (JCurveQ.jline [⟨1,0,0⟩, ⟨2,0,0⟩, ⟨2,-1,0⟩]) := by
  have h := annotateExtension_corner_rule oracle0 (JointOptions.create 1)
    (JointCore.make (some ⟨⟨0,0,0⟩, ⟨1,0,0⟩, none, some ⟨1,0,0⟩⟩)
      (some ⟨⟨2,-1,0⟩, ⟨2,-2,0⟩, none, none⟩) none)
    ⟨⟨0,0,0⟩, ⟨1,0,0⟩, none, some ⟨1,0,0⟩⟩ ⟨⟨2,-1,0⟩, ⟨2,-2,0⟩, none, none⟩
    1 (-1) ⟨2,0,0⟩ ⟨1,0,0⟩ rfl rfl (by with_unfolding_all decide)
    (by norm_num) (by norm_num) (by with_unfolding_all decide) rfl
    (by with_unfolding_all decide)
  have h1 := (h.2.2.2.2.2 (by with_unfolding_all decide)).1
    (by with_unfolding_all decide)
  rw [h1]
  with_unfolding_all decide
theorem removeDegenAux_numRemoved_le (o : GeomOracle) (opts : JointOptions) :
    ∀ (fuel : Nat) (s : ChainState) (start : Nat) (a : Option Nat) (numRemoved : Nat),
      (removeDegenAux o opts s start a numRemoved fuel).numRemoved ≤ numRemoved + 1 := by
  intro fuel
  induction fuel with
  | zero =>
    intro s start a nr
    cases a <;> simp [removeDegenAux]
  | succ f ih =>
    intro s start a nr
    cases a with
    | none => simp [removeDegenAux]
    | some a =>
      simp only [removeDegenAux]
      repeat' split
      all_goals first
        | omega
        | simp only [] ; omega
        | exact ih _ _ _ _

theorem removalPassesAux_trace (o : GeomOracle) (opts : JointOptions) (maxTest : Nat) :
    ∀ (remaining : Nat) (s : ChainState) (start : Nat),
      ((removalPassesAux o opts maxTest s start remaining).2.2).length ≤ remaining ∧
      (∀ i, i + 1 < ((removalPassesAux o opts maxTest s start remaining).2.2).length →
        ((removalPassesAux o opts maxTest s start remaining).2.2).getD i 0 ≠ 0) := by
  intro remaining
  induction remaining with
  | zero => intro s start; simp [removalPassesAux]
  | succ r ih =>
    intro s start
    simp only [removalPassesAux]
    split
    · constructor
      · simp
      · intro i hi
        simp at hi
    · rename_i hnz
      have := ih (removeDegeneratePrimitives o opts s start maxTest).arena
        (removeDegeneratePrimitives o opts s start maxTest).start
      constructor
      · simpa using Nat.succ_le_succ this.1
      · intro i hi
        cases i with
        | zero => simpa using hnz
        | succ k =>
          simp only [List.length_cons, List.getD_cons_succ] at hi ⊢
          exact this.2 k (by omega)


/-- C4: the degeneracy-removal phase of constructPolygonWireXYOffset runs
at most 5 passes; the pass loop stops as soon as a pass reports zero
removals (every recorded pass count except possibly the last is nonzero);
and every single call to removeDegeneratePrimitives reports at most one
removed joint pair before returning.  Together with the test-counter
bound carried by every loop, the removal phase always terminates after a
bounded amount of work. -/
theorem removeDegenerate_passes_bounded (o : GeomOracle) (opts : JointOptions)
    (s : ChainState) (start maxTest : Nat) :
    (removalTrace o opts s start maxTest).length ≤ 5 ∧
    (∀ i, i + 1 < (removalTrace o opts s start maxTest).length →
      (removalTrace o opts s start maxTest).getD i 0 ≠ 0) ∧
    (∀ (s2 : ChainState) (start2 : Nat),
      (removeDegeneratePrimitives o opts s2 start2 maxTest).numRemoved ≤ 1) :=
  ⟨(removalPassesAux_trace o opts maxTest 5 s start).1,
   (removalPassesAux_trace o opts maxTest 5 s start).2,
   fun s2 start2 => removeDegenAux_numRemoved_le o opts maxTest s2 start2 (some start2) 0⟩

/-- Witness for C4 at a concrete chain with one degenerate primitive: the
pass trace is [1, 0] (one removal, then early stop), so the first
recorded pass is nonzero, the trace stays within 5 passes and the removal
call reports at most one removal. -/
theorem removeDegenerate_passes_bounded_witness :
    (removalTrace oracle0 (JointOptions.create 0)
      [⟨⟨JointModeQ.unknown, none, none, none, none, none, none⟩, some 1, none⟩,
       ⟨⟨JointModeQ.unknown, none, none, none, some 5, none, none⟩, some 2, some 0⟩,
       ⟨⟨JointModeQ.unknown, none, some 0, none, none, none, none⟩, some 3, some 1⟩,
       ⟨⟨JointModeQ.unknown, none, none, none, none, none, none⟩, none, some 2⟩]
      0 4).length ≤ 5 ∧
    (removalTrace oracle0 (JointOptions.create 0)
      [⟨⟨JointModeQ.unknown, none, none, none, none, none, none⟩, some 1, none⟩,
       ⟨⟨JointModeQ.unknown, none, none, none, some 5, none, none⟩, some 2, some 0⟩,
       ⟨⟨JointModeQ.unknown, none, some 0, none, none, none, none⟩, some 3, some 1⟩,
       ⟨⟨JointModeQ.unknown, none, none, none, none, none, none⟩, none, some 2⟩]
      0 4).getD 0 0 ≠ 0 ∧
    (removeDegeneratePrimitives oracle0 (JointOptions.create 0)
      [⟨⟨JointModeQ.unknown, none, none, none, none, none, none⟩, some 1, none⟩,
       ⟨⟨JointModeQ.unknown, none, none, none, some 5, none, none⟩, some 2, some 0⟩,
       ⟨⟨JointModeQ.unknown, none, some 0, none, none, none, none⟩, some 3, some 1⟩,
       ⟨⟨JointModeQ.unknown, none, none, none, none, none, none⟩, none, some 2⟩]
      0 4).numRemoved ≤ 1 :=
  ⟨(removeDegenerate_passes_bounded oracle0 (JointOptions.create 0)
      [⟨⟨JointModeQ.unknown, none, none, none, none, none, none⟩, some 1, none⟩,
       ⟨⟨JointModeQ.unknown, none, none, none, some 5, none, none⟩, some 2, some 0⟩,
       ⟨⟨JointModeQ.unknown, none, some 0, none, none, none, none⟩, some 3, some 1⟩,
       ⟨⟨JointModeQ.unknown, none, none, none, none, none, none⟩, none, some 2⟩] 0 4).1,
   (removeDegenerate_passes_bounded oracle0 (JointOptions.create 0)
      [⟨⟨JointModeQ.unknown, none, none, none, none, none, none⟩, some 1, none⟩,
       ⟨⟨JointModeQ.unknown, none, none, none, some 5, none, none⟩, some 2, some 0⟩,
       ⟨⟨JointModeQ.unknown, none, some 0, none, none, none, none⟩, some 3, some 1⟩,
       ⟨⟨JointModeQ.unknown, none, none, none, none, none, none⟩, none, some 2⟩] 0 4).2.1 0
     (by with_unfolding_all decide),
   (removeDegenerate_passes_bounded oracle0 (JointOptions.create 0)
      [⟨⟨JointModeQ.unknown, none, none, none, none, none, none⟩, some 1, none⟩,
       ⟨⟨JointModeQ.unknown, none, none, none, some 5, none, none⟩, some 2, some 0⟩,
       ⟨⟨JointModeQ.unknown, none, some 0, none, none, none, none⟩, some 3, some 1⟩,
       ⟨⟨JointModeQ.unknown, none, none, none, none, none, none⟩, none, some 2⟩] 0 4).2.2
      [⟨⟨JointModeQ.unknown, none, none, none, none, none, none⟩, some 1, none⟩,
       ⟨⟨JointModeQ.unknown, none, none, none, some 5, none, none⟩, some 2, some 0⟩,
       ⟨⟨JointModeQ.unknown, none, some 0, none, none, none, none⟩, some 3, some 1⟩,
       ⟨⟨JointModeQ.unknown, none, none, none, none, none, none⟩, none, some 2⟩] 0⟩

/-- C8 counterexample: the name "Node_12abc" does not match the spec's
Node_<digits> pattern (so the claim says it yields id 0), yet
extractNodeId returns 12: parseInt reads the leading digits of the
captured suffix and ignores the trailing characters. -/
theorem extractNodeId_partial_suffix :
    matchesNodeDigits ("Node_12abc".toList) = false ∧
    extractNodeId ("Node_12abc".toList) = 12 ∧ (12 : Int) ≠ 0 := by
  refine ⟨by decide, by decide, by decide⟩

theorem findNodeCapture_concat (pre post : List Char)
    (hno : ∀ k, k < pre.length → nodeTag.isPrefixOf ((pre ++ (nodeTag ++ post)).drop k) = false) :
    findNodeCapture (pre ++ (nodeTag ++ post)) = some (post.takeWhile notLineTerm) := by
  induction pre with
  | nil =>
    simp only [List.nil_append]
    rw [findNodeCapture.eq_def]
    cases post <;> simp [nodeTag, notLineTerm]
  | cons c pre ih =>
    have h0 := hno 0 (by simp)
    simp only [List.drop_zero] at h0
    rw [List.cons_append, findNodeCapture.eq_def]
    simp only [List.cons_append] at h0
    simp only [h0, Bool.false_eq_true, if_false]
    exact ih (fun k hk => by
      have := hno (k + 1) (by simpa using Nat.succ_lt_succ hk)
      simpa using this)

/-- C8 (amended): extractNodeId never throws (it is a total function); a
name in which "Node_" does not occur yields id 0; and a name of the form
pre ++ "Node_" ++ post whose prefix contains no earlier occurrence of the
tag yields the base-10 parseInt of post (up to a line terminator),
defaulting to 0 when post has no leading integer. -/
theorem extractNodeId_behavior :
    (∀ cs : List Char, findNodeCapture cs = none → extractNodeId cs = 0) ∧
    (∀ pre post : List Char,
      (∀ k, k < pre.length →
        nodeTag.isPrefixOf ((pre ++ (nodeTag ++ post)).drop k) = false) →
      extractNodeId (pre ++ (nodeTag ++ post)) =
        (match jsParseIntBase10 (post.takeWhile notLineTerm) with
         | none => 0
         | some v => v)) := by
  constructor
  · intro cs h
    simp [extractNodeId, h]
  · intro pre post hno
    simp [extractNodeId, findNodeCapture_concat pre post hno]

/-- Witness for C8: a name with a single leading junk character and the
suffix "12" yields id 12, and a name without the tag yields 0. -/
theorem extractNodeId_behavior_witness :
    extractNodeId (('x' :: []) ++ (nodeTag ++ ("12".toList))) = 12 ∧
    extractNodeId ("abc".toList) = 0 := by
  constructor
  · rw [extractNodeId_behavior.2 ('x' :: []) ("12".toList) (by decide)]
    decide
  · exact extractNodeId_behavior.1 ("abc".toList) (by decide)

/-- C5 counterexample: a buffer whose feature-table header declares byte
length 18 (not a multiple of 4) but whose scene content makes JSON.parse
throw is decoded as invalid tile data, not invalid feature table, so the
claim's "regardless of scene content" fails. -/
theorem parseImdl_bad_ft_length_scene_throw :
    readFeatureTableHeaderAt byteC5 12 = some ⟨18, 0, 0⟩ ∧
    (18 : Nat) % 4 ≠ 0 ∧
    parseImdlDocument parseNodesNone sceneDecodeThrow byteC5 =
      ParseResult.err TileStatus.invalidTileData ∧
    TileStatus.invalidTileData ≠ TileStatus.invalidFeatureTable := by
  refine ⟨by decide, by decide, by decide, by decide⟩

/-- C9 counterexample: a successfully parsed single-model feature table
with feature count 3 whose animationNodes descriptor resolves to an
8-byte buffer view at one byte per id materialises an id array of length
8, not 3; the parser never compares the two. -/
theorem parseImdl_animation_ids_length_mismatch :
    parseImdlDocument parseNodesNone sceneDecodeC9 byteC9 =
      ParseResult.okDoc ⟨⟨false, [117901063], 3, none, some [1,2,3,4,5,6,7,8]⟩, [], none,
        [1,2,3,4,5,6,7,8], docC9⟩ ∧
    ([1,2,3,4,5,6,7,8] : List Nat).length = 8 ∧ (8 : Nat) ≠ 3 := by
  refine ⟨by decide, by decide, by decide⟩

theorem byteSlice_length (b : Bytes) (p len : Nat) :
    (byteSlice b p len).length = min len (b.length - p) := by
  simp [byteSlice]

theorem groupWords2_length (l : Bytes) : (groupWords2 l).length = l.length / 2 := by
  induction l using groupWords2.induct with
  | case1 b0 b1 rest ih => simp [groupWords2, ih]; omega
  | case2 l h => cases l with
    | nil => simp [groupWords2]
    | cons a t =>
      cases t with
      | nil => simp [groupWords2]
      | cons c d => exact absurd rfl (h a c d)

theorem groupWords4_length (l : Bytes) : (groupWords4 l).length = l.length / 4 := by
  induction l using groupWords4.induct with
  | case1 b0 b1 b2 b3 rest ih => simp [groupWords4, ih]; omega
  | case2 l h =>
    match l, h with
    | [], _ => simp [groupWords4]
    | [a], _ => simp [groupWords4]
    | [a,b], _ => simp [groupWords4]
    | [a,b,c], _ => simp [groupWords4]
    | a::b::c::d::t, h => exact absurd rfl (h a b c d t)

/-- C9 (amended): for a successfully parsed single-model feature table
whose scene declares an animationNodes descriptor resolving to an
in-range buffer view, the materialised id array (1, 2 or 4 bytes per id
as selected by bytesPerId, the wider cases under the typed-array
divisibility and alignment conditions) has length equal to the buffer
view's byte length divided by bytesPerId; the length is determined by the
buffer view alone and is not checked against the feature count. -/
theorem parseFeatureTable_animation_ids_length (doc : SceneDoc) (bd : Bytes) (bp : Nat) (b : Bytes) (fts : Nat)
    (fth : FeatureTableHeaderData) (descr : AnimNodesDescr) (pr : String × BufferViewJson)
    (hfth : readFeatureTableHeaderAt b fts = some fth)
    (hmod : fth.length % 4 = 0) (hge : 12 ≤ fth.length)
    (hend : fts + 12 + 4 * ((fth.length - 12) / 4) ≤ b.length)
    (han : doc.animationNodes = some descr)
    (hbv : doc.bufferViews.find? (fun kv => kv.1 == descr.bufferView) = some pr)
    (hrange : pr.2.byteOffset + pr.2.byteLength ≤ bd.length) :
    (descr.bytesPerId = 1 →
      parseFeatureTable doc bd bp b fts false = Except.ok (some
        ⟨false, readWords b (fts + 12) ((fth.length - 12) / 4), fth.count, none,
          some (byteSlice bd pr.2.byteOffset pr.2.byteLength)⟩) ∧
      (byteSlice bd pr.2.byteOffset pr.2.byteLength).length = pr.2.byteLength) ∧
    (descr.bytesPerId = 2 → pr.2.byteLength % 2 = 0 → (bp + pr.2.byteOffset) % 2 = 0 →
      parseFeatureTable doc bd bp b fts false = Except.ok (some
        ⟨false, readWords b (fts + 12) ((fth.length - 12) / 4), fth.count, none,
          some (groupWords2 (byteSlice bd pr.2.byteOffset pr.2.byteLength))⟩) ∧
      (groupWords2 (byteSlice bd pr.2.byteOffset pr.2.byteLength)).length =
        pr.2.byteLength / 2) ∧
    (descr.bytesPerId = 4 → pr.2.byteLength % 4 = 0 → (bp + pr.2.byteOffset) % 4 = 0 →
      parseFeatureTable doc bd bp b fts false = Except.ok (some
        ⟨false, readWords b (fts + 12) ((fth.length - 12) / 4), fth.count, none,
          some (groupWords4 (byteSlice bd pr.2.byteOffset pr.2.byteLength))⟩) ∧
      (groupWords4 (byteSlice bd pr.2.byteOffset pr.2.byteLength)).length =
        pr.2.byteLength / 4) := by
  have hslice : (byteSlice bd pr.2.byteOffset pr.2.byteLength).length = pr.2.byteLength := by
    rw [byteSlice_length]; omega
  have hmin : min pr.2.byteOffset bd.length = pr.2.byteOffset := by omega
  have hnm : ¬(fth.length % 4 ≠ 0) := by omega
  have hnl : ¬(fth.length < featureTableHeaderSize) := by
    simp only [featureTableHeaderSize]; omega
  have hne : ¬(b.length < fts + featureTableHeaderSize +
      4 * ((fth.length - featureTableHeaderSize) / 4)) := by
    simp only [featureTableHeaderSize]; omega
  refine ⟨fun h1 => ⟨?_, hslice⟩,
    fun h2 hl2 ha2 => ⟨?_, by rw [groupWords2_length, hslice]⟩,
    fun h4 hl4 ha4 => ⟨?_, by rw [groupWords4_length, hslice]⟩⟩
  · simp only [parseFeatureTable, hfth, hnm, if_false, hnl, hne, Bool.false_eq_true,
      han, hbv, h1, hmin]
    rfl
  · have hcond : ¬((byteSlice bd pr.2.byteOffset pr.2.byteLength).length % 2 ≠ 0 ∨
        (bp + pr.2.byteOffset) % 2 ≠ 0) := by
      rw [hslice]
      omega
    simp only [parseFeatureTable, hfth, hnm, if_false, hnl, hne, Bool.false_eq_true,
      han, hbv, h2, hmin]
    rw [if_neg hcond]
    rfl
  · have hcond : ¬((byteSlice bd pr.2.byteOffset pr.2.byteLength).length % 4 ≠ 0 ∨
        (bp + pr.2.byteOffset) % 4 ≠ 0) := by
      rw [hslice]
      omega
    simp only [parseFeatureTable, hfth, hnm, if_false, hnl, hne, Bool.false_eq_true,
      han, hbv, h4, hmin]
    rw [if_neg hcond]
    rfl

theorem parseFeatureTable_none_of_bad_mod (doc : SceneDoc) (bd : Bytes) (bp : Nat)
    (b : Bytes) (fts : Nat) (multi : Bool) (fth : FeatureTableHeaderData)
    (hfth : readFeatureTableHeaderAt b fts = some fth) (hmod : fth.length % 4 ≠ 0) :
    parseFeatureTable doc bd bp b fts multi = Except.ok none := by
  simp only [parseFeatureTable, hfth]
  rw [if_pos hmod]
  rfl

theorem parseFeatureTable_none_of_past_end (doc : SceneDoc) (bd : Bytes) (bp : Nat)
    (b : Bytes) (fts : Nat) (multi : Bool) (fth : FeatureTableHeaderData)
    (hfth : readFeatureTableHeaderAt b fts = some fth)
    (hmod : fth.length % 4 = 0) (hge : featureTableHeaderSize ≤ fth.length)
    (hpast : b.length < fts + featureTableHeaderSize +
      4 * ((fth.length - featureTableHeaderSize) / 4)) :
    parseFeatureTable doc bd bp b fts multi = Except.ok none := by
  have hnm : ¬(fth.length % 4 ≠ 0) := by omega
  have hnl : ¬(fth.length < featureTableHeaderSize) := by omega
  simp only [parseFeatureTable, hfth, hnm, if_false, hnl, hpast, if_true]
  rfl

/-- C5 (amended): parseImdlDocument returns the invalid-feature-table
status with no document when the feature-table header cannot be read
(given a valid readable tile header), and, provided the glTF chunk header
is valid, the scene content parses and carries a meshes map and the
binary position is within the buffer, whenever the header's declared
length is not a multiple of 4 or parseFeatureTable otherwise returns
undefined; materialising a packed array that would read past the buffer
end makes parseFeatureTable return undefined (which the pipeline maps to
invalid-feature-table).  Scene content that fails to parse yields
invalid-tile-data instead, so the original "regardless of scene content"
does not hold. -/
theorem parseImdl_feature_table_failures (pf : SceneDoc → FeatureTableModel → NodesModel)
    (sd : Bytes → SceneParse) (b : Bytes) :
    ((readImdlHeader b).isValid = true →
     (readImdlHeader b).isReadableVersion = true →
     readFeatureTableHeaderAt b imdlHeaderSize = none →
     parseImdlDocument pf sd b = ParseResult.err TileStatus.invalidFeatureTable) ∧
    (∀ (fth : FeatureTableHeaderData) (doc : SceneDoc),
      (readImdlHeader b).isValid = true →
      (readImdlHeader b).isReadableVersion = true →
      readFeatureTableHeaderAt b imdlHeaderSize = some fth →
      (readGltfHeader b (imdlHeaderSize + fth.length)).valid = true →
      sd (byteSlice b (readGltfHeader b (imdlHeaderSize + fth.length)).scenePosition
        (readGltfHeader b (imdlHeaderSize + fth.length)).sceneStrLength) =
        SceneParse.okDoc doc →
      doc.meshes.isSome = true →
      (readGltfHeader b (imdlHeaderSize + fth.length)).binaryPosition ≤ b.length →
      ((fth.length % 4 ≠ 0 →
        parseImdlDocument pf sd b = ParseResult.err TileStatus.invalidFeatureTable ∧
        ∀ d, parseImdlDocument pf sd b ≠ ParseResult.okDoc d) ∧
       (parseFeatureTable doc
          (b.drop (readGltfHeader b (imdlHeaderSize + fth.length)).binaryPosition)
          (readGltfHeader b (imdlHeaderSize + fth.length)).binaryPosition b imdlHeaderSize
          (decide ((readImdlHeader b).flags / multiModelFlagBit % 2 = 1)) =
            Except.ok none →
        parseImdlDocument pf sd b = ParseResult.err TileStatus.invalidFeatureTable ∧
        ∀ d, parseImdlDocument pf sd b ≠ ParseResult.okDoc d))) ∧
    (∀ (doc : SceneDoc) (bd : Bytes) (bp fts : Nat) (multi : Bool)
        (fth : FeatureTableHeaderData),
      readFeatureTableHeaderAt b fts = some fth →
      fth.length % 4 = 0 → featureTableHeaderSize ≤ fth.length →
      b.length < fts + featureTableHeaderSize +
        4 * ((fth.length - featureTableHeaderSize) / 4) →
      parseFeatureTable doc bd bp b fts multi = Except.ok none) := by
  refine ⟨?_, ?_, ?_⟩
  · intro hv hr hft
    simp only [parseImdlDocument, hv, hr, hft]
    simp
  · intro fth doc hv hr hft hg hs hm hb
    have hmain : ∀ hok : parseFeatureTable doc
        (b.drop (readGltfHeader b (imdlHeaderSize + fth.length)).binaryPosition)
        (readGltfHeader b (imdlHeaderSize + fth.length)).binaryPosition b imdlHeaderSize
        (decide ((readImdlHeader b).flags / multiModelFlagBit % 2 = 1)) =
          Except.ok none,
        parseImdlDocument pf sd b = ParseResult.err TileStatus.invalidFeatureTable := by
      intro hok
      have hnb : ¬(b.length < (readGltfHeader b (imdlHeaderSize + fth.length)).binaryPosition) := by
        omega
      have hm2 : doc.meshes ≠ none := by
        intro hnone
        rw [hnone] at hm
        simp at hm
      simp only [parseImdlDocument, hv, hr, hft, hg, hs, hnb, hok]
      simp [hv, hr, hg, hm2, hnb, hok]
    constructor
    · intro hmod
      have hok := parseFeatureTable_none_of_bad_mod doc
        (b.drop (readGltfHeader b (imdlHeaderSize + fth.length)).binaryPosition)
        (readGltfHeader b (imdlHeaderSize + fth.length)).binaryPosition b imdlHeaderSize
        (decide ((readImdlHeader b).flags / multiModelFlagBit % 2 = 1)) fth hft hmod
      refine ⟨hmain hok, fun d => ?_⟩
      rw [hmain hok]
      simp
    · intro hok
      refine ⟨hmain hok, fun d => ?_⟩
      rw [hmain hok]
      simp
  · intro doc bd bp fts multi fth hfth hmod hge hpast
    exact parseFeatureTable_none_of_past_end doc bd bp b fts multi fth hfth hmod hge hpast

/-- Witness for C5 at the concrete buffer byteC5 with a well-formed
scene: the non-multiple-of-4 feature-table length yields the
invalid-feature-table status and no document. -/
theorem parseImdl_feature_table_failures_witness :
    parseImdlDocument parseNodesNone sceneDecodeMeshes byteC5 =
      ParseResult.err TileStatus.invalidFeatureTable :=
  (((parseImdl_feature_table_failures parseNodesNone sceneDecodeMeshes byteC5).2.1
    ⟨18, 0, 0⟩ ⟨none, [], some (), none⟩ (by decide) (by decide) (by decide) (by decide)
    (by decide) (by decide) (by decide)).1 (by decide)).1

/-- Witness for C9 at the concrete buffer byteC9: the one-byte-per-id
array over the 8-byte view has length 8. -/
theorem parseFeatureTable_animation_ids_length_witness :
    parseFeatureTable docC9 [1,2,3,4,5,6,7,8] 49 byteC9 12 false = Except.ok (some
      ⟨false, readWords byteC9 24 1, 3, none,
        some (byteSlice [1,2,3,4,5,6,7,8] 0 8)⟩) ∧
    (byteSlice ([1,2,3,4,5,6,7,8] : Bytes) 0 8).length = 8 :=
  (parseFeatureTable_animation_ids_length docC9 [1,2,3,4,5,6,7,8] 49 byteC9 12
    ⟨16, 3, 0⟩ ⟨1, "a"⟩ ("a", ⟨0, 8⟩) (by decide) (by decide) (by decide) (by decide)
    (by decide) (by decide) (by decide)).1 rfl

theorem writeWord_length (b : Bytes) (p v : Nat) : (writeWord b p v).length = b.length := by
  simp [writeWord]

theorem getD_set_self (l : Bytes) (i a : Nat) :
    (l.set i a).getD i 0 = if i < l.length then a else l.getD i 0 := by
  by_cases h : i < l.length
  · simp [List.getD, List.getElem?_set_self h, h]
  · simp [List.getD, List.set_eq_of_length_le (Nat.le_of_not_lt h), h]

theorem getD_set_ne (l : Bytes) (i j a : Nat) (h : i ≠ j) :
    (l.set i a).getD j 0 = l.getD j 0 := by
  simp [List.getD, List.getElem?_set_ne h]

theorem getD_writeWord_outside (b : Bytes) (p v q : Nat)
    (h : q < p ∨ p + 4 ≤ q) : (writeWord b p v).getD q 0 = b.getD q 0 := by
  unfold writeWord
  rw [getD_set_ne _ _ _ _ (by omega), getD_set_ne _ _ _ _ (by omega),
    getD_set_ne _ _ _ _ (by omega), getD_set_ne _ _ _ _ (by omega)]

theorem readWord_writeWord_outside (b : Bytes) (p v q : Nat)
    (h : q + 4 ≤ p ∨ p + 4 ≤ q) : readWord (writeWord b p v) q = readWord b q := by
  unfold readWord
  rw [getD_writeWord_outside _ _ _ _ (by omega), getD_writeWord_outside _ _ _ _ (by omega),
    getD_writeWord_outside _ _ _ _ (by omega), getD_writeWord_outside _ _ _ _ (by omega)]

theorem readWord_byte_decomp (b : Bytes) (p : Nat) (h : readWord b p = 2) :
    b.getD p 0 = 2 ∧ b.getD (p + 1) 0 = 0 ∧ b.getD (p + 2) 0 = 0 ∧
      b.getD (p + 3) 0 = 0 := by
  unfold readWord at h
  omega

theorem getD_pos_lt (b : Bytes) (p : Nat) (h : b.getD p 0 ≠ 0) : p < b.length := by
  by_contra hc
  rw [List.getD_eq_default] at h
  · exact h rfl
  · omega

theorem readWord_writeWord_one (b : Bytes) (p : Nat) (h2 : readWord b p = 2) :
    readWord (writeWord b p 1) p = 1 := by
  obtain ⟨h0, h1, hb2, h3⟩ := readWord_byte_decomp b p h2
  have hlt : p < b.length := getD_pos_lt b p (by omega)
  have hv1 : (1 : Nat) % 256 = 1 := by norm_num
  have hv0 : (1 : Nat) / 256 % 256 = 0 := by norm_num
  have hv0b : (1 : Nat) / 65536 % 256 = 0 := by norm_num
  have hv0c : (1 : Nat) / 16777216 % 256 = 0 := by norm_num
  unfold writeWord readWord
  rw [hv1, hv0]
  have k0 : ((((b.set p 1).set (p+1) 0).set (p+2) 0).set (p+3) 0).getD p 0 = 1 := by
    rw [getD_set_ne _ _ _ _ (by omega), getD_set_ne _ _ _ _ (by omega),
      getD_set_ne _ _ _ _ (by omega), getD_set_self, if_pos (by simpa using hlt)]
  have k1 : ((((b.set p 1).set (p+1) 0).set (p+2) 0).set (p+3) 0).getD (p+1) 0 = 0 := by
    rw [getD_set_ne _ _ _ _ (by omega), getD_set_ne _ _ _ _ (by omega), getD_set_self]
    split
    · rfl
    · rw [getD_set_ne _ _ _ _ (by omega)]
      exact h1
  have k2 : ((((b.set p 1).set (p+1) 0).set (p+2) 0).set (p+3) 0).getD (p+2) 0 = 0 := by
    rw [getD_set_ne _ _ _ _ (by omega), getD_set_self]
    split
    · rfl
    · rw [getD_set_ne _ _ _ _ (by omega), getD_set_ne _ _ _ _ (by omega)]
      exact hb2
  have k3 : ((((b.set p 1).set (p+1) 0).set (p+2) 0).set (p+3) 0).getD (p+3) 0 = 0 := by
    rw [getD_set_self]
    split
    · rfl
    · rw [getD_set_ne _ _ _ _ (by omega), getD_set_ne _ _ _ _ (by omega),
        getD_set_ne _ _ _ _ (by omega)]
      exact h3
  rw [k0, k1, k2, k3]

theorem drop_set_of_lt (l : Bytes) (i a n : Nat) (h : i < n) :
    (l.set i a).drop n = l.drop n := by
  apply List.ext_getElem?
  intro k
  rw [List.getElem?_drop, List.getElem?_drop, List.getElem?_set_ne (by omega)]

theorem drop_writeWord (b : Bytes) (p v n : Nat) (h : p + 4 ≤ n) :
    (writeWord b p v).drop n = b.drop n := by
  unfold writeWord
  rw [drop_set_of_lt _ _ _ _ (by omega), drop_set_of_lt _ _ _ _ (by omega),
    drop_set_of_lt _ _ _ _ (by omega), drop_set_of_lt _ _ _ _ (by omega)]

theorem byteSlice_writeWord (b : Bytes) (p v sp len : Nat) (h : p + 4 ≤ sp) :
    byteSlice (writeWord b p v) sp len = byteSlice b sp len := by
  unfold byteSlice
  rw [drop_writeWord _ _ _ _ h]

theorem readWords_writeWord (b : Bytes) (p v : Nat) :
    ∀ (n p0 : Nat), p0 + 4 * n ≤ p →
      readWords (writeWord b p v) p0 n = readWords b p0 n := by
  intro n
  induction n with
  | zero => intro p0 h; rfl
  | succ k ih =>
    intro p0 h
    unfold readWords
    rw [readWord_writeWord_outside _ _ _ _ (Or.inl (by omega)), ih (p0 + 4) (by omega)]

theorem readFtHeaderAt_writeWord (b : Bytes) (p v fts : Nat) (h : fts + 12 ≤ p) :
    readFeatureTableHeaderAt (writeWord b p v) fts = readFeatureTableHeaderAt b fts := by
  unfold readFeatureTableHeaderAt
  rw [writeWord_length, readWord_writeWord_outside _ _ _ _ (Or.inl (by omega)),
    readWord_writeWord_outside _ _ _ _ (Or.inl (by omega)),
    readWord_writeWord_outside _ _ _ _ (Or.inl (by omega))]

theorem readGltfHeader_sentinel_form (b : Bytes) (p : Nat)
    (h2 : readWord b (p + 4) = gltfVersion2) (hs : readWord b (p + 16) = gltf1SceneFormat) :
    readGltfHeader b p =
      ⟨readWord b p, 1, readWord b (p + 8), readWord b (p + 12), p + 20,
        p + 20 + readWord b (p + 12), readWord b p == tileFormatGltf⟩ := by
  unfold readGltfHeader
  rw [h2, hs]
  simp [gltfVersion1, gltfVersion2, gltf1SceneFormat]

theorem readGltfHeader_write_form (b : Bytes) (p : Nat)
    (h2 : readWord b (p + 4) = gltfVersion2) (hs : readWord b (p + 16) = gltf1SceneFormat) :
    readGltfHeader (writeWord b (p + 4) gltfVersion1) p =
      ⟨readWord b p, 1, readWord b (p + 8), readWord b (p + 12), p + 20,
        p + 20 + readWord b (p + 12), readWord b p == tileFormatGltf⟩ := by
  have hf : readWord (writeWord b (p + 4) 1) p = readWord b p :=
    readWord_writeWord_outside b (p + 4) 1 p (Or.inl (by omega))
  have hv : readWord (writeWord b (p + 4) 1) (p + 4) = 1 :=
    readWord_writeWord_one b (p + 4) h2
  have hg : readWord (writeWord b (p + 4) 1) (p + 8) = readWord b (p + 8) :=
    readWord_writeWord_outside b (p + 4) 1 (p + 8) (Or.inr (by omega))
  have hsc : readWord (writeWord b (p + 4) 1) (p + 12) = readWord b (p + 12) :=
    readWord_writeWord_outside b (p + 4) 1 (p + 12) (Or.inr (by omega))
  have h5 : readWord (writeWord b (p + 4) 1) (p + 16) = readWord b (p + 16) :=
    readWord_writeWord_outside b (p + 4) 1 (p + 16) (Or.inr (by omega))
  unfold readGltfHeader
  simp only [show gltfVersion1 = 1 from rfl]
  rw [hf, hv, hg, hsc, h5, hs]
  simp [gltfVersion1, gltfVersion2, gltf1SceneFormat]

theorem parseFeatureTable_writeWord (doc : SceneDoc) (bd : Bytes) (bp : Nat)
    (b : Bytes) (multi : Bool) (wpos v : Nat)
    (hpos : 16 + readWord b 12 ≤ wpos) :
    parseFeatureTable doc bd bp (writeWord b wpos v) 12 multi =
      parseFeatureTable doc bd bp b 12 multi := by
  by_cases h24 : 12 + featureTableHeaderSize ≤ b.length
  · have hw12 : readWord (writeWord b wpos v) 12 = readWord b 12 :=
      readWord_writeWord_outside b wpos v 12 (Or.inl (by omega))
    have hb : readFeatureTableHeaderAt b 12 =
        some ⟨readWord b 12, readWord b 16, readWord b 20⟩ := by
      unfold readFeatureTableHeaderAt
      rw [if_pos h24]
    have hb' : readFeatureTableHeaderAt (writeWord b wpos v) 12 =
        some ⟨readWord b 12, readWord (writeWord b wpos v) 16,
          readWord (writeWord b wpos v) 20⟩ := by
      unfold readFeatureTableHeaderAt
      rw [writeWord_length, if_pos h24, hw12]
    by_cases hmod : readWord b 12 % 4 = 0
    · have hm2 : ¬(readWord b 12 % 4 ≠ 0) := by omega
      by_cases hlt : readWord b 12 < featureTableHeaderSize
      · simp only [parseFeatureTable, hb, hb', if_neg hm2, if_pos hlt]
      · have hL : featureTableHeaderSize ≤ readWord b 12 := Nat.le_of_not_lt hlt
        have hL12 : (12 : Nat) ≤ readWord b 12 := by
          simpa [featureTableHeaderSize] using hL
        have h16 : readWord (writeWord b wpos v) 16 = readWord b 16 :=
          readWord_writeWord_outside b wpos v 16 (Or.inl (by omega))
        have h20 : readWord (writeWord b wpos v) 20 = readWord b 20 :=
          readWord_writeWord_outside b wpos v 20 (Or.inl (by omega))
        have hdiv : 4 * ((readWord b 12 - featureTableHeaderSize) / 4) ≤
            readWord b 12 - featureTableHeaderSize := Nat.mul_div_le _ _ |>.trans_eq rfl
        have hwords : readWords (writeWord b wpos v) (12 + featureTableHeaderSize)
            ((readWord b 12 - featureTableHeaderSize) / 4) =
            readWords b (12 + featureTableHeaderSize)
              ((readWord b 12 - featureTableHeaderSize) / 4) := by
          apply readWords_writeWord
          simp only [featureTableHeaderSize] at hdiv ⊢
          omega
        simp only [parseFeatureTable, hb, hb', h16, h20, hwords, writeWord_length]
    · simp only [parseFeatureTable, hb, hb', if_pos hmod]
  · have hb : readFeatureTableHeaderAt b 12 = none := by
      unfold readFeatureTableHeaderAt
      rw [if_neg h24]
    have hb' : readFeatureTableHeaderAt (writeWord b wpos v) 12 = none := by
      unfold readFeatureTableHeaderAt
      rw [writeWord_length, if_neg h24]
    simp only [parseFeatureTable, hb, hb']

theorem gltf_v1_explicit_version_same_document
    (pf : SceneDoc → FeatureTableModel → NodesModel) (sd : Bytes → SceneParse)
    (b : Bytes)
    (h2 : readWord b (imdlHeaderSize + readWord b imdlHeaderSize + 4) = gltfVersion2)
    (hs : readWord b (imdlHeaderSize + readWord b imdlHeaderSize + 16) = gltf1SceneFormat) :
    parseImdlDocument pf sd
      (writeWord b (imdlHeaderSize + readWord b imdlHeaderSize + 4) gltfVersion1) =
      parseImdlDocument pf sd b := by
  simp only [imdlHeaderSize] at h2 hs ⊢
  have hhdr : readImdlHeader (writeWord b (12 + readWord b 12 + 4) gltfVersion1) =
      readImdlHeader b := by
    unfold readImdlHeader
    rw [readWord_writeWord_outside _ _ _ _ (Or.inl (by omega)),
      readWord_writeWord_outside _ _ _ _ (Or.inl (by omega)),
      readWord_writeWord_outside _ _ _ _ (Or.inl (by omega))]
  simp only [parseImdlDocument, imdlHeaderSize, hhdr, writeWord_length]
  apply if_congr Iff.rfl rfl
  apply if_congr Iff.rfl rfl
  by_cases h24 : 12 + featureTableHeaderSize ≤ b.length
  · have hw12 : readWord (writeWord b (12 + readWord b 12 + 4) gltfVersion1) 12 =
        readWord b 12 :=
      readWord_writeWord_outside _ _ _ _ (Or.inl (by omega))
    have hb : readFeatureTableHeaderAt b 12 =
        some ⟨readWord b 12, readWord b 16, readWord b 20⟩ := by
      unfold readFeatureTableHeaderAt
      rw [if_pos h24]
    have hb' : readFeatureTableHeaderAt (writeWord b (12 + readWord b 12 + 4) gltfVersion1)
        12 = some ⟨readWord b 12,
          readWord (writeWord b (12 + readWord b 12 + 4) gltfVersion1) 16,
          readWord (writeWord b (12 + readWord b 12 + 4) gltfVersion1) 20⟩ := by
      unfold readFeatureTableHeaderAt
      rw [writeWord_length, if_pos h24, hw12]
    simp only [hb, hb']
    rw [readGltfHeader_write_form b (12 + readWord b 12) h2 hs,
      readGltfHeader_sentinel_form b (12 + readWord b 12) h2 hs]
    dsimp only
    apply if_congr Iff.rfl rfl
    have hscene : byteSlice (writeWord b (12 + readWord b 12 + 4) gltfVersion1)
        (12 + readWord b 12 + 20) (readWord b (12 + readWord b 12 + 12)) =
        byteSlice b (12 + readWord b 12 + 20) (readWord b (12 + readWord b 12 + 12)) :=
      byteSlice_writeWord _ _ _ _ _ (by omega)
    rw [hscene]
    cases hsd : sd (byteSlice b (12 + readWord b 12 + 20)
        (readWord b (12 + readWord b 12 + 12))) with
    | badUtf8 => rfl
    | parseThrow => rfl
    | okDoc doc =>
      apply if_congr Iff.rfl rfl
      apply if_congr Iff.rfl rfl
      have hdrop : List.drop
          (12 + readWord b 12 + 20 + readWord b (12 + readWord b 12 + 12))
          (writeWord b (12 + readWord b 12 + 4) gltfVersion1) =
          List.drop (12 + readWord b 12 + 20 + readWord b (12 + readWord b 12 + 12)) b :=
        drop_writeWord _ _ _ _ (by omega)
      rw [hdrop]
      rw [parseFeatureTable_writeWord doc
        (List.drop (12 + readWord b 12 + 20 + readWord b (12 + readWord b 12 + 12)) b)
        (12 + readWord b 12 + 20 + readWord b (12 + readWord b 12 + 12)) b
        (decide ((readImdlHeader b).flags / multiModelFlagBit % 2 = 1))
        (12 + readWord b 12 + 4) gltfVersion1 (by omega)]
  · have hbn : readFeatureTableHeaderAt b 12 = none := by
      unfold readFeatureTableHeaderAt
      rw [if_neg h24]
    have hbn' : readFeatureTableHeaderAt
        (writeWord b (12 + readWord b 12 + 4) gltfVersion1) 12 = none := by
      unfold readFeatureTableHeaderAt
      rw [writeWord_length, if_neg h24]
    simp only [hbn, hbn']

theorem plusScaled_zero (p : PointQ) (v : VecQ) : plusScaled p v 0 = p := by
  cases p
  simp [plusScaled]

theorem isAlmostEqualPt_self (p : PointQ) : isAlmostEqualPt p p = true := by
  simp [isAlmostEqualPt, isSameCoordinate, smallMetricDistance]

theorem normalizable_of_far (p q : PointQ) (h : isAlmostEqualPt p q = false) :
    normalizable (vecFromTo p q) = true := by
  simp only [isAlmostEqualPt, Bool.and_eq_false_iff, isSameCoordinate,
    decide_eq_false_iff_not, not_le] at h
  simp only [normalizable, magnitudeSq, vecFromTo, decide_eq_true_eq]
  have sq : ∀ a b : ℚ, smallMetricDistance < |a - b| →
      smallMetricDistance * smallMetricDistance ≤ (b - a) * (b - a) := by
    intro a b hab
    have h0 : (0:ℚ) ≤ smallMetricDistance := by norm_num [smallMetricDistance]
    have := mul_le_mul hab.le hab.le h0 (abs_nonneg _)
    calc smallMetricDistance * smallMetricDistance ≤ |a - b| * |a - b| := this
    _ = (b - a) * (b - a) := by rw [← abs_mul, abs_mul_self]; ring
  have hx2 : ∀ a : ℚ, 0 ≤ a * a := fun a => mul_self_nonneg a
  rcases h with (h | h) | h
  · have := sq _ _ h
    nlinarith [hx2 (q.y - p.y), hx2 (q.z - p.z)]
  · have := sq _ _ h
    nlinarith [hx2 (q.x - p.x), hx2 (q.z - p.z)]
  · have := sq _ _ h
    nlinarith [hx2 (q.x - p.x), hx2 (q.y - p.y)]

theorem createOffsetSegment_zero (o : GeomOracle) (p q : PointQ)
    (h : isAlmostEqualPt p q = false) :
    createOffsetSegment o p q 0 = some (offSeg p q) := by
  simp only [createOffsetSegment, normalizable_of_far p q h, if_true, plusScaled_zero,
    offSeg]

theorem jd_setJd_out (s : ChainState) (i : Nat) (j : JointData) (h : ¬ i < s.length) :
    setJd s i j = s := List.set_eq_of_length_le (le_of_not_lt h)

theorem linkJoints_share_eq (s : ChainState) (i0 i1 : Nat) (hne : i0 ≠ i1)
    (h : (jd s i1).core.curve0 = (jd s i0).core.curve1) :
    linkJoints s i0 (some i1) =
      setJd (setJd s i0 { jd s i0 with nextJoint := some i1 }) i1
        { jd (setJd s i0 { jd s i0 with nextJoint := some i1 }) i1 with
          previousJoint := some i0 } := by
  have hcore1 : ∀ (t : ChainState) (i : Nat) (j : JointData),
      (jd (setJd t i { jd t i with nextJoint := j.nextJoint }) i).core = (jd t i).core := by
    intro t i j
    by_cases hi : i < t.length
    · rw [jd_setJd_self _ _ _ hi]
    · rw [jd_setJd_out _ _ _ hi]
  have hcore2 : ∀ (t : ChainState) (i : Nat) (j : JointData),
      (jd (setJd t i { jd t i with previousJoint := j.previousJoint }) i).core =
        (jd t i).core := by
    intro t i j
    by_cases hi : i < t.length
    · rw [jd_setJd_self _ _ _ hi]
    · rw [jd_setJd_out _ _ _ hi]
  unfold linkJoints
  simp only
  have hs1core0 : (jd (setJd s i0 { jd s i0 with nextJoint := some i1 }) i0).core =
      (jd s i0).core := hcore1 s i0 ⟨default, some i1, none⟩
  have hs1core1 : (jd (setJd s i0 { jd s i0 with nextJoint := some i1 }) i1).core =
      (jd s i1).core := by
    rw [jd_setJd_ne _ _ _ _ hne]
  have hs2core0 : (jd (setJd (setJd s i0 { jd s i0 with nextJoint := some i1 }) i1
      { jd (setJd s i0 { jd s i0 with nextJoint := some i1 }) i1 with
        previousJoint := some i0 }) i0).core = (jd s i0).core := by
    rw [jd_setJd_ne _ _ _ _ (Ne.symm hne), hs1core0]
  have hs2core1 : (jd (setJd (setJd s i0 { jd s i0 with nextJoint := some i1 }) i1
      { jd (setJd s i0 { jd s i0 with nextJoint := some i1 }) i1 with
        previousJoint := some i0 }) i1).core = (jd s i1).core := by
    have := hcore2 (setJd s i0 { jd s i0 with nextJoint := some i1 }) i1
      ⟨default, none, some i0⟩
    rw [this, hs1core1]
  rw [if_neg, if_neg]
  · rw [hs2core0, hs2core1, h]
    cases (jd s i0).core.curve1 <;> simp
  · rw [hs2core0, hs2core1, h]
    cases (jd s i0).core.curve1 <;> simp

theorem buildLoopAux_points (o : GeomOracle) (dist : ℚ) (pairs : List (PointQ × PointQ)) :
    ∀ (s : ChainState) (frag0 : Option SegQ),
      0 < s.length →
      (jd s (s.length - 1)).core.curve1 = frag0 →
      (buildLoopAux o dist s (s.length - 1) frag0 pairs).1.length =
          s.length + pairs.length ∧
      (buildLoopAux o dist s (s.length - 1) frag0 pairs).2.1 =
          s.length + pairs.length - 1 ∧
      (buildLoopAux o dist s (s.length - 1) frag0 pairs).2.2 =
          (if pairs.length = 0 then frag0
            else createOffsetSegment o (pairs.getD (pairs.length - 1) default).1
              (pairs.getD (pairs.length - 1) default).2 dist) ∧
      (∀ k, k + 1 < s.length →
        jd (buildLoopAux o dist s (s.length - 1) frag0 pairs).1 k = jd s k) ∧
      (pairs.length = 0 → (buildLoopAux o dist s (s.length - 1) frag0 pairs).1 = s) ∧
      (0 < pairs.length →
        jd (buildLoopAux o dist s (s.length - 1) frag0 pairs).1 (s.length - 1) =
          { jd s (s.length - 1) with nextJoint := some s.length }) ∧
      (∀ t, t < pairs.length →
        jd (buildLoopAux o dist s (s.length - 1) frag0 pairs).1 (s.length + t) =
          ⟨JointCore.make
              (if t = 0 then frag0
                else createOffsetSegment o (pairs.getD (t - 1) default).1
                  (pairs.getD (t - 1) default).2 dist)
              (createOffsetSegment o (pairs.getD t default).1
                (pairs.getD t default).2 dist)
              (some (pairs.getD t default).1),
            if t + 1 = pairs.length then none else some (s.length + t + 1),
            some (s.length + t - 1)⟩) := by
  induction pairs with
  | nil =>
    intro s frag0 hpos hc
    refine ⟨by simp [buildLoopAux], by simp [buildLoopAux], by simp [buildLoopAux, hc.symm],
      fun k _ => by simp [buildLoopAux], fun _ => by simp [buildLoopAux],
      fun h0 => absurd h0 (by simp), fun t ht => absurd ht (by simp)⟩
  | cons hd rest ih =>
    intro s frag0 hpos hc
    obtain ⟨pi, pj⟩ := hd
    have hstep : buildLoopAux o dist s (s.length - 1) frag0 ((pi, pj) :: rest) =
        buildLoopAux o dist
          (linkJoints (s ++ [⟨JointCore.make frag0
              (createOffsetSegment o pi pj dist) (some pi), none, none⟩])
            (s.length - 1) (some s.length))
          s.length (createOffsetSegment o pi pj dist) rest := by
      simp [buildLoopAux]
    set frag1 := createOffsetSegment o pi pj dist with hfrag1
    set jNew : JointData := ⟨JointCore.make frag0 frag1 (some pi), none, none⟩ with hjNew
    set s1 := s ++ [jNew] with hs1
    have hne : s.length - 1 ≠ s.length := by omega
    have hshare : (jd s1 s.length).core.curve0 = (jd s1 (s.length - 1)).core.curve1 := by
      rw [hs1, jd_concat_self, jd_append_lt _ _ _ (by omega), hc]
      rfl
    have hlink := linkJoints_share_eq s1 (s.length - 1) s.length hne hshare
    set sMid := setJd s1 (s.length - 1)
      { jd s1 (s.length - 1) with nextJoint := some s.length } with hsMid
    set s2 :=
      setJd sMid s.length { jd sMid s.length with previousJoint := some (s.length - 1) }
      with hs2
    have hlenMid : sMid.length = s.length + 1 := by
      rw [hsMid, length_setJd, hs1, List.length_append]
      simp
    have hlen2 : s2.length = s.length + 1 := by
      rw [hs2, length_setJd, hlenMid]
    have hjdMid_last : jd sMid s.length = jNew := by
      rw [hsMid, jd_setJd_ne _ _ _ _ hne, hs1, jd_concat_self]
    have hjd2_low : ∀ k, k + 1 < s.length → jd s2 k = jd s k := by
      intro k hk
      rw [hs2, jd_setJd_ne _ _ _ _ (by omega), hsMid, jd_setJd_ne _ _ _ _ (by omega),
        hs1, jd_append_lt _ _ _ (by omega)]
    have hjd2_prev : jd s2 (s.length - 1) =
        { jd s (s.length - 1) with nextJoint := some s.length } := by
      have hb : s.length - 1 < s1.length := by
        rw [hs1, List.length_append]
        simp only [List.length_cons, List.length_nil]
        omega
      rw [hs2, jd_setJd_ne _ _ _ _ (Ne.symm hne), hsMid, jd_setJd_self _ _ _ hb, hs1,
        jd_append_lt _ _ _ (by omega)]
    have hjd2_new : jd s2 s.length =
        ⟨JointCore.make frag0 frag1 (some pi), none, some (s.length - 1)⟩ := by
      rw [hs2, jd_setJd_self _ _ _ (by rw [hlenMid]; omega), hjdMid_last]
    have hc2 : (jd s2 (s2.length - 1)).core.curve1 = frag1 := by
      rw [hlen2]
      simp only [Nat.add_sub_cancel]
      rw [hjd2_new]
      rfl
    have hrec := ih s2 frag1 (by omega) hc2
    have heq : buildLoopAux o dist s2 (s2.length - 1) frag1 rest =
        buildLoopAux o dist s2 s.length frag1 rest := by
      rw [hlen2, Nat.add_sub_cancel]
    rw [heq] at hrec
    rw [hstep, hlink]
    obtain ⟨ih1, ih2, ih3, ih4, ih5, ih6, ih7⟩ := hrec
    refine ⟨?_, ?_, ?_, ?_, ?_, ?_, ?_⟩
    · rw [ih1, hlen2]
      simp only [List.length_cons]
      omega
    · rw [ih2, hlen2]
      simp only [List.length_cons]
      omega
    · rw [ih3]
      rcases Nat.eq_zero_or_pos rest.length with hr0 | hrpos
      · have hnil : rest = [] := List.length_eq_zero.mp hr0
        subst hnil
        simp [hfrag1]
      · rw [if_neg (by omega), if_neg (show ¬((pi, pj) :: rest).length = 0 by simp)]
        simp only [List.length_cons]
        have h1 : rest.length + 1 - 1 = (rest.length - 1) + 1 := by omega
        rw [h1, List.getD_cons_succ]
    · intro k hk
      rw [ih4 k (by omega), hjd2_low k hk]
    · intro h0
      simp at h0
    · intro _
      rw [ih4 (s.length - 1) (by omega), hjd2_prev]
    · intro t ht
      match t with
      | 0 =>
        rcases Nat.eq_zero_or_pos rest.length with hr0 | hrpos
        · have hnil : rest = [] := List.length_eq_zero.mp hr0
          subst hnil
          rw [Nat.add_zero, ih5 rfl, hjd2_new]
          simp
        · have hmain := ih6 hrpos
          rw [hlen2] at hmain
          simp only [Nat.add_sub_cancel] at hmain
          rw [Nat.add_zero, hmain, hjd2_new]
          simp only [List.getD_cons_zero, List.length_cons]
          have hne1 : ¬ (0 + 1 = rest.length + 1) := by omega
          rw [if_neg hne1]
          simp
      | u + 1 =>
        have hu : u < rest.length := by
          simp only [List.length_cons] at ht
          omega
        have hmain := ih7 u hu
        rw [hlen2] at hmain
        have hidx : s.length + 1 + u = s.length + (u + 1) := by omega
        rw [hidx] at hmain
        rw [hmain]
        simp only [JointData.mk.injEq, List.length_cons, Nat.add_sub_cancel,
          List.getD_cons_succ]
        refine ⟨?_, ?_, ?_⟩
        · match u with
          | 0 => simp [hfrag1]
          | w + 1 =>
            rw [if_neg (by omega), if_neg (by omega)]
            simp only [Nat.add_sub_cancel, List.getD_cons_succ]
        · by_cases he : u + 1 = rest.length
          · rw [if_pos he, if_pos (by omega)]
          · rw [if_neg he, if_neg (by omega)]
        · trivial

theorem zip_drop_getD (pts : List PointQ) (t : Nat) (ht : t + 2 < pts.length) :
    ((pts.drop 1).zip (pts.drop 2)).getD t default =
      (pts.getD (t + 1) default, pts.getD (t + 2) default) := by
  have h1 : t < ((pts.drop 1).zip (pts.drop 2)).length := by
    rw [List.length_zip, List.length_drop, List.length_drop]
    omega
  have h4 : t + 1 < pts.length := by omega
  rw [List.getD_eq_getElem _ _ h1, List.getElem_zip, List.getElem_drop, List.getElem_drop,
    List.getD_eq_getElem _ _ (show t + 1 < pts.length by omega),
    List.getD_eq_getElem _ _ (show t + 2 < pts.length by omega)]
  have e1 : 1 + t = t + 1 := by omega
  have e2 : 2 + t = t + 2 := by omega
  congr 1 <;> simp [e1, e2]

theorem buildRawChain_points (o : GeomOracle) (pts : List PointQ) (dist : ℚ)
    (hN : 2 ≤ pts.length) :
    (buildRawChain o pts false dist).length = pts.length ∧
    jd (buildRawChain o pts false dist) 0 =
      ⟨JointCore.make none
          (createOffsetSegment o (pts.getD 0 default) (pts.getD 1 default) dist)
          (some (pts.getD 0 default)),
        some 1, none⟩ ∧
    (∀ k, 1 ≤ k → k + 1 < pts.length →
      jd (buildRawChain o pts false dist) k =
        ⟨JointCore.make
            (createOffsetSegment o (pts.getD (k - 1) default) (pts.getD k default) dist)
            (createOffsetSegment o (pts.getD k default) (pts.getD (k + 1) default) dist)
            (some (pts.getD k default)),
          some (k + 1), some (k - 1)⟩) ∧
    jd (buildRawChain o pts false dist) (pts.length - 1) =
      ⟨JointCore.make
          (createOffsetSegment o (pts.getD (pts.length - 2) default)
            (pts.getD (pts.length - 1) default) dist)
          none (some (pts.getD (pts.length - 1) default)),
        none, some (pts.length - 2)⟩ := by
  unfold buildRawChain
  simp only [Bool.false_eq_true, if_false]
  set p0 := pts.getD 0 default with hp0
  set p1 := pts.getD 1 default with hp1
  set frag0 := createOffsetSegment o p0 p1 dist with hfrag0
  set j0 : JointData := ⟨JointCore.make none frag0 (some p0), none, none⟩ with hj0
  set pairs := (pts.drop 1).zip (pts.drop 2) with hpairs
  have hplen : pairs.length = pts.length - 2 := by
    rw [hpairs, List.length_zip, List.length_drop, List.length_drop]
    omega
  have hpget : ∀ t, t + 2 < pts.length → pairs.getD t default =
      (pts.getD (t + 1) default, pts.getD (t + 2) default) := by
    intro t ht
    rw [hpairs]
    exact zip_drop_getD pts t ht
  have hb := buildLoopAux_points o dist pairs [j0] frag0 (by simp) (by rfl)
  have hlen1 : ([j0] : ChainState).length = 1 := by simp
  rw [hlen1] at hb
  simp only [Nat.sub_self] at hb
  obtain ⟨hb1, hb2, hb3, hb4, hb5, hb6, hb7⟩ := hb
  set r := buildLoopAux o dist [j0] 0 frag0 pairs with hr
  set s1 := r.1 ++ [(⟨JointCore.make r.2.2 none
    (some (pts.getD (pts.length - 1) default)), none, none⟩ : JointData)] with hs1
  have hr1len : r.1.length = pts.length - 1 := by
    rw [hb1]
    omega
  have hprev : r.2.1 = pts.length - 2 := by
    rw [hb2]
    omega
  have hs1len : s1.length = pts.length := by
    rw [hs1, List.length_append, hr1len]
    simp only [List.length_cons, List.length_nil]
    omega
  have hlastfrag : r.2.2 = createOffsetSegment o (pts.getD (pts.length - 2) default)
      (pts.getD (pts.length - 1) default) dist := by
    rw [hb3]
    rcases Nat.eq_zero_or_pos pairs.length with hz | hpos
    · rw [if_pos hz, hfrag0, hp0, hp1]
      have h2 : pts.length = 2 := by omega
      rw [h2]
    · rw [if_neg (by omega), hpget (pairs.length - 1) (by omega)]
      have e1 : pairs.length - 1 + 1 = pts.length - 2 := by omega
      have e2 : pairs.length - 1 + 2 = pts.length - 1 := by omega
      rw [e1, e2]
  have hshare : (jd s1 r.1.length).core.curve0 = (jd s1 r.2.1).core.curve1 := by
    rw [hs1, jd_concat_self]
    have hlt : r.2.1 < r.1.length := by omega
    rw [jd_append_lt _ _ _ hlt]
    rcases Nat.eq_zero_or_pos pairs.length with hz | hpos
    · have hr1 : r.1 = [j0] := hb5 hz
      have hz2 : r.2.1 = 0 := by omega
      rw [hz2, hr1]
      have : jd [j0] 0 = j0 := by rfl
      rw [this, hb3, if_pos hz]
      rfl
    · have := hb7 (pairs.length - 1) (by omega)
      have e0 : 1 + (pairs.length - 1) = r.2.1 := by omega
      rw [e0] at this
      rw [this, hb3, if_neg (by omega)]
      have e1 : pairs.length - 1 + 1 = pairs.length := by omega
      rw [if_pos e1]
      rfl
  have hne : r.2.1 ≠ r.1.length := by omega
  have hlink := linkJoints_share_eq s1 r.2.1 r.1.length hne hshare
  rw [hlink, hprev, hr1len]
  set sA := setJd s1 (pts.length - 2)
    { jd s1 (pts.length - 2) with nextJoint := some (pts.length - 1) } with hsA
  set sB := setJd sA (pts.length - 1)
    { jd sA (pts.length - 1) with previousJoint := some (pts.length - 2) } with hsB
  have hsAlen : sA.length = pts.length := by
    rw [hsA, length_setJd, hs1len]
  have hsBlen : sB.length = pts.length := by
    rw [hsB, length_setJd, hsAlen]
  refine ⟨hsBlen, ?_, ?_, ?_⟩
  · -- joint 0
    rcases Nat.eq_zero_or_pos pairs.length with hz | hpos
    · have h2 : pts.length = 2 := by omega
      have hr1 : r.1 = [j0] := hb5 hz
      rw [hsB, jd_setJd_ne _ _ _ _ (by omega), hsA, h2]
      simp only [Nat.sub_self]
      rw [jd_setJd_self _ _ _ (by rw [hs1len, h2]; omega)]
      rw [hs1, jd_append_lt _ _ _ (by rw [hr1len, h2]; omega), hr1]
      have hjj : jd [j0] 0 = j0 := by rfl
      rw [hjj, hj0]
    · rw [hsB, jd_setJd_ne _ _ _ _ (by omega), hsA, jd_setJd_ne _ _ _ _ (by omega),
        hs1, jd_append_lt _ _ _ (by omega)]
      have := hb6 hpos
      rw [this]
      have hjj : jd [j0] 0 = j0 := by rfl
      rw [hjj, hj0]
  · -- interior joints
    intro k hk1 hk2
    rcases Nat.lt_or_ge k (pts.length - 2) with hkmid | hkend
    · rw [hsB, jd_setJd_ne _ _ _ _ (by omega), hsA, jd_setJd_ne _ _ _ _ (by omega),
        hs1, jd_append_lt _ _ _ (by omega)]
      have hmain := hb7 (k - 1) (by omega)
      have e0 : 1 + (k - 1) = k := by omega
      rw [e0] at hmain
      rw [hmain]
      have hif : ¬ (k - 1 + 1 = pairs.length) := by omega
      rw [if_neg hif]
      have hcurve1 : pairs.getD (k - 1) default =
          (pts.getD k default, pts.getD (k + 1) default) := by
        rw [hpget (k - 1) (by omega)]
        have e5 : k - 1 + 1 = k := by omega
        have e6 : k - 1 + 2 = k + 1 := by omega
        rw [e5, e6]
      have hcurve0 : (if k - 1 = 0 then frag0
          else createOffsetSegment o (pairs.getD (k - 1 - 1) default).1
            (pairs.getD (k - 1 - 1) default).2 dist) =
          createOffsetSegment o (pts.getD (k - 1) default) (pts.getD k default) dist := by
        rcases Nat.eq_or_lt_of_le hk1 with hk1' | hk1'
        · rw [if_pos (by omega), hfrag0, hp0, hp1, ← hk1']
        · rw [if_neg (by omega), hpget (k - 1 - 1) (by omega)]
          have e3 : k - 1 - 1 + 1 = k - 1 := by omega
          have e4 : k - 1 - 1 + 2 = k := by omega
          rw [e3, e4]
      rw [hcurve0, hcurve1]
    · -- k = pts.length - 2 with k >= 1
      have hkeq : k = pts.length - 2 := by omega
      have hpos : 0 < pairs.length := by omega
      subst hkeq
      rw [hsB, jd_setJd_ne _ _ _ _ (by omega),
        hsA, jd_setJd_self _ _ _ (by rw [hs1len]; omega),
        hs1, jd_append_lt _ _ _ (by omega)]
      have hmain := hb7 (pairs.length - 1) (by omega)
      have e0 : 1 + (pairs.length - 1) = pts.length - 2 := by omega
      rw [e0] at hmain
      rw [hmain]
      have hcurve1 : pairs.getD (pairs.length - 1) default =
          (pts.getD (pts.length - 2) default, pts.getD (pts.length - 1) default) := by
        rw [hpget (pairs.length - 1) (by omega)]
        have e5 : pairs.length - 1 + 1 = pts.length - 2 := by omega
        have e6 : pairs.length - 1 + 2 = pts.length - 1 := by omega
        rw [e5, e6]
      have hcurve0 : (if pairs.length - 1 = 0 then frag0
          else createOffsetSegment o (pairs.getD (pairs.length - 1 - 1) default).1
            (pairs.getD (pairs.length - 1 - 1) default).2 dist) =
          createOffsetSegment o (pts.getD (pts.length - 2 - 1) default)
            (pts.getD (pts.length - 2) default) dist := by
        rcases Nat.eq_zero_or_pos (pairs.length - 1) with hz1 | hpos1
        · rw [if_pos hz1, hfrag0, hp0, hp1]
          have h0 : pts.length - 2 - 1 = 0 := by omega
          have h1 : pts.length - 2 = 1 := by omega
          rw [h0, h1]
        · rw [if_neg (by omega), hpget (pairs.length - 1 - 1) (by omega)]
          have e3 : pairs.length - 1 - 1 + 1 = pts.length - 2 - 1 := by omega
          have e4 : pairs.length - 1 - 1 + 2 = pts.length - 2 := by omega
          rw [e3, e4]
      have e7 : pts.length - 2 + 1 = pts.length - 1 := by omega
      rw [hcurve0, hcurve1, e7]
  · -- last joint
    rw [hsB, jd_setJd_self _ _ _ (by rw [hsAlen]; omega),
      hsA, jd_setJd_ne _ _ _ _ (by omega), hs1, ← hr1len, jd_concat_self, hlastfrag,
      hr1len]

theorem annotateVisit_linear (o : GeomOracle) (opts : JointOptions) :
    ∀ (fuel i : Nat) (s : ChainState),
      i < s.length →
      s.length - i ≤ fuel →
      (∀ k, k + 1 < s.length → (jd s k).nextJoint = some (k + 1)) →
      (jd s (s.length - 1)).nextJoint = none →
      (annotateVisit o opts 0 s (some i) fuel).length = s.length ∧
      (∀ k, jd (annotateVisit o opts 0 s (some i) fuel) k =
        if i ≤ k ∧ k < s.length then
          { jd s k with core := annotateJointMode o opts (jd s k).core }
        else jd s k) := by
  intro fuel
  induction fuel with
  | zero =>
    intro i s hi hfuel _ _
    omega
  | succ f ih =>
    intro i s hi hfuel hlinks hlast
    have hnext1 : (jd (annotateAt o opts s i) i).nextJoint = (jd s i).nextJoint :=
      (modifyCore_links s i i (annotateJointMode o opts)).1
    have hlen1 : (annotateAt o opts s i).length = s.length := length_modifyCore _ _ _
    have hjd1 : ∀ k, jd (annotateAt o opts s i) k =
        if k = i then { jd s i with core := annotateJointMode o opts (jd s i).core }
        else jd s k := by
      intro k
      by_cases hk : k = i
      · subst hk
        rw [if_pos rfl]
        exact jd_modifyCore_self _ _ _ hi
      · rw [if_neg hk]
        exact jd_modifyCore_ne s i k (annotateJointMode o opts) (fun h => hk h.symm)
    rcases Nat.lt_or_ge (i + 1) s.length with hilt | hige
    · have hnx : (jd (annotateAt o opts s i) i).nextJoint = some (i + 1) := by
        rw [hnext1]
        exact hlinks i hilt
      have hstep : annotateVisit o opts 0 s (some i) (f + 1) =
          annotateVisit o opts 0 (annotateAt o opts s i) (some (i + 1)) f := by
        simp only [annotateVisit, hnx]
        rw [if_neg (by simp)]
      rw [hstep]
      have hlinks1 : ∀ k, k + 1 < (annotateAt o opts s i).length →
          (jd (annotateAt o opts s i) k).nextJoint = some (k + 1) := by
        intro k hk
        rw [hlen1] at hk
        exact ((modifyCore_links s i k (annotateJointMode o opts)).1).trans (hlinks k hk)
      have hlast1 : (jd (annotateAt o opts s i)
          ((annotateAt o opts s i).length - 1)).nextJoint = none := by
        rw [hlen1]
        exact ((modifyCore_links s i (s.length - 1)
          (annotateJointMode o opts)).1).trans hlast
      have hrec := ih (i + 1) (annotateAt o opts s i) (by omega)
        (by rw [hlen1]; omega) hlinks1 hlast1
      rw [hlen1] at hrec
      refine ⟨hrec.1, ?_⟩
      intro k
      rw [hrec.2 k]
      by_cases hk2 : i + 1 ≤ k ∧ k < s.length
      · rw [if_pos hk2, hjd1 k, if_neg (by omega),
          if_pos (show i ≤ k ∧ k < s.length from ⟨by omega, hk2.2⟩)]
      · rw [if_neg hk2, hjd1 k]
        by_cases hk3 : k = i
        · rw [if_pos hk3, hk3, if_pos (show i ≤ i ∧ i < s.length from ⟨le_refl i, hi⟩)]
        · rw [if_neg hk3, if_neg (by omega)]
    · have hieq : i = s.length - 1 := by omega
      have hnx : (jd (annotateAt o opts s i) i).nextJoint = none := by
        rw [hnext1, hieq]
        exact hlast
      have hstep : annotateVisit o opts 0 s (some i) (f + 1) =
          annotateVisit o opts 0 (annotateAt o opts s i) none f := by
        simp only [annotateVisit, hnx]
        rw [if_neg (by simp)]
      have hnone : annotateVisit o opts 0 (annotateAt o opts s i) none f =
          annotateAt o opts s i := by
        cases f <;> rfl
      rw [hstep, hnone]
      refine ⟨hlen1, ?_⟩
      intro k
      rw [hjd1 k]
      by_cases hk2 : k = i
      · rw [if_pos hk2, hk2, if_pos (show i ≤ i ∧ i < s.length from ⟨le_refl i, hi⟩)]
      · rw [if_neg hk2, if_neg (by omega)]

theorem removeDegenAux_noop (o : GeomOracle) (opts : JointOptions) (s : ChainState)
    (hfr : ∀ a b, (jd s a).nextJoint = some b →
      (jd s a).core.fraction1 = some 0 ∧ (jd s b).core.fraction0 = some 1) :
    ∀ (fuel : Nat) (oi : Option Nat) (start numRemoved : Nat),
      removeDegenAux o opts s start oi numRemoved fuel = ⟨s, start, numRemoved⟩ := by
  intro fuel
  induction fuel with
  | zero =>
    intro oi start n
    cases oi <;> rfl
  | succ f ih =>
    intro oi start n
    cases oi with
    | none => rfl
    | some a =>
      have he1 : (decide ((1 : ℚ) ≤ (0 : ℚ))) = false := by with_unfolding_all rfl
      have he2 : (decide ((1 : ℚ) < (0 : ℚ))) = false := by with_unfolding_all rfl
      rcases hnext : (jd s a).nextJoint with _ | b
      · simp only [removeDegenAux, hnext]
        rw [if_neg (by simp)]
        exact ih none start n
      · obtain ⟨hf1, hf0⟩ := hfr a b hnext
        rcases hprev : (jd s a).previousJoint with _ | pA
        · simp only [removeDegenAux, hnext, hprev]
          by_cases hbs : (some b : Option Nat) = some start
          · rw [if_pos hbs]
          · rw [if_neg hbs]
            exact ih (some b) start n
        · rcases hbn : (jd s b).nextJoint with _ | cIdx
          · simp only [removeDegenAux, hnext, hprev, hbn]
            by_cases hbs : (some b : Option Nat) = some start
            · rw [if_pos hbs]
            · rw [if_neg hbs]
              exact ih (some b) start n
          · simp only [removeDegenAux, hnext, hprev, hbn, hf1, hf0, he1, he2,
              Bool.false_or, Bool.or_false, Bool.false_and, Bool.false_eq_true, if_false]
            by_cases hbs : (some b : Option Nat) = some start
            · rw [if_pos hbs]
            · rw [if_neg hbs]
              exact ih (some b) start n

theorem collectVisit_linear (o : GeomOracle) (s : ChainState) (maxTest : Int)
    (hlinks : ∀ k, k + 1 < s.length → (jd s k).nextJoint = some (k + 1))
    (hlast : (jd s (s.length - 1)).nextJoint = none) :
    ∀ (fuel i : Nat) (numOut : Int) (dest : List PointQ),
      i < s.length →
      s.length - i ≤ fuel →
      numOut + ((s.length : Int) - (i : Int)) < maxTest →
      collectVisit o s 0 maxTest (some i) numOut dest fuel =
        collectRun o s i (s.length - i) dest := by
  intro fuel
  induction fuel with
  | zero =>
    intro i numOut dest hi hfuel _
    omega
  | succ f ih =>
    intro i numOut dest hi hfuel hcnt
    have hno : numOut < maxTest := by omega
    rcases Nat.lt_or_ge (i + 1) s.length with hilt | hige
    · have hnx : (jd s i).nextJoint = some (i + 1) := hlinks i hilt
      have hstep : collectVisit o s 0 maxTest (some i) numOut dest (f + 1) =
          collectVisit o s 0 maxTest (some (i + 1)) (numOut + 1)
            (collectAtJoint o s i dest) f := by
        simp only [collectVisit, hnx]
        rw [if_pos hno, if_neg (by simp)]
      rw [hstep, ih (i + 1) (numOut + 1) (collectAtJoint o s i dest) hilt (by omega)
        (by push_cast; omega)]
      have hc : s.length - i = (s.length - (i + 1)) + 1 := by omega
      rw [hc]
      simp only [collectRun]
    · have hieq : i = s.length - 1 := by omega
      have hnx : (jd s i).nextJoint = none := by
        rw [hieq]
        exact hlast
      have hstep : collectVisit o s 0 maxTest (some i) numOut dest (f + 1) =
          collectVisit o s 0 maxTest none (numOut + 1)
            (collectAtJoint o s i dest) f := by
        simp only [collectVisit, hnx]
        rw [if_pos hno, if_neg (by simp)]
      have hnone : collectVisit o s 0 maxTest none (numOut + 1)
          (collectAtJoint o s i dest) f = collectAtJoint o s i dest := by
        cases f <;> rfl
      have hc : s.length - i = 1 := by omega
      rw [hstep, hnone, hc]
      simp only [collectRun]

theorem take_succ_getD (pts : List PointQ) (k : Nat) (h : k < pts.length) :
    pts.take (k + 1) = pts.take k ++ [pts.getD k default] := by
  rw [List.take_succ, List.getD_eq_getElem _ _ h]
  simp [List.getElem?_eq_getElem h]

theorem getLast?_take_getD (pts : List PointQ) (k : Nat) (h : k < pts.length) :
    (pts.take (k + 1)).getLast? = some (pts.getD k default) := by
  rw [take_succ_getD pts k h]
  simp

theorem appendStrokePoint_dup (dest : List PointQ) (p q : PointQ)
    (hl : dest.getLast? = some q) (hp : isAlmostEqualPt q p = true) :
    appendStrokePoint dest p = dest := by
  simp only [appendStrokePoint, hl, hp, if_true]

theorem appendStrokePoint_new (dest : List PointQ) (p q : PointQ)
    (hl : dest.getLast? = some q) (hp : isAlmostEqualPt q p = false) :
    appendStrokePoint dest p = dest ++ [p] := by
  simp only [appendStrokePoint, hl, hp, Bool.false_eq_true, if_false]

theorem collectAtJoint_start (o : GeomOracle) (s : ChainState) (pts : List PointQ)
    (hN : 2 ≤ pts.length)
    (h0 : jd s 0 = ⟨⟨JointModeQ.cap, none, none,
      some (offSeg (pts.getD 0 default) (pts.getD 1 default)), some 0, none,
      some (pts.getD 0 default)⟩, some 1, none⟩)
    (hf1 : (jd s 1).core.fraction0 = some 1)
    (hsep0 : isAlmostEqualPt (pts.getD 0 default) (pts.getD 1 default) = false) :
    collectAtJoint o s 0 [] = pts.take 2 := by
  have htake : pts.take 2 = [pts.getD 0 default, pts.getD 1 default] := by
    rw [take_succ_getD pts 1 (by omega), take_succ_getD pts 0 (by omega)]
    simp
  rw [htake]
  simp only [collectAtJoint, h0, addStrokesJC, nextJointFraction0, hf1, offSeg,
    Option.isNone_none, emitStrokesSeg, SegQ.startPoint, SegQ.endPoint, addPoint]
  simp only [and_self, if_true]
  simp only [appendStrokePoint, List.getLast?_nil, List.getLast?_singleton, hsep0,
    Bool.false_eq_true, if_false, if_true]
  rfl

theorem collectAtJoint_mid (o : GeomOracle) (s : ChainState) (pts : List PointQ)
    (k : Nat) (hk1 : 1 ≤ k) (hk2 : k + 1 < pts.length)
    (hmid : jd s k = ⟨⟨JointModeQ.trim,
      some (offSeg (pts.getD (k - 1) default) (pts.getD k default)), some 1,
      some (offSeg (pts.getD k default) (pts.getD (k + 1) default)), some 0, none,
      some (pts.getD k default)⟩, some (k + 1), some (k - 1)⟩)
    (hfnext : (jd s (k + 1)).core.fraction0 = some 1)
    (hsepk : isAlmostEqualPt (pts.getD k default) (pts.getD (k + 1) default) = false) :
    collectAtJoint o s k (pts.take (k + 1)) = pts.take (k + 2) := by
  have hlastq : (pts.take (k + 1)).getLast? = some (pts.getD k default) :=
    getLast?_take_getD pts k (by omega)
  have htake : pts.take (k + 2) = pts.take (k + 1) ++ [pts.getD (k + 1) default] :=
    take_succ_getD pts (k + 1) hk2
  rw [htake]
  simp only [collectAtJoint, hmid, addStrokesJC, nextJointFraction0, hfnext, offSeg,
    Option.isNone_none, emitStrokesSeg, SegQ.startPoint, SegQ.endPoint, addPoint,
    hlastq, isAlmostEqualPt_self, if_true]
  simp only [and_self, if_true]
  rw [if_pos (isAlmostEqualPt_self _)]
  rw [appendStrokePoint_dup _ _ _ hlastq (isAlmostEqualPt_self _),
    appendStrokePoint_new _ _ _ hlastq hsepk]

theorem collectAtJoint_end (o : GeomOracle) (s : ChainState) (pts : List PointQ)
    (hlast : jd s (pts.length - 1) = ⟨⟨JointModeQ.cap,
      some (offSeg (pts.getD (pts.length - 2) default) (pts.getD (pts.length - 1) default)),
      some 1, none, none, none, some (pts.getD (pts.length - 1) default)⟩,
      none, some (pts.length - 2)⟩) (dest : List PointQ) :
    collectAtJoint o s (pts.length - 1) dest = dest := by
  simp only [collectAtJoint, hlast, addStrokesJC]

theorem collectRun_arena (o : GeomOracle) (s : ChainState) (pts : List PointQ)
    (hN : 2 ≤ pts.length)
    (hsep : ∀ i, i + 1 < pts.length →
      isAlmostEqualPt (pts.getD i default) (pts.getD (i + 1) default) = false)
    (h0 : jd s 0 = ⟨⟨JointModeQ.cap, none, none,
      some (offSeg (pts.getD 0 default) (pts.getD 1 default)), some 0, none,
      some (pts.getD 0 default)⟩, some 1, none⟩)
    (hmid : ∀ k, 1 ≤ k → k + 1 < pts.length → jd s k = ⟨⟨JointModeQ.trim,
      some (offSeg (pts.getD (k - 1) default) (pts.getD k default)), some 1,
      some (offSeg (pts.getD k default) (pts.getD (k + 1) default)), some 0, none,
      some (pts.getD k default)⟩, some (k + 1), some (k - 1)⟩)
    (hlast : jd s (pts.length - 1) = ⟨⟨JointModeQ.cap,
      some (offSeg (pts.getD (pts.length - 2) default) (pts.getD (pts.length - 1) default)),
      some 1, none, none, none, some (pts.getD (pts.length - 1) default)⟩,
      none, some (pts.length - 2)⟩) :
    collectRun o s 0 pts.length [] = pts := by
  have hf1 : (jd s 1).core.fraction0 = some 1 := by
    rcases Nat.lt_or_ge 2 pts.length with h | h
    · rw [hmid 1 (le_refl 1) h]
    · have h1 : pts.length - 1 = 1 := by omega
      rw [← h1, hlast]
  have main : ∀ c k, 1 ≤ k → k + c = pts.length →
      collectRun o s k c (pts.take (k + 1)) = pts := by
    intro c
    induction c with
    | zero =>
      intro k hk1 hkc
      have htake : pts.take (k + 1) = pts := List.take_of_length_le (by omega)
      simp only [collectRun]
      rw [htake]
    | succ c ih =>
      intro k hk1 hkc
      simp only [collectRun]
      rcases Nat.lt_or_ge (k + 1) pts.length with hk2 | hk2
      · have hfnext : (jd s (k + 1)).core.fraction0 = some 1 := by
          rcases Nat.lt_or_ge (k + 2) pts.length with hh | hh
          · rw [hmid (k + 1) (by omega) hh]
          · have h1 : pts.length - 1 = k + 1 := by omega
            rw [← h1, hlast]
        rw [collectAtJoint_mid o s pts k hk1 hk2 (hmid k hk1 hk2) hfnext (hsep k hk2)]
        exact ih (k + 1) (by omega) (by omega)
      · have htake : pts.take (k + 1) = pts := List.take_of_length_le (by omega)
        have hkeq : k = pts.length - 1 := by omega
        have hc0 : c = 0 := by omega
        subst hc0
        simp only [collectRun]
        rw [htake, hkeq, collectAtJoint_end o s pts hlast]
  have hc : pts.length = (pts.length - 1) + 1 := by omega
  rw [hc]
  simp only [collectRun]
  rw [collectAtJoint_start o s pts hN h0 hf1 (hsep 0 (by omega))]
  have h2 : pts.take 2 = pts.take (1 + 1) := rfl
  rw [h2]
  exact main (pts.length - 1) 1 (le_refl 1) (by omega)

theorem jd_out (s : ChainState) (a : Nat) (h : s.length ≤ a) : jd s a = default := by
  simp [jd, List.getD, List.getElem?_eq_none h]

theorem annotateJointMode_start_zero (o : GeomOracle) (opts : JointOptions)
    (f0 : SegQ) (p : PointQ) :
    annotateJointMode o opts (JointCore.make none (some f0) (some p)) =
      ⟨JointModeQ.cap, none, none, some f0, some 0, none, some p⟩ := rfl

theorem annotateJointMode_end_zero (o : GeomOracle) (opts : JointOptions)
    (f0 : SegQ) (p : PointQ) :
    annotateJointMode o opts (JointCore.make (some f0) none (some p)) =
      ⟨JointModeQ.cap, some f0, some 1, none, none, none, some p⟩ := rfl

theorem annotateJointMode_mid_zero (o : GeomOracle) (opts : JointOptions)
    (a b c : PointQ) (p : PointQ) :
    annotateJointMode o opts
        (JointCore.make (some (offSeg a b)) (some (offSeg b c)) (some p)) =
      ⟨JointModeQ.trim, some (offSeg a b), some 1, some (offSeg b c), some 0, none,
        some p⟩ := by
  simp only [annotateJointMode, JointCore.make, offSeg, SegQ.endPoint, SegQ.startPoint,
    isAlmostEqualPt_self, if_true]

theorem annotatedArena_points (o : GeomOracle) (opts : JointOptions) (pts : List PointQ)
    (hN : 2 ≤ pts.length)
    (hsep : ∀ i, i + 1 < pts.length →
      isAlmostEqualPt (pts.getD i default) (pts.getD (i + 1) default) = false) :
    (annotateChain o opts (buildRawChain o pts false 0) 0 pts.length).length =
        pts.length ∧
    jd (annotateChain o opts (buildRawChain o pts false 0) 0 pts.length) 0 =
      ⟨⟨JointModeQ.cap, none, none,
        some (offSeg (pts.getD 0 default) (pts.getD 1 default)), some 0, none,
        some (pts.getD 0 default)⟩, some 1, none⟩ ∧
    (∀ k, 1 ≤ k → k + 1 < pts.length →
      jd (annotateChain o opts (buildRawChain o pts false 0) 0 pts.length) k =
        ⟨⟨JointModeQ.trim,
          some (offSeg (pts.getD (k - 1) default) (pts.getD k default)), some 1,
          some (offSeg (pts.getD k default) (pts.getD (k + 1) default)), some 0, none,
          some (pts.getD k default)⟩, some (k + 1), some (k - 1)⟩) ∧
    jd (annotateChain o opts (buildRawChain o pts false 0) 0 pts.length)
        (pts.length - 1) =
      ⟨⟨JointModeQ.cap,
        some (offSeg (pts.getD (pts.length - 2) default)
          (pts.getD (pts.length - 1) default)),
        some 1, none, none, none, some (pts.getD (pts.length - 1) default)⟩,
        none, some (pts.length - 2)⟩ ∧
    (∀ a, pts.length ≤ a →
      jd (annotateChain o opts (buildRawChain o pts false 0) 0 pts.length) a =
        default) := by
  obtain ⟨hRlen, hR0, hRmid, hRlast⟩ := buildRawChain_points o pts 0 hN
  rw [createOffsetSegment_zero o _ _ (by simpa using hsep 0 (by omega))] at hR0
  rw [createOffsetSegment_zero o _ _ (by
    have := hsep (pts.length - 2) (by omega)
    have e : pts.length - 2 + 1 = pts.length - 1 := by omega
    rwa [e] at this)] at hRlast
  have hRmid2 : ∀ k, 1 ≤ k → k + 1 < pts.length →
      jd (buildRawChain o pts false 0) k =
        ⟨JointCore.make
            (some (offSeg (pts.getD (k - 1) default) (pts.getD k default)))
            (some (offSeg (pts.getD k default) (pts.getD (k + 1) default)))
            (some (pts.getD k default)),
          some (k + 1), some (k - 1)⟩ := by
    intro k h1 h2
    rw [hRmid k h1 h2,
      createOffsetSegment_zero o _ _ (hsep k (by omega)),
      createOffsetSegment_zero o _ _ (by
        have := hsep (k - 1) (by omega)
        have e : k - 1 + 1 = k := by omega
        rwa [e] at this)]
  have hlinks : ∀ k, k + 1 < (buildRawChain o pts false 0).length →
      (jd (buildRawChain o pts false 0) k).nextJoint = some (k + 1) := by
    intro k hk
    rw [hRlen] at hk
    rcases Nat.eq_zero_or_pos k with rfl | h1
    · rw [hR0]
    · rw [hRmid k h1 hk]
  have hlastlink : (jd (buildRawChain o pts false 0)
      ((buildRawChain o pts false 0).length - 1)).nextJoint = none := by
    rw [hRlen, hRlast]
  have hA := annotateVisit_linear o opts (pts.length + 5) 0 (buildRawChain o pts false 0)
    (by rw [hRlen]; omega) (by rw [hRlen]; omega) hlinks hlastlink
  have hchain : annotateChain o opts (buildRawChain o pts false 0) 0 pts.length =
      annotateVisit o opts 0 (buildRawChain o pts false 0) (some 0)
        (pts.length + 5) := rfl
  rw [hRlen] at hA
  refine ⟨by rw [hchain, hA.1], ?_, ?_, ?_, ?_⟩
  · rw [hchain, hA.2 0, if_pos ⟨le_refl 0, by omega⟩, hR0,
      annotateJointMode_start_zero]
  · intro k h1 h2
    rw [hchain, hA.2 k, if_pos ⟨Nat.zero_le k, by omega⟩, hRmid2 k h1 h2,
      annotateJointMode_mid_zero]
  · rw [hchain, hA.2 (pts.length - 1),
      if_pos ⟨Nat.zero_le _, by omega⟩, hRlast, annotateJointMode_end_zero]
  · intro a ha
    rw [hchain, hA.2 a, if_neg (by omega), jd_out _ _ (by rw [hRlen]; omega)]

theorem emittedOffsetPoints_zero (o : GeomOracle) (opts : JointOptions)
    (pts : List PointQ) (hd : opts.leftOffsetDistance = 0) (hN : 2 ≤ pts.length)
    (hsep : ∀ i, i + 1 < pts.length →
      isAlmostEqualPt (pts.getD i default) (pts.getD (i + 1) default) = false) :
    emittedOffsetPoints o pts false opts = pts := by
  obtain ⟨hAlen, hA0, hAmid, hAlast, hAout⟩ := annotatedArena_points o opts pts hN hsep
  set sA := annotateChain o opts (buildRawChain o pts false 0) 0 pts.length with hsA
  have hlinksA : ∀ k, k + 1 < sA.length → (jd sA k).nextJoint = some (k + 1) := by
    intro k hk
    rw [hAlen] at hk
    rcases Nat.eq_zero_or_pos k with rfl | h1
    · rw [hA0]
    · rw [hAmid k h1 hk]
  have hlastA : (jd sA (sA.length - 1)).nextJoint = none := by
    rw [hAlen, hAlast]
  have hfrac0 : ∀ b, 1 ≤ b → b < pts.length → (jd sA b).core.fraction0 = some 1 := by
    intro b h1 h2
    rcases Nat.lt_or_ge (b + 1) pts.length with h3 | h3
    · rw [hAmid b h1 h3]
    · have he : b = pts.length - 1 := by omega
      rw [he, hAlast]
  have hfr : ∀ a b, (jd sA a).nextJoint = some b →
      (jd sA a).core.fraction1 = some 0 ∧ (jd sA b).core.fraction0 = some 1 := by
    intro a b hab
    rcases Nat.lt_or_ge a pts.length with ha | ha
    · rcases Nat.eq_zero_or_pos a with rfl | ha1
      · rw [hA0] at hab
        have hb : b = 1 := (Option.some.inj hab).symm
        refine ⟨by rw [hA0], ?_⟩
        rw [hb]
        exact hfrac0 1 (le_refl 1) (by omega)
      · rcases Nat.lt_or_ge (a + 1) pts.length with ha2 | ha2
        · rw [hAmid a ha1 ha2] at hab
          have hb : b = a + 1 := (Option.some.inj hab).symm
          refine ⟨by rw [hAmid a ha1 ha2], ?_⟩
          rw [hb]
          exact hfrac0 (a + 1) (by omega) (by omega)
        · have he : a = pts.length - 1 := by omega
          rw [he, hAlast] at hab
          cases hab
    · rw [hAout a ha] at hab
      have hdn : (default : JointData).nextJoint = none := rfl
      rw [hdn] at hab
      cases hab
  have hrd : removeDegeneratePrimitives o opts sA 0 pts.length = ⟨sA, 0, 0⟩ :=
    removeDegenAux_noop o opts sA hfr pts.length (some 0) 0 0
  have hrp : removalPasses o opts sA 0 pts.length = (sA, 0, [0]) := by
    show removalPassesAux o opts pts.length sA 0 (4 + 1) = (sA, 0, [0])
    simp only [removalPassesAux, hrd]
    simp
  have hcnt : (-2 * (pts.length : Int)) + ((sA.length : Int) - ((0 : Nat) : Int)) <
      (pts.length : Int) := by
    rw [hAlen]
    push_cast
    omega
  have hcol : collectStrokesFromChain o sA 0 pts.length = pts := by
    show collectVisit o sA 0 ((pts.length : Nat) : Int) (some 0)
      (-2 * ((pts.length : Nat) : Int)) [] (pts.length + 5) = pts
    rw [collectVisit_linear o sA ((pts.length : Nat) : Int) hlinksA hlastA
      (pts.length + 5) 0 (-2 * ((pts.length : Nat) : Int)) []
      (by rw [hAlen]; omega) (by rw [hAlen]; omega) hcnt]
    rw [Nat.sub_zero, hAlen]
    exact collectRun_arena o sA pts hN hsep hA0 hAmid hAlast
  simp only [emittedOffsetPoints, Bool.false_and, hd]
  rw [← hsA, hrp]
  exact hcol

theorem isAlmostEqualPt_symm (p q : PointQ) : isAlmostEqualPt p q = isAlmostEqualPt q p := by
  simp [isAlmostEqualPt, isSameCoordinate, abs_sub_comm]

theorem annotateJointMode_join_almost (o : GeomOracle) (opts : JointOptions)
    (a b c d p : PointQ) (h : isAlmostEqualPt b c = true) :
    annotateJointMode o opts
        (JointCore.make (some (offSeg a b)) (some (offSeg c d)) (some p)) =
      ⟨JointModeQ.trim, some (offSeg a b), some 1, some (offSeg c d), some 0, none,
        some p⟩ := by
  simp only [annotateJointMode, JointCore.make, offSeg, SegQ.endPoint, SegQ.startPoint,
    h, if_true]

theorem collectAtJoint_whole (o : GeomOracle) (s : ChainState) (i : Nat)
    (a b : PointQ) (dest : List PointQ)
    (hjc : (jd s i).core.jointCurve = none)
    (hc1 : (jd s i).core.curve1 = some (offSeg a b))
    (hf1 : (jd s i).core.fraction1 = some 0)
    (hfB : nextJointFraction0 s i 1 = 1) :
    collectAtJoint o s i dest =
      appendStrokePoint (appendStrokePoint (addPoint dest a) a) b := by
  simp only [collectAtJoint, hjc, hc1, hf1, addStrokesJC, hfB, offSeg,
    Option.isNone_none, emitStrokesSeg, SegQ.startPoint, SegQ.endPoint, if_true]
  simp only [and_self, if_true]

theorem linkJoints_back_jd (s : ChainState) (i0 : Nat)
    (h0pos : 0 < s.length) (hi0 : i0 < s.length) (hne : i0 ≠ 0)
    (h10 : (jd s 0).core.curve0 = none) :
    (linkJoints s i0 (some 0)).length = s.length ∧
    jd (linkJoints s i0 (some 0)) 0 =
      ⟨⟨(jd s 0).core.flexure, (jd s i0).core.curve1, (jd s 0).core.fraction0,
        (jd s 0).core.curve1, (jd s 0).core.fraction1, (jd s 0).core.jointCurve,
        (jd s 0).core.swingPoint⟩, (jd s 0).nextJoint, some i0⟩ ∧
    jd (linkJoints s i0 (some 0)) i0 = { jd s i0 with nextJoint := some 0 } ∧
    (∀ k, k ≠ 0 → k ≠ i0 → jd (linkJoints s i0 (some 0)) k = jd s k) := by
  have hlen : (linkJoints s i0 (some 0)).length = s.length := length_linkJoints s i0 _
  set s1 := setJd s i0 { jd s i0 with nextJoint := some 0 } with hs1
  set s2 := setJd s1 0 { jd s1 0 with previousJoint := some i0 } with hs2
  have hjd1_0 : jd s1 0 = jd s 0 := by
    rw [hs1, jd_setJd_ne _ _ _ _ hne]
  have hjd1_i0 : jd s1 i0 = { jd s i0 with nextJoint := some 0 } := by
    rw [hs1, jd_setJd_self _ _ _ hi0]
  have hjd2_0 : jd s2 0 = { jd s 0 with previousJoint := some i0 } := by
    rw [hs2, jd_setJd_self _ _ _ (by rw [hs1, length_setJd]; omega), hjd1_0]
  have hjd2_i0 : jd s2 i0 = { jd s i0 with nextJoint := some 0 } := by
    rw [hs2, jd_setJd_ne _ _ _ _ (Ne.symm hne), hjd1_i0]
  have hjd2_k : ∀ k, k ≠ 0 → k ≠ i0 → jd s2 k = jd s k := by
    intro k hk0 hki
    rw [hs2, jd_setJd_ne _ _ _ _ (Ne.symm hk0), hs1, jd_setJd_ne _ _ _ _ (Ne.symm hki)]
  have hred : linkJoints s i0 (some 0) =
      if ((jd s2 i0).core.curve1.isSome ∧ (jd s2 0).core.curve0.isNone) then
        modifyCore s2 0 (fun c => { c with curve0 := (jd s2 i0).core.curve1 })
      else if ((jd s2 i0).core.curve1.isNone ∧ (jd s2 0).core.curve0.isSome) then
        modifyCore s2 i0 (fun c => { c with curve1 := (jd s2 0).core.curve0 })
      else s2 := by
    rw [linkJoints]
  rcases hc01 : (jd s i0).core.curve1 with _ | c
  · have hcond1 : ¬((jd s2 i0).core.curve1.isSome ∧ (jd s2 0).core.curve0.isNone) := by
      rw [hjd2_i0]
      simp [hc01]
    have hcond2 : ¬((jd s2 i0).core.curve1.isNone ∧ (jd s2 0).core.curve0.isSome) := by
      rw [hjd2_0]
      simp [h10]
    rw [hred, if_neg hcond1, if_neg hcond2]
    refine ⟨by rw [hs2, length_setJd, hs1, length_setJd], ?_, hjd2_i0, hjd2_k⟩
    rw [hjd2_0]
    rcases hE : jd s 0 with ⟨⟨fl, cv0, fr0, cv1, fr1, jc, sw⟩, nx0, pv0⟩
    rw [hE] at h10
    simp only at h10
    subst h10
    rfl
  · have hcond1 : (jd s2 i0).core.curve1.isSome ∧ (jd s2 0).core.curve0.isNone := by
      rw [hjd2_i0, hjd2_0]
      simp [hc01, h10]
    rw [hred, if_pos hcond1]
    have h0lt2 : (0 : Nat) < s2.length := by
      rw [hs2, length_setJd, hs1, length_setJd]
      omega
    refine ⟨?_, ?_, ?_, ?_⟩
    · rw [length_modifyCore, hs2, length_setJd, hs1, length_setJd]
    · rw [jd_modifyCore_self _ _ _ h0lt2, hjd2_0, hjd2_i0]
      rcases hE : jd s 0 with ⟨⟨fl, cv0, fr0, cv1, fr1, jc, sw⟩, nx0, pv0⟩
      rcases hF : jd s i0 with ⟨⟨fl2, cv02, fr02, cv12, fr12, jc2, sw2⟩, nx2, pv2⟩
      rw [hF] at hc01
      simp only at hc01
      simp [hc01]
    · rw [jd_modifyCore_ne _ _ _ _ (Ne.symm hne), hjd2_i0]
    · intro k hk0 hki
      rw [jd_modifyCore_ne _ _ _ _ (Ne.symm hk0), hjd2_k k hk0 hki]

set_option maxHeartbeats 1000000 in
theorem buildRawChain_points_closed (o : GeomOracle) (pts : List PointQ) (dist : ℚ)
    (hN : 3 ≤ pts.length) :
    (buildRawChain o pts true dist).length = pts.length - 1 ∧
    jd (buildRawChain o pts true dist) 0 =
      ⟨JointCore.make
          (createOffsetSegment o (pts.getD (pts.length - 2) default)
            (pts.getD (pts.length - 1) default) dist)
          (createOffsetSegment o (pts.getD 0 default) (pts.getD 1 default) dist)
          (some (pts.getD 0 default)),
        some 1, some (pts.length - 2)⟩ ∧
    (∀ k, 1 ≤ k → k + 2 < pts.length →
      jd (buildRawChain o pts true dist) k =
        ⟨JointCore.make
            (createOffsetSegment o (pts.getD (k - 1) default) (pts.getD k default) dist)
            (createOffsetSegment o (pts.getD k default) (pts.getD (k + 1) default) dist)
            (some (pts.getD k default)),
          some (k + 1), some (k - 1)⟩) ∧
    jd (buildRawChain o pts true dist) (pts.length - 2) =
      ⟨JointCore.make
          (createOffsetSegment o (pts.getD (pts.length - 3) default)
            (pts.getD (pts.length - 2) default) dist)
          (createOffsetSegment o (pts.getD (pts.length - 2) default)
            (pts.getD (pts.length - 1) default) dist)
          (some (pts.getD (pts.length - 2) default)),
        some 0, some (pts.length - 3)⟩ := by
  unfold buildRawChain
  rw [if_pos rfl]
  set p0 := pts.getD 0 default with hp0
  set p1 := pts.getD 1 default with hp1
  set frag0 := createOffsetSegment o p0 p1 dist with hfrag0
  set j0 : JointData := ⟨JointCore.make none frag0 (some p0), none, none⟩ with hj0
  set pairs := (pts.drop 1).zip (pts.drop 2) with hpairs
  have hplen : pairs.length = pts.length - 2 := by
    rw [hpairs, List.length_zip, List.length_drop, List.length_drop]
    omega
  have hpget : ∀ t, t + 2 < pts.length → pairs.getD t default =
      (pts.getD (t + 1) default, pts.getD (t + 2) default) := by
    intro t ht
    rw [hpairs]
    exact zip_drop_getD pts t ht
  have hb := buildLoopAux_points o dist pairs [j0] frag0 (by simp) (by rfl)
  have hlen1 : ([j0] : ChainState).length = 1 := by simp
  rw [hlen1] at hb
  simp only [Nat.sub_self] at hb
  obtain ⟨hb1, hb2, hb3, hb4, hb5, hb6, hb7⟩ := hb
  set r := buildLoopAux o dist [j0] 0 frag0 pairs with hr
  have hr1len : r.1.length = pts.length - 1 := by
    rw [hb1]
    omega
  have hprev : r.2.1 = pairs.length := by
    rw [hb2]
    omega
  have hppos : 0 < pairs.length := by omega
  have hjr0 : jd r.1 0 = { j0 with nextJoint := some 1 } := by
    have := hb6 hppos
    rw [this]
    have hjj : jd [j0] 0 = j0 := by rfl
    rw [hjj]
  have hlastj : jd r.1 pairs.length =
      ⟨JointCore.make
          (if pairs.length - 1 = 0 then frag0
            else createOffsetSegment o (pairs.getD (pairs.length - 1 - 1) default).1
              (pairs.getD (pairs.length - 1 - 1) default).2 dist)
          (createOffsetSegment o (pairs.getD (pairs.length - 1) default).1
            (pairs.getD (pairs.length - 1) default).2 dist)
          (some (pairs.getD (pairs.length - 1) default).1),
        none, some (pairs.length - 1)⟩ := by
    have := hb7 (pairs.length - 1) (by omega)
    have e0 : 1 + (pairs.length - 1) = pairs.length := by omega
    rw [e0] at this
    rw [this, if_pos (show pairs.length - 1 + 1 = pairs.length by omega)]
  have h10 : (jd r.1 0).core.curve0 = none := by
    rw [hjr0]
    rfl
  have hlink := linkJoints_back_jd r.1 pairs.length (by omega) (by omega) (by omega) h10
  rw [hprev]
  obtain ⟨hL1, hL2, hL3, hL4⟩ := hlink
  have hcurve1last : (createOffsetSegment o (pairs.getD (pairs.length - 1) default).1
      (pairs.getD (pairs.length - 1) default).2 dist) =
      createOffsetSegment o (pts.getD (pts.length - 2) default)
        (pts.getD (pts.length - 1) default) dist := by
    rw [hpget (pairs.length - 1) (by omega)]
    have e1 : pairs.length - 1 + 1 = pts.length - 2 := by omega
    have e2 : pairs.length - 1 + 2 = pts.length - 1 := by omega
    rw [e1, e2]
  refine ⟨by rw [hL1, hr1len], ?_, ?_, ?_⟩
  · rw [hL2, hjr0, hlastj]
    have e3 : pairs.length = pts.length - 2 := hplen
    rw [hcurve1last, e3]
    rfl
  · intro k h1 h2
    have hkne : k ≠ pairs.length := by omega
    rw [hL4 k (by omega) hkne]
    have hmain := hb7 (k - 1) (by omega)
    have e0 : 1 + (k - 1) = k := by omega
    rw [e0] at hmain
    rw [hmain]
    have hif : ¬ (k - 1 + 1 = pairs.length) := by omega
    rw [if_neg hif]
    have hcurve1 : pairs.getD (k - 1) default =
        (pts.getD k default, pts.getD (k + 1) default) := by
      rw [hpget (k - 1) (by omega)]
      have e5 : k - 1 + 1 = k := by omega
      have e6 : k - 1 + 2 = k + 1 := by omega
      rw [e5, e6]
    have hcurve0 : (if k - 1 = 0 then frag0
        else createOffsetSegment o (pairs.getD (k - 1 - 1) default).1
          (pairs.getD (k - 1 - 1) default).2 dist) =
        createOffsetSegment o (pts.getD (k - 1) default) (pts.getD k default) dist := by
      rcases Nat.eq_or_lt_of_le h1 with h1' | h1'
      · rw [if_pos (by omega), hfrag0, hp0, hp1, ← h1']
      · rw [if_neg (by omega), hpget (k - 1 - 1) (by omega)]
        have e3 : k - 1 - 1 + 1 = k - 1 := by omega
        have e4 : k - 1 - 1 + 2 = k := by omega
        rw [e3, e4]
    rw [hcurve0, hcurve1]
  · have hgoal : jd (linkJoints r.1 pairs.length (some 0)) (pts.length - 2) =
        jd (linkJoints r.1 pairs.length (some 0)) pairs.length := by
      rw [hplen]
    have hfinal : jd (linkJoints r.1 pairs.length (some 0)) pairs.length =
        ⟨JointCore.make
            (if pairs.length - 1 = 0 then frag0
              else createOffsetSegment o (pairs.getD (pairs.length - 1 - 1) default).1
                (pairs.getD (pairs.length - 1 - 1) default).2 dist)
            (createOffsetSegment o (pairs.getD (pairs.length - 1) default).1
              (pairs.getD (pairs.length - 1) default).2 dist)
            (some (pairs.getD (pairs.length - 1) default).1),
          some 0, some (pairs.length - 1)⟩ := by
      rw [hL3, hlastj]
    rw [hgoal, hfinal]
    have hcurve0 : (if pairs.length - 1 = 0 then frag0
        else createOffsetSegment o (pairs.getD (pairs.length - 1 - 1) default).1
          (pairs.getD (pairs.length - 1 - 1) default).2 dist) =
        createOffsetSegment o (pts.getD (pts.length - 3) default)
          (pts.getD (pts.length - 2) default) dist := by
      rcases Nat.eq_zero_or_pos (pairs.length - 1) with hz1 | hpos1
      · rw [if_pos hz1, hfrag0, hp0, hp1]
        have h0 : pts.length - 3 = 0 := by omega
        have h1 : pts.length - 2 = 1 := by omega
        rw [h0, h1]
      · rw [if_neg (by omega), hpget (pairs.length - 1 - 1) (by omega)]
        have e3 : pairs.length - 1 - 1 + 1 = pts.length - 3 := by omega
        have e4 : pairs.length - 1 - 1 + 2 = pts.length - 2 := by omega
        rw [e3, e4]
    have hswing : (pairs.getD (pairs.length - 1) default).1 =
        pts.getD (pts.length - 2) default := by
      rw [hpget (pairs.length - 1) (by omega)]
      have e1 : pairs.length - 1 + 1 = pts.length - 2 := by omega
      rw [e1]
    rw [hcurve0, hcurve1last, hswing]
    have e7 : pairs.length - 1 = pts.length - 3 := by omega
    rw [e7]

theorem annotateVisit_circular (o : GeomOracle) (opts : JointOptions) :
    ∀ (fuel i : Nat) (s : ChainState),
      i < s.length →
      s.length - i ≤ fuel →
      (∀ k, k + 1 < s.length → (jd s k).nextJoint = some (k + 1)) →
      (jd s (s.length - 1)).nextJoint = some 0 →
      (annotateVisit o opts 0 s (some i) fuel).length = s.length ∧
      (∀ k, jd (annotateVisit o opts 0 s (some i) fuel) k =
        if i ≤ k ∧ k < s.length then
          { jd s k with core := annotateJointMode o opts (jd s k).core }
        else jd s k) := by
  intro fuel
  induction fuel with
  | zero =>
    intro i s hi hfuel _ _
    omega
  | succ f ih =>
    intro i s hi hfuel hlinks hlast
    have hnext1 : (jd (annotateAt o opts s i) i).nextJoint = (jd s i).nextJoint :=
      (modifyCore_links s i i (annotateJointMode o opts)).1
    have hlen1 : (annotateAt o opts s i).length = s.length := length_modifyCore _ _ _
    have hjd1 : ∀ k, jd (annotateAt o opts s i) k =
        if k = i then { jd s i with core := annotateJointMode o opts (jd s i).core }
        else jd s k := by
      intro k
      by_cases hk : k = i
      · subst hk
        rw [if_pos rfl]
        exact jd_modifyCore_self _ _ _ hi
      · rw [if_neg hk]
        exact jd_modifyCore_ne s i k (annotateJointMode o opts) (fun h => hk h.symm)
    rcases Nat.lt_or_ge (i + 1) s.length with hilt | hige
    · have hnx : (jd (annotateAt o opts s i) i).nextJoint = some (i + 1) := by
        rw [hnext1]
        exact hlinks i hilt
      have hstep : annotateVisit o opts 0 s (some i) (f + 1) =
          annotateVisit o opts 0 (annotateAt o opts s i) (some (i + 1)) f := by
        simp only [annotateVisit, hnx]
        rw [if_neg (by simp)]
      rw [hstep]
      have hlinks1 : ∀ k, k + 1 < (annotateAt o opts s i).length →
          (jd (annotateAt o opts s i) k).nextJoint = some (k + 1) := by
        intro k hk
        rw [hlen1] at hk
        exact ((modifyCore_links s i k (annotateJointMode o opts)).1).trans (hlinks k hk)
      have hlast1 : (jd (annotateAt o opts s i)
          ((annotateAt o opts s i).length - 1)).nextJoint = some 0 := by
        rw [hlen1]
        exact ((modifyCore_links s i (s.length - 1)
          (annotateJointMode o opts)).1).trans hlast
      have hrec := ih (i + 1) (annotateAt o opts s i) (by omega)
        (by rw [hlen1]; omega) hlinks1 hlast1
      rw [hlen1] at hrec
      refine ⟨hrec.1, ?_⟩
      intro k
      rw [hrec.2 k]
      by_cases hk2 : i + 1 ≤ k ∧ k < s.length
      · rw [if_pos hk2, hjd1 k, if_neg (by omega),
          if_pos (show i ≤ k ∧ k < s.length from ⟨by omega, hk2.2⟩)]
      · rw [if_neg hk2, hjd1 k]
        by_cases hk3 : k = i
        · rw [if_pos hk3, hk3, if_pos (show i ≤ i ∧ i < s.length from ⟨le_refl i, hi⟩)]
        · rw [if_neg hk3, if_neg (by omega)]
    · have hieq : i = s.length - 1 := by omega
      have hnx : (jd (annotateAt o opts s i) i).nextJoint = some 0 := by
        rw [hnext1, hieq]
        exact hlast
      have hstep : annotateVisit o opts 0 s (some i) (f + 1) = annotateAt o opts s i := by
        simp only [annotateVisit, hnx]
        rw [if_pos trivial]
      rw [hstep]
      refine ⟨hlen1, ?_⟩
      intro k
      rw [hjd1 k]
      by_cases hk2 : k = i
      · rw [if_pos hk2, hk2, if_pos (show i ≤ i ∧ i < s.length from ⟨le_refl i, hi⟩)]
      · rw [if_neg hk2, if_neg (by omega)]

theorem annotatedArena_points_closed (o : GeomOracle) (opts : JointOptions)
    (pts : List PointQ) (hN : 3 ≤ pts.length)
    (hsep : ∀ i, i + 1 < pts.length →
      isAlmostEqualPt (pts.getD i default) (pts.getD (i + 1) default) = false)
    (hae : isAlmostEqualPt (pts.getD 0 default)
      (pts.getD (pts.length - 1) default) = true) :
    (annotateChain o opts (buildRawChain o pts true 0) 0 pts.length).length =
        pts.length - 1 ∧
    jd (annotateChain o opts (buildRawChain o pts true 0) 0 pts.length) 0 =
      ⟨⟨JointModeQ.trim,
        some (offSeg (pts.getD (pts.length - 2) default)
          (pts.getD (pts.length - 1) default)), some 1,
        some (offSeg (pts.getD 0 default) (pts.getD 1 default)), some 0, none,
        some (pts.getD 0 default)⟩, some 1, some (pts.length - 2)⟩ ∧
    (∀ k, 1 ≤ k → k + 2 < pts.length →
      jd (annotateChain o opts (buildRawChain o pts true 0) 0 pts.length) k =
        ⟨⟨JointModeQ.trim,
          some (offSeg (pts.getD (k - 1) default) (pts.getD k default)), some 1,
          some (offSeg (pts.getD k default) (pts.getD (k + 1) default)), some 0, none,
          some (pts.getD k default)⟩, some (k + 1), some (k - 1)⟩) ∧
    jd (annotateChain o opts (buildRawChain o pts true 0) 0 pts.length)
        (pts.length - 2) =
      ⟨⟨JointModeQ.trim,
        some (offSeg (pts.getD (pts.length - 3) default)
          (pts.getD (pts.length - 2) default)), some 1,
        some (offSeg (pts.getD (pts.length - 2) default)
          (pts.getD (pts.length - 1) default)), some 0, none,
        some (pts.getD (pts.length - 2) default)⟩,
        some 0, some (pts.length - 3)⟩ ∧
    (∀ a, pts.length - 1 ≤ a →
      jd (annotateChain o opts (buildRawChain o pts true 0) 0 pts.length) a =
        default) := by
  obtain ⟨hRlen, hR0, hRmid, hRlast⟩ := buildRawChain_points_closed o pts 0 hN
  have hsepA : isAlmostEqualPt (pts.getD (pts.length - 2) default)
      (pts.getD (pts.length - 1) default) = false := by
    have := hsep (pts.length - 2) (by omega)
    have e : pts.length - 2 + 1 = pts.length - 1 := by omega
    rwa [e] at this
  have hsep01 : isAlmostEqualPt (pts.getD 0 default) (pts.getD 1 default) = false := by
    simpa using hsep 0 (by omega)
  have hsepB : isAlmostEqualPt (pts.getD (pts.length - 3) default)
      (pts.getD (pts.length - 2) default) = false := by
    have := hsep (pts.length - 3) (by omega)
    have e : pts.length - 3 + 1 = pts.length - 2 := by omega
    rwa [e] at this
  rw [createOffsetSegment_zero o _ _ hsepA, createOffsetSegment_zero o _ _ hsep01] at hR0
  rw [createOffsetSegment_zero o _ _ hsepB, createOffsetSegment_zero o _ _ hsepA] at hRlast
  have hRmid2 : ∀ k, 1 ≤ k → k + 2 < pts.length →
      jd (buildRawChain o pts true 0) k =
        ⟨JointCore.make
            (some (offSeg (pts.getD (k - 1) default) (pts.getD k default)))
            (some (offSeg (pts.getD k default) (pts.getD (k + 1) default)))
            (some (pts.getD k default)),
          some (k + 1), some (k - 1)⟩ := by
    intro k h1 h2
    rw [hRmid k h1 h2,
      createOffsetSegment_zero o _ _ (hsep k (by omega)),
      createOffsetSegment_zero o _ _ (by
        have := hsep (k - 1) (by omega)
        have e : k - 1 + 1 = k := by omega
        rwa [e] at this)]
  have hlinks : ∀ k, k + 1 < (buildRawChain o pts true 0).length →
      (jd (buildRawChain o pts true 0) k).nextJoint = some (k + 1) := by
    intro k hk
    rw [hRlen] at hk
    rcases Nat.eq_zero_or_pos k with rfl | h1
    · rw [hR0]
    · rw [hRmid k h1 (by omega)]
  have hlastlink : (jd (buildRawChain o pts true 0)
      ((buildRawChain o pts true 0).length - 1)).nextJoint = some 0 := by
    rw [hRlen]
    have e : pts.length - 1 - 1 = pts.length - 2 := by omega
    rw [e, hRlast]
  have hA := annotateVisit_circular o opts (pts.length + 5) 0 (buildRawChain o pts true 0)
    (by rw [hRlen]; omega) (by rw [hRlen]; omega) hlinks hlastlink
  have hchain : annotateChain o opts (buildRawChain o pts true 0) 0 pts.length =
      annotateVisit o opts 0 (buildRawChain o pts true 0) (some 0)
        (pts.length + 5) := rfl
  rw [hRlen] at hA
  refine ⟨by rw [hchain, hA.1], ?_, ?_, ?_, ?_⟩
  · rw [hchain, hA.2 0, if_pos ⟨le_refl 0, by omega⟩, hR0,
      annotateJointMode_join_almost o opts _ _ _ _ _
        (by rw [isAlmostEqualPt_symm]; exact hae)]
  · intro k h1 h2
    rw [hchain, hA.2 k, if_pos ⟨Nat.zero_le k, by omega⟩, hRmid2 k h1 h2,
      annotateJointMode_mid_zero]
  · rw [hchain, hA.2 (pts.length - 2), if_pos ⟨Nat.zero_le _, by omega⟩, hRlast,
      annotateJointMode_mid_zero]
  · intro a ha
    rw [hchain, hA.2 a, if_neg (by omega), jd_out _ _ (by rw [hRlen]; omega)]

theorem collectVisit_circular (o : GeomOracle) (s : ChainState) (maxTest : Int)
    (hlinks : ∀ k, k + 1 < s.length → (jd s k).nextJoint = some (k + 1))
    (hlast : (jd s (s.length - 1)).nextJoint = some 0) :
    ∀ (fuel i : Nat) (numOut : Int) (dest : List PointQ),
      i < s.length →
      s.length - i ≤ fuel →
      numOut + ((s.length : Int) - (i : Int)) < maxTest →
      collectVisit o s 0 maxTest (some i) numOut dest fuel =
        collectRun o s i (s.length - i) dest := by
  intro fuel
  induction fuel with
  | zero =>
    intro i numOut dest hi hfuel _
    omega
  | succ f ih =>
    intro i numOut dest hi hfuel hcnt
    have hno : numOut < maxTest := by omega
    rcases Nat.lt_or_ge (i + 1) s.length with hilt | hige
    · have hnx : (jd s i).nextJoint = some (i + 1) := hlinks i hilt
      have hstep : collectVisit o s 0 maxTest (some i) numOut dest (f + 1) =
          collectVisit o s 0 maxTest (some (i + 1)) (numOut + 1)
            (collectAtJoint o s i dest) f := by
        simp only [collectVisit, hnx]
        rw [if_pos hno, if_neg (by simp)]
      rw [hstep, ih (i + 1) (numOut + 1) (collectAtJoint o s i dest) hilt (by omega)
        (by push_cast; omega)]
      have hc : s.length - i = (s.length - (i + 1)) + 1 := by omega
      rw [hc]
      simp only [collectRun]
    · have hieq : i = s.length - 1 := by omega
      have hnx : (jd s i).nextJoint = some 0 := by
        rw [hieq]
        exact hlast
      have hstep : collectVisit o s 0 maxTest (some i) numOut dest (f + 1) =
          collectAtJoint o s i dest := by
        simp only [collectVisit, hnx]
        rw [if_pos hno, if_pos trivial]
      have hc : s.length - i = 1 := by omega
      rw [hstep, hc]
      simp only [collectRun]

theorem collectRun_closed (o : GeomOracle) (s : ChainState) (pts : List PointQ)
    (hN : 3 ≤ pts.length)
    (hsep : ∀ i, i + 1 < pts.length →
      isAlmostEqualPt (pts.getD i default) (pts.getD (i + 1) default) = false)
    (h0 : jd s 0 = ⟨⟨JointModeQ.trim,
      some (offSeg (pts.getD (pts.length - 2) default)
        (pts.getD (pts.length - 1) default)), some 1,
      some (offSeg (pts.getD 0 default) (pts.getD 1 default)), some 0, none,
      some (pts.getD 0 default)⟩, some 1, some (pts.length - 2)⟩)
    (hmid : ∀ k, 1 ≤ k → k + 2 < pts.length → jd s k = ⟨⟨JointModeQ.trim,
      some (offSeg (pts.getD (k - 1) default) (pts.getD k default)), some 1,
      some (offSeg (pts.getD k default) (pts.getD (k + 1) default)), some 0, none,
      some (pts.getD k default)⟩, some (k + 1), some (k - 1)⟩)
    (hlast : jd s (pts.length - 2) = ⟨⟨JointModeQ.trim,
      some (offSeg (pts.getD (pts.length - 3) default)
        (pts.getD (pts.length - 2) default)), some 1,
      some (offSeg (pts.getD (pts.length - 2) default)
        (pts.getD (pts.length - 1) default)), some 0, none,
      some (pts.getD (pts.length - 2) default)⟩,
      some 0, some (pts.length - 3)⟩) :
    collectRun o s 0 (pts.length - 1) [] = pts := by
  have hfrac0 : ∀ b, 1 ≤ b → b + 1 < pts.length → (jd s b).core.fraction0 = some 1 := by
    intro b h1 h2
    rcases Nat.lt_or_ge (b + 2) pts.length with h3 | h3
    · rw [hmid b h1 h3]
    · have he : b = pts.length - 2 := by omega
      rw [he, hlast]
  have h1f : (jd s 1).core.fraction0 = some 1 := hfrac0 1 (le_refl 1) (by omega)
  have hfB0 : nextJointFraction0 s 0 1 = 1 := by
    simp only [nextJointFraction0, h0, h1f]
  have hsep0 : isAlmostEqualPt (pts.getD 0 default) (pts.getD 1 default) = false := by
    simpa using hsep 0 (by omega)
  have hstart : collectAtJoint o s 0 [] = pts.take 2 := by
    rw [collectAtJoint_whole o s 0 (pts.getD 0 default) (pts.getD 1 default) []
      (by rw [h0]) (by rw [h0]) (by rw [h0]) hfB0]
    have htake : pts.take 2 = [pts.getD 0 default, pts.getD 1 default] := by
      rw [take_succ_getD pts 1 (by omega), take_succ_getD pts 0 (by omega)]
      simp
    rw [htake]
    simp only [addPoint, appendStrokePoint, List.getLast?_nil, List.getLast?_singleton,
      hsep0, Bool.false_eq_true, if_false]
    rfl
  have main : ∀ c k, 1 ≤ k → k + c = pts.length - 1 →
      collectRun o s k c (pts.take (k + 1)) = pts := by
    intro c
    induction c with
    | zero =>
      intro k hk1 hkc
      have htake : pts.take (k + 1) = pts := List.take_of_length_le (by omega)
      simp only [collectRun]
      rw [htake]
    | succ c ih =>
      intro k hk1 hkc
      simp only [collectRun]
      rcases Nat.lt_or_ge (k + 2) pts.length with hk2 | hk2
      · have hfnext : (jd s (k + 1)).core.fraction0 = some 1 :=
          hfrac0 (k + 1) (by omega) (by omega)
        rw [collectAtJoint_mid o s pts k hk1 (by omega) (hmid k hk1 hk2) hfnext
          (hsep k (by omega))]
        exact ih (k + 1) (by omega) (by omega)
      · have hkeq : k = pts.length - 2 := by omega
        have hc0 : c = 0 := by omega
        subst hc0
        simp only [collectRun]
        have h0f : (jd s 0).core.fraction0 = some 1 := by rw [h0]
        have hfBlast : nextJointFraction0 s k 1 = 1 := by
          rw [hkeq]
          simp only [nextJointFraction0, hlast, h0f]
        have hwhole := collectAtJoint_whole o s k (pts.getD (pts.length - 2) default)
          (pts.getD (pts.length - 1) default) (pts.take (k + 1))
          (by rw [hkeq, hlast]) (by rw [hkeq, hlast]) (by rw [hkeq, hlast]) hfBlast
        rw [hwhole]
        have hlastq : (pts.take (k + 1)).getLast? =
            some (pts.getD (pts.length - 2) default) := by
          rw [hkeq]
          exact getLast?_take_getD pts (pts.length - 2) (by omega)
        have hsepN : isAlmostEqualPt (pts.getD (pts.length - 2) default)
            (pts.getD (pts.length - 1) default) = false := by
          have := hsep (pts.length - 2) (by omega)
          have e : pts.length - 2 + 1 = pts.length - 1 := by omega
          rwa [e] at this
        have haddp : addPoint (pts.take (k + 1)) (pts.getD (pts.length - 2) default) =
            pts.take (k + 1) := by
          simp only [addPoint, hlastq, isAlmostEqualPt_self, if_true]
        rw [haddp,
          appendStrokePoint_dup _ _ _ hlastq (isAlmostEqualPt_self _),
          appendStrokePoint_new _ _ _ hlastq hsepN]
        rw [hkeq]
        have e : pts.length - 2 + 1 = pts.length - 1 := by omega
        rw [e, ← take_succ_getD pts (pts.length - 1) (by omega)]
        have e2 : pts.length - 1 + 1 = pts.length := by omega
        rw [e2, List.take_length]
  have hc : pts.length - 1 = (pts.length - 2) + 1 := by omega
  rw [hc]
  simp only [collectRun]
  rw [hstart]
  have h2 : pts.take 2 = pts.take (1 + 1) := rfl
  rw [h2]
  exact main (pts.length - 2) 1 (le_refl 1) (by omega)

theorem emittedOffsetPoints_zero_closed (o : GeomOracle) (opts : JointOptions)
    (pts : List PointQ) (hd : opts.leftOffsetDistance = 0) (hN : 3 ≤ pts.length)
    (hsep : ∀ i, i + 1 < pts.length →
      isAlmostEqualPt (pts.getD i default) (pts.getD (i + 1) default) = false)
    (hae : isAlmostEqualPt (pts.getD 0 default)
      (pts.getD (pts.length - 1) default) = true) :
    emittedOffsetPoints o pts true opts = pts := by
  obtain ⟨hAlen, hA0, hAmid, hAlast, hAout⟩ :=
    annotatedArena_points_closed o opts pts hN hsep hae
  set sA := annotateChain o opts (buildRawChain o pts true 0) 0 pts.length with hsA
  have hlinksA : ∀ k, k + 1 < sA.length → (jd sA k).nextJoint = some (k + 1) := by
    intro k hk
    rw [hAlen] at hk
    rcases Nat.eq_zero_or_pos k with rfl | h1
    · rw [hA0]
    · rw [hAmid k h1 (by omega)]
  have hlastA : (jd sA (sA.length - 1)).nextJoint = some 0 := by
    rw [hAlen]
    have e : pts.length - 1 - 1 = pts.length - 2 := by omega
    rw [e, hAlast]
  have hfrac0 : ∀ b, 1 ≤ b → b + 1 < pts.length → (jd sA b).core.fraction0 = some 1 := by
    intro b h1 h2
    rcases Nat.lt_or_ge (b + 2) pts.length with h3 | h3
    · rw [hAmid b h1 h3]
    · have he : b = pts.length - 2 := by omega
      rw [he, hAlast]
  have hfr : ∀ a b, (jd sA a).nextJoint = some b →
      (jd sA a).core.fraction1 = some 0 ∧ (jd sA b).core.fraction0 = some 1 := by
    intro a b hab
    rcases Nat.lt_or_ge a (pts.length - 1) with ha | ha
    · rcases Nat.eq_zero_or_pos a with rfl | ha1
      · rw [hA0] at hab
        have hb : b = 1 := (Option.some.inj hab).symm
        refine ⟨by rw [hA0], ?_⟩
        rw [hb]
        exact hfrac0 1 (le_refl 1) (by omega)
      · rcases Nat.lt_or_ge (a + 2) pts.length with ha2 | ha2
        · rw [hAmid a ha1 ha2] at hab
          have hb : b = a + 1 := (Option.some.inj hab).symm
          refine ⟨by rw [hAmid a ha1 ha2], ?_⟩
          rw [hb]
          exact hfrac0 (a + 1) (by omega) (by omega)
        · have he : a = pts.length - 2 := by omega
          rw [he, hAlast] at hab
          have hb : b = 0 := (Option.some.inj hab).symm
          refine ⟨by rw [he, hAlast], ?_⟩
          rw [hb, hA0]
    · rw [hAout a ha] at hab
      have hdn : (default : JointData).nextJoint = none := rfl
      rw [hdn] at hab
      cases hab
  have hrd : removeDegeneratePrimitives o opts sA 0 pts.length = ⟨sA, 0, 0⟩ :=
    removeDegenAux_noop o opts sA hfr pts.length (some 0) 0 0
  have hrp : removalPasses o opts sA 0 pts.length = (sA, 0, [0]) := by
    show removalPassesAux o opts pts.length sA 0 (4 + 1) = (sA, 0, [0])
    simp only [removalPassesAux, hrd]
    simp
  have hcnt : (-2 * (pts.length : Int)) + ((sA.length : Int) - ((0 : Nat) : Int)) <
      (pts.length : Int) := by
    rw [hAlen]
    have : ((pts.length - 1 : Nat) : Int) ≤ (pts.length : Int) := by
      push_cast
      omega
    omega
  have hcol : collectStrokesFromChain o sA 0 pts.length = pts := by
    show collectVisit o sA 0 ((pts.length : Nat) : Int) (some 0)
      (-2 * ((pts.length : Nat) : Int)) [] (pts.length + 5) = pts
    rw [collectVisit_circular o sA ((pts.length : Nat) : Int) hlinksA hlastA
      (pts.length + 5) 0 (-2 * ((pts.length : Nat) : Int)) []
      (by rw [hAlen]; omega) (by rw [hAlen]; omega) hcnt]
    rw [Nat.sub_zero, hAlen]
    exact collectRun_closed o sA pts hN hsep hA0 hAmid hAlast
  simp only [emittedOffsetPoints, hae, Bool.and_true, hd]
  rw [← hsA, hrp]
  exact hcol

theorem emittedOffsetPoints_demote (o : GeomOracle) (opts : JointOptions)
    (pts : List PointQ) (wrap : Bool) :
    emittedOffsetPoints o pts wrap opts =
      emittedOffsetPoints o pts
        (wrap && isAlmostEqualPt (pts.getD 0 default)
          (pts.getD (pts.length - 1) default)) opts := by
  simp only [emittedOffsetPoints, Bool.and_assoc, Bool.and_self]

/-- C7 (amended): offsetting a chain of at least two points, no two
consecutive of which coincide under the geometric tolerance, by distance 0
returns exactly the input vertices whether or not wrapping was requested,
wrapped as a Loop when the first and last points are almost-equal and as a
Path otherwise. -/
theorem offset_zero_identity (o : GeomOracle) (opts : JointOptions) (pts : List PointQ)
    (wrap : Bool) (hd : opts.leftOffsetDistance = 0) (hN : 2 ≤ pts.length)
    (hsep : ∀ i, i + 1 < pts.length →
      isAlmostEqualPt (pts.getD i default) (pts.getD (i + 1) default) = false) :
    constructPolygonWireXYOffset o pts wrap opts =
      some (if isAlmostEqualPt (pts.getD 0 default) (pts.getD (pts.length - 1) default)
        then ChainResult.loopRes pts else ChainResult.pathRes pts) := by
  have hemit : emittedOffsetPoints o pts wrap opts = pts := by
    cases wrap with
    | false => exact emittedOffsetPoints_zero o opts pts hd hN hsep
    | true =>
      by_cases hae : isAlmostEqualPt (pts.getD 0 default)
          (pts.getD (pts.length - 1) default) = true
      · have hN3 : 3 ≤ pts.length := by
          by_contra h3
          have h2 : pts.length = 2 := by omega
          have hs := hsep 0 (by omega)
          rw [h2] at hae
          norm_num at hae hs
          rw [hs] at hae
          simp at hae
        exact emittedOffsetPoints_zero_closed o opts pts hd hN3 hsep hae
      · rw [Bool.not_eq_true] at hae
        rw [emittedOffsetPoints_demote, hae, Bool.and_false]
        exact emittedOffsetPoints_zero o opts pts hd hN hsep
  simp only [constructPolygonWireXYOffset, hemit]
  rw [if_pos (by omega : 1 < pts.length)]
  by_cases h : isAlmostEqualPt (pts.getD 0 default) (pts.getD (pts.length - 1) default) =
    true
  · rw [if_pos h, if_pos h]
  · rw [if_neg h, if_neg h]

/-- C7 counterexample: the two-point polyline whose two points coincide,
offset by distance 0, yields undefined rather than a chain congruent to
the input, because the degenerate edge cannot be normalised. -/
theorem offset_zero_degenerate_input :
    (JointOptions.create 0).leftOffsetDistance = 0 ∧
    constructPolygonWireXYOffset oracle0
      [⟨0, 0, 0⟩, ⟨0, 0, 0⟩] false (JointOptions.create 0) = none :=
  ⟨rfl, by with_unfolding_all decide⟩

/-- Witness for C7 at the concrete closed chain ptsC7c with wrapping
requested: zero-distance offset returns the input as a closed Loop. -/
theorem offset_zero_identity_witness :
    (JointOptions.create 0).leftOffsetDistance = 0 ∧
    2 ≤ ptsC7c.length ∧
    (∀ i, i + 1 < ptsC7c.length →
      isAlmostEqualPt (ptsC7c.getD i default) (ptsC7c.getD (i + 1) default) = false) ∧
    constructPolygonWireXYOffset oracle0 ptsC7c true (JointOptions.create 0) =
      some (if isAlmostEqualPt (ptsC7c.getD 0 default)
          (ptsC7c.getD (ptsC7c.length - 1) default)
        then ChainResult.loopRes ptsC7c else ChainResult.pathRes ptsC7c) :=
  ⟨rfl, by decide,
    by
      intro i hi
      have hi2 : i < 3 := by
        simp only [ptsC7c, List.length_cons, List.length_nil] at hi
        omega
      interval_cases i <;> with_unfolding_all decide,
    offset_zero_identity oracle0 (JointOptions.create 0) ptsC7c true rfl (by decide)
      (by
        intro i hi
        have hi2 : i < 3 := by
          simp only [ptsC7c, List.length_cons, List.length_nil] at hi
          omega
        interval_cases i <;> with_unfolding_all decide)⟩

/-- C2: an input stream whose embedded scene chunk header declares
version 2 but whose next 32-bit word equals the glTF version-1
scene-format sentinel is silently treated as version 1: the header
decodes as version 1 with the scene position immediately following that
word and the binary position at scene position plus the declared scene
string length, and the decoder produces the same document as the
equivalent input explicitly tagged version 1 (the same stream with the
version word overwritten by 1). -/
theorem gltf_v1_sentinel_same_document
    (pf : SceneDoc → FeatureTableModel → NodesModel) (sd : Bytes → SceneParse)
    (b : Bytes)
    (h2 : readWord b (imdlHeaderSize + readWord b imdlHeaderSize + 4) = gltfVersion2)
    (hs : readWord b (imdlHeaderSize + readWord b imdlHeaderSize + 16) =
      gltf1SceneFormat) :
    readGltfHeader b (imdlHeaderSize + readWord b imdlHeaderSize) =
      ⟨readWord b (imdlHeaderSize + readWord b imdlHeaderSize), gltfVersion1,
        readWord b (imdlHeaderSize + readWord b imdlHeaderSize + 8),
        readWord b (imdlHeaderSize + readWord b imdlHeaderSize + 12),
        imdlHeaderSize + readWord b imdlHeaderSize + 20,
        imdlHeaderSize + readWord b imdlHeaderSize + 20 +
          readWord b (imdlHeaderSize + readWord b imdlHeaderSize + 12),
        readWord b (imdlHeaderSize + readWord b imdlHeaderSize) == tileFormatGltf⟩ ∧
    parseImdlDocument pf sd
        (writeWord b (imdlHeaderSize + readWord b imdlHeaderSize + 4) gltfVersion1) =
      parseImdlDocument pf sd b :=
  ⟨readGltfHeader_sentinel_form b (imdlHeaderSize + readWord b imdlHeaderSize) h2 hs,
    gltf_v1_explicit_version_same_document pf sd b h2 hs⟩

/-- Witness for C2 at the concrete buffer byteC2: the hypotheses hold and
the parse of the sentinel form equals the parse of the explicit
version-1 form. -/
theorem gltf_v1_sentinel_same_document_witness :
    readWord byteC2 (imdlHeaderSize + readWord byteC2 imdlHeaderSize + 4) =
      gltfVersion2 ∧
    readWord byteC2 (imdlHeaderSize + readWord byteC2 imdlHeaderSize + 16) =
      gltf1SceneFormat ∧
    parseImdlDocument parseNodesNone sceneDecodeMeshes
        (writeWord byteC2 (imdlHeaderSize + readWord byteC2 imdlHeaderSize + 4)
          gltfVersion1) =
      parseImdlDocument parseNodesNone sceneDecodeMeshes byteC2 :=
  ⟨by decide, by decide,
    (gltf_v1_sentinel_same_document parseNodesNone sceneDecodeMeshes byteC2
      (by decide) (by decide)).2⟩
